import Mathlib

/-!
Two-phase two-component box model: the local Jacobian

A shallow embedding of `dumux/new_models/2p2c/2p2cboxmodel.hh`.

* `Scalar` is the field of rationals: arithmetic is exact. Where the rounding
  of `double` decides a result, the operations are rounded explicitly with
  `roundDouble` (`harmonicMeanKRounded`).
* A `FieldVector<Scalar, n>` is a function `Fin n → Scalar`, a `FieldMatrix` a
  function of two indices; a C array indexed by a node number is a function on
  `Nat`.
* Members written through a reference are passed in and returned.
* `DUNE_THROW` is the `Except.error` branch of `Except Exception`.
* The members of the CRTP `Implementation` reached through `asImp_()` are the
  fields of the structure `Implementation`; `TwoPTwoCBoxJacobian` is the
  isothermal one of the source.
-/

namespace Dune

/-! ## TwoPTwoCTraits -/

/-- The scalar type of the model, exact rationals. -/
abbrev Scalar := ℚ

/-- Number of primary variables. -/
abbrev PrimaryVars : Nat := 2
/-- Number of fluid phases. -/
abbrev NumPhases : Nat := 2
/-- Number of fluid components within a phase. -/
abbrev NumComponents : Nat := 2

/-- Index for the wetting phase pressure in a field vector. -/
abbrev PwIndex : Fin PrimaryVars := 0
/-- Index for the non-wetting phase quantity. -/
abbrev SwitchIndex : Fin PrimaryVars := 1

/-- Index of the wetting phase. -/
abbrev WPhaseIndex : Fin NumPhases := 0
/-- Index of the non-wetting phase. -/
abbrev NPhaseIndex : Fin NumPhases := 1

/-- Index of the wetting component. -/
abbrev WCompIndex : Fin NumComponents := 0
/-- Index of the non-wetting component. -/
abbrev NCompIndex : Fin NumComponents := 1

/-- Only the non-wetting phase is present. -/
abbrev NPhaseOnly : Int := 0
/-- Only the wetting phase is present. -/
abbrev WPhaseOnly : Int := 1
/-- Both phases are present. -/
abbrev BothPhases : Int := 2

/-- The type `FieldVector<Scalar, NumPhases>`. -/
abbrev PhasesVector := Fin NumPhases → Scalar

/-- The type `FieldVector<Scalar, PrimaryVariables>` of the box traits. -/
abbrev UnknownsVector := Fin PrimaryVars → Scalar

/-- The type `FieldMatrix<Scalar, NumComponents, NumPhases>`. -/
abbrev MassfracMatrix := Fin NumComponents → Fin NumPhases → Scalar

/-- The assignment `m[r][c] = v` on a field matrix. -/
def MassfracMatrix.setEntry (m : MassfracMatrix) (r : Fin NumComponents) (c : Fin NumPhases)
    (v : Scalar) : MassfracMatrix :=
  Function.update m r (Function.update (m r) c v)

/-- Data which is attached to each node and cached. -/
structure VariableNodeData where
  satN : Scalar
  satW : Scalar
  pW : Scalar
  pC : Scalar
  pN : Scalar
  mobility : PhasesVector
  density : PhasesVector
  massfrac : MassfracMatrix
  phaseState : Int

/-! ## Collaborators of the local Jacobian -/

/-- A coordinate vector (`WorldCoord`, `LocalCoord`). -/
abbrev Coord (dim : Nat) := Fin dim → Scalar

/-- The type `FieldMatrix<Scalar, GridDim, GridDim>`. -/
abbrev Tensor (dim : Nat) := Fin dim → Fin dim → Scalar

/-- A grid cell, as far as the local Jacobian looks at it. -/
structure Cell (dim : Nat) where
  /-- The corner `cell.geometry()[localIdx]`. -/
  geometry : Nat → Coord dim
  /-- The position `DomTraits::referenceElement(cell.type()).position(localIdx, GridDim)`. -/
  referencePosition : Nat → Coord dim
  /-- The number of nodes `count<GridDim>()`. -/
  count : Nat

/-- The material law, `problem.materialLaw()`. -/
structure MaterialLaw (dim : Nat) where
  pC : Scalar → Coord dim → Cell dim → Coord dim → Scalar
  mobW : Scalar → Coord dim → Cell dim → Coord dim → Scalar → Scalar → Scalar
  mobN : Scalar → Coord dim → Cell dim → Coord dim → Scalar → Scalar → Scalar

/-- The solubility law, `problem.multicomp()`. -/
structure Multicomp where
  xAW : Scalar → Scalar → Scalar
  xWN : Scalar → Scalar → Scalar

/-- A fluid, `problem.wettingPhase()` and `problem.nonwettingPhase()`. -/
structure Fluid where
  density : Scalar → Scalar → Scalar → Scalar

/-- The soil, `problem.soil()`. -/
structure Soil (dim : Nat) where
  K : Coord dim → Cell dim → Coord dim → Tensor dim

/-- The problem the local Jacobian is evaluated for. -/
structure Problem (dim : Nat) where
  numNodes : Nat
  /-- The position `it->geometry()[0]` of the node with the global index
  `nodeIndex(*it)`; the node iterator of the problem visits the global indices
  below `numNodes`. -/
  nodePosition : Nat → Coord dim
  /-- The global index `nodeIndex(cell, localIdx)` of a node of a cell. -/
  nodeIndex : Cell dim → Nat → Nat
  porosity : Cell dim → Nat → Scalar
  gravity : Coord dim
  /-- The capillary pressure `problem.pC(satW, globalIdx, globalPos)`. -/
  pC : Scalar → Nat → Coord dim → Scalar
  materialLaw : MaterialLaw dim
  multicomp : Multicomp
  wettingPhase : Fluid
  nonwettingPhase : Fluid
  soil : Soil dim

/-- A sub-control volume of the finite volume geometry of a cell. -/
structure SubContVol (dim : Nat) where
  global : Coord dim
  localCoord : Coord dim

/-- A face between two sub-control volumes. -/
structure SubContVolFace (dim : Nat) where
  i : Nat
  j : Nat
  normal : Coord dim
  grad : Nat → Coord dim

/-- The type `BoxTraits::FVElementGeometry`. -/
structure FVElementGeometry (dim : Nat) where
  nNodes : Nat
  subContVol : Nat → SubContVol dim
  subContVolFace : Nat → SubContVolFace dim

/-- The exceptions thrown by the local Jacobian. -/
inductive Exception where
  /-- The exception `Dune::InvalidStateException`, "Phase state ... is invalid." -/
  | InvalidStateException (phaseState : Int)
  deriving DecidableEq, Repr

/-! ## TwoPTwoCBoxJacobianBase -/

/-- The type `BoxTraits::LocalFunction`: the unknowns at each node of a cell. -/
abbrev LocalFunction := Nat → UnknownsVector

/-- The type `BoxTraits::SpatialFunction`: the unknowns at each node of the
grid, indexed by the global index of the node. -/
abbrev SpatialFunction := Nat → UnknownsVector

/-- Cached data for the each node of the cell. -/
structure CellCache where
  atSCV : Nat → VariableNodeData

/-- Data which is attached to each node and is not only locally. -/
structure StaticNodeData where
  phaseState : Int
  oldPhaseState : Int
  deriving DecidableEq, Repr

/-- The members of `Implementation` that the base class calls through `asImp_()`. -/
structure Implementation (dim : Nat) where
  heatStorage : UnknownsVector → Nat → LocalFunction → CellCache → UnknownsVector
  updateTempGrad : Coord dim → Coord dim → LocalFunction → Nat → Coord dim
  advectiveHeatFlux : UnknownsVector → PhasesVector → Scalar → VariableNodeData →
    VariableNodeData → VariableNodeData → VariableNodeData → UnknownsVector
  diffusiveHeatFlux : UnknownsVector → Nat → Coord dim → UnknownsVector
  temperature_ : UnknownsVector → Scalar

/-- The state of a `TwoPTwoCBoxJacobianBase` object; `problem_`, `curCell_` and
`curCellGeom_` are the members of its parent `BoxJacobian`. -/
structure TwoPTwoCBoxJacobianBase (dim : Nat) where
  problem_ : Problem dim
  curCell_ : Cell dim
  curCellGeom_ : FVElementGeometry dim
  staticNodeDat_ : Nat → StaticNodeData
  switchFlag_ : Bool
  curSol_ : LocalFunction
  curSolCache_ : CellCache
  curSolDeflected_ : Bool
  curSolOrigValue_ : Scalar
  curSolOrigVarData_ : VariableNodeData
  prevSol_ : LocalFunction
  prevSolCache_ : CellCache

/-- The method `updateVarNodeData_`: the cached data `d` of a node from its
unknowns `nodeSol` and its phase state. -/
def updateVarNodeData_ {dim : Nat} (d : VariableNodeData) (nodeSol : UnknownsVector)
    (phaseState : Int) (cell : Cell dim) (localIdx : Nat) (problem : Problem dim)
    (temperature : Scalar) : Except Exception VariableNodeData := do
  let global := cell.geometry localIdx
  let localCoord := cell.referencePosition localIdx
  let d := { d with pW := nodeSol PwIndex }
  let d ←
    if phaseState = BothPhases then pure { d with satN := nodeSol SwitchIndex }
    else if phaseState = WPhaseOnly then pure { d with satN := 0 }
    else if phaseState = NPhaseOnly then pure { d with satN := 1 }
    else throw (Exception.InvalidStateException phaseState)
  let d := { d with satW := 1 - d.satN }
  let d := { d with pC := problem.materialLaw.pC d.satW global cell localCoord }
  let d := { d with pN := d.pW + d.pC }
  -- Solubilities of components in phases
  let d ←
    if phaseState = BothPhases then do
      let d := { d with massfrac :=
        d.massfrac.setEntry NCompIndex WPhaseIndex (problem.multicomp.xAW d.pN temperature) }
      pure { d with massfrac :=
        d.massfrac.setEntry WCompIndex NPhaseIndex (problem.multicomp.xWN d.pN temperature) }
    else if phaseState = WPhaseOnly then do
      let d := { d with massfrac := d.massfrac.setEntry WCompIndex NPhaseIndex 0 }
      pure { d with massfrac := d.massfrac.setEntry NCompIndex WPhaseIndex (nodeSol SwitchIndex) }
    else if phaseState = NPhaseOnly then do
      let d := { d with massfrac := d.massfrac.setEntry WCompIndex NPhaseIndex (nodeSol SwitchIndex) }
      pure { d with massfrac := d.massfrac.setEntry NCompIndex WPhaseIndex 0 }
    else throw (Exception.InvalidStateException phaseState)
  let d := { d with massfrac :=
    d.massfrac.setEntry WCompIndex WPhaseIndex (1 - d.massfrac NCompIndex WPhaseIndex) }
  let d := { d with massfrac :=
    d.massfrac.setEntry NCompIndex NPhaseIndex (1 - d.massfrac WCompIndex NPhaseIndex) }
  let d := { d with phaseState := phaseState }
  -- Density of Water is set constant here!
  let d := { d with density := (Function.update d.density WPhaseIndex
    (problem.wettingPhase.density temperature d.pW (d.massfrac NCompIndex WPhaseIndex))) }
  let d := { d with density := (Function.update d.density NPhaseIndex
    (problem.nonwettingPhase.density temperature d.pN (d.massfrac WCompIndex NPhaseIndex))) }
  -- Mobilities & densities
  let d := { d with mobility := (Function.update d.mobility WPhaseIndex
    (problem.materialLaw.mobW d.satW global cell localCoord temperature d.pW)) }
  let d := { d with mobility := (Function.update d.mobility NPhaseIndex
    (problem.materialLaw.mobN d.satN global cell localCoord temperature d.pN)) }
  pure d

/-- The method `localRate`: the storage term of the sub-control volume `scvId`,
written to `result`. -/
def localRate {dim : Nat} (impl : Implementation dim) (self : TwoPTwoCBoxJacobianBase dim)
    (_result : UnknownsVector) (scvId : Nat) (usePrevSol : Bool) : UnknownsVector :=
  let result : UnknownsVector := fun _ => 0
  let sol := if usePrevSol then self.prevSol_ else self.curSol_
  let cellCache := if usePrevSol then self.prevSolCache_ else self.curSolCache_
  let satN := (cellCache.atSCV scvId).satN
  let satW := (cellCache.atSCV scvId).satW
  -- assume porosity defined at nodes
  let porosity := self.problem_.porosity self.curCell_ scvId
  -- storage of component water
  let result := Function.update result PwIndex
    (porosity * ((cellCache.atSCV scvId).density WPhaseIndex *
                 satW *
                 (cellCache.atSCV scvId).massfrac WCompIndex WPhaseIndex
                 + (cellCache.atSCV scvId).density NPhaseIndex *
                 satN *
                 (cellCache.atSCV scvId).massfrac WCompIndex NPhaseIndex))
  -- storage of component air
  let result := Function.update result SwitchIndex
    (porosity * ((cellCache.atSCV scvId).density NPhaseIndex *
                 satN *
                 (cellCache.atSCV scvId).massfrac NCompIndex NPhaseIndex
                 + (cellCache.atSCV scvId).density WPhaseIndex *
                 satW *
                 (cellCache.atSCV scvId).massfrac NCompIndex WPhaseIndex))
  -- storage of energy
  impl.heatStorage result scvId sol cellCache

/-- The method `deflectCurSolution`: vary the component `component` of the
unknowns of the node `node` and update the cache entry of that node only. -/
def deflectCurSolution {dim : Nat} (impl : Implementation dim)
    (self : TwoPTwoCBoxJacobianBase dim) (node : Nat) (component : Fin PrimaryVars)
    (value : Scalar) : Except Exception (TwoPTwoCBoxJacobianBase dim) := do
  -- make sure that the orignal state can be restored
  let self :=
    if !self.curSolDeflected_ then
      { self with
        curSolDeflected_ := true
        curSolOrigValue_ := self.curSol_ node component
        curSolOrigVarData_ := self.curSolCache_.atSCV node }
    else self
  let globalIdx := self.problem_.nodeIndex self.curCell_ node
  let self := { self with
    curSol_ := (Function.update self.curSol_ node
      (Function.update (self.curSol_ node) component value)) }
  let d ← updateVarNodeData_ (self.curSolCache_.atSCV node) (self.curSol_ node)
    (self.staticNodeDat_ globalIdx).phaseState self.curCell_ node self.problem_
    (impl.temperature_ (self.curSol_ node))
  pure { self with curSolCache_ := { atSCV := Function.update self.curSolCache_.atSCV node d } }

/-- The method `restoreCurSolution`: restore the local Jacobian to the state
before `deflectCurSolution` was called. -/
def restoreCurSolution {dim : Nat} (self : TwoPTwoCBoxJacobianBase dim) (node : Nat)
    (component : Fin PrimaryVars) : TwoPTwoCBoxJacobianBase dim :=
  let self := { self with curSolDeflected_ := false }
  let self := { self with
    curSol_ := (Function.update self.curSol_ node
      (Function.update (self.curSol_ node) component self.curSolOrigValue_)) }
  { self with
    curSolCache_ := { atSCV := (Function.update self.curSolCache_.atSCV node
      self.curSolOrigVarData_) } }

/-- The `double` nearest to a rational number: 53 significant bits, ties to
the even significand. The exponent range of `double` is not modelled. -/
def roundDouble (q : Scalar) : Scalar :=
  if q = 0 then 0 else
    let e : Int := Int.log 2 |q|
    let ulp : Scalar := 2 ^ (e - 52)
    let t : Scalar := q / ulp
    let n : Int := ⌊t⌋
    let m : Int :=
      if t - n < 1 / 2 then n
      else if 1 / 2 < t - n then n + 1
      else if n % 2 = 0 then n else n + 1
    m * ulp

/-- The body of the loops of `harmonicMeanK_`, at the entry `Ki[kx][ky]`. The
result of each operation on `double` goes through `fl`: the identity for
exact arithmetic, `roundDouble` for the arithmetic of the machine. -/
def harmonicMeanKStep {dim : Nat} (fl : Scalar → Scalar) (Kj : Tensor dim) (kx : Fin dim)
    (Ki : Tensor dim) (ky : Fin dim) : Tensor dim :=
  let eps : Scalar := fl 1e-20
  if Ki kx ky ≠ Kj kx ky then
    Function.update Ki kx (Function.update (Ki kx) ky
      (fl (2 / fl (fl (1 / fl (Ki kx ky + eps)) + fl (1 / fl (Kj kx ky + eps))))))
  else Ki

/-- The loops of `harmonicMeanK_` over the rows `kx` and the columns `ky`,
with the rounding `fl` of each operation. -/
def harmonicMeanKRounded {dim : Nat} (fl : Scalar → Scalar) (Ki Kj : Tensor dim) :
    Tensor dim :=
  (List.finRange dim).foldl
    (fun Ki kx => (List.finRange dim).foldl (harmonicMeanKStep fl Kj kx) Ki) Ki

/-- The method `harmonicMeanK_` in exact arithmetic: the harmonic mean of the
permeabilities, computed entry by entry; the result is what the call leaves in
its first argument `Ki`. -/
def harmonicMeanK_ {dim : Nat} (Ki Kj : Tensor dim) : Tensor dim :=
  harmonicMeanKRounded id Ki Kj

/-- The product `K.mv(x, y)` of a field matrix with a vector, `y = K x`. -/
def Tensor.mv {dim : Nat} (K : Tensor dim) (x : Coord dim) : Coord dim :=
  fun r => ∑ c : Fin dim, K r c * x c

/-- The scalar product `a * b` of two field vectors. -/
def Coord.dot {dim : Nat} (a b : Coord dim) : Scalar :=
  ∑ d : Fin dim, a d * b d

/-- The gradients accumulated by `fluxRate` over the nodes of the cell. -/
structure FluxGradients (dim : Nat) where
  pGrad : Fin NumPhases → Coord dim
  xGrad : Fin NumPhases → Coord dim
  tempGrad : Coord dim

/-- The body of the loop of `fluxRate` over the adjacent nodes `k`. -/
def fluxRateGradStep {dim : Nat} (impl : Implementation dim)
    (self : TwoPTwoCBoxJacobianBase dim) (faceId : Nat) (g : FluxGradients dim) (k : Nat) :
    FluxGradients dim :=
  -- FEGradient at node k
  let feGrad := (self.curCellGeom_.subContVolFace faceId).grad k
  let pressure : PhasesVector := fun _ => 0
  let pressure := Function.update pressure WPhaseIndex (self.curSolCache_.atSCV k).pW
  let pressure := Function.update pressure NPhaseIndex (self.curSolCache_.atSCV k).pN
  -- compute sum of pressure gradients for each phase
  let pGrad : Fin NumPhases → Coord dim :=
    fun phase d => g.pGrad phase d + feGrad d * pressure phase
  -- for diffusion of air in wetting phase
  let xGrad := Function.update g.xGrad WPhaseIndex
    (fun d => g.xGrad WPhaseIndex d
      + feGrad d * (self.curSolCache_.atSCV k).massfrac NCompIndex WPhaseIndex)
  -- for diffusion of water in nonwetting phase
  let xGrad := Function.update xGrad NPhaseIndex
    (fun d => xGrad NPhaseIndex d
      + feGrad d * (self.curSolCache_.atSCV k).massfrac WCompIndex NPhaseIndex)
  -- temperature gradient
  let tempGrad := impl.updateTempGrad g.tempGrad feGrad self.curSol_ k
  { pGrad := pGrad, xGrad := xGrad, tempGrad := tempGrad }

/-- The gradients of `fluxRate` at a face: the loop over the nodes of the
cell, then the correction of the pressure gradients by the hydrostatic
pressure due to gravity, with the densities of the node `i` of the face. -/
def fluxRateGradients {dim : Nat} (impl : Implementation dim)
    (self : TwoPTwoCBoxJacobianBase dim) (faceId : Nat) : FluxGradients dim :=
  let i := (self.curCellGeom_.subContVolFace faceId).i
  let g := (List.range self.curCellGeom_.nNodes).foldl (fluxRateGradStep impl self faceId)
    { pGrad := fun _ _ => 0, xGrad := fun _ _ => 0, tempGrad := fun _ => 0 }
  { g with pGrad := fun phase d =>
      g.pGrad phase d - self.problem_.gravity d * (self.curSolCache_.atSCV i).density phase }

/-- The vector `vDarcyOut` of `fluxRate`: for each phase `K * grad p` with the
harmonic mean `K` of the permeabilities at the nodes of the face, projected on
the normal of the face. -/
def fluxRateDarcy {dim : Nat} (impl : Implementation dim)
    (self : TwoPTwoCBoxJacobianBase dim) (faceId : Nat) : PhasesVector :=
  let i := (self.curCellGeom_.subContVolFace faceId).i
  let j := (self.curCellGeom_.subContVolFace faceId).j
  let normal := (self.curCellGeom_.subContVolFace faceId).normal
  let global_i := (self.curCellGeom_.subContVol i).global
  let global_j := (self.curCellGeom_.subContVol j).global
  let local_i := (self.curCellGeom_.subContVol i).localCoord
  let local_j := (self.curCellGeom_.subContVol j).localCoord
  let g := fluxRateGradients impl self faceId
  -- calculate the permeability tensor
  let K := self.problem_.soil.K global_i self.curCell_ local_i
  let Kj := self.problem_.soil.K global_j self.curCell_ local_j
  let K := harmonicMeanK_ K Kj
  fun phase => Coord.dot (K.mv (g.pGrad phase)) normal

/-- The upstream and the downstream node of a phase in `fluxRate`: the
pointers `up = &atSCV[i]` and `dn = &atSCV[j]`, swapped when the Darcy flux
`v` of the phase is positive. -/
def upwindNodes (v : Scalar) (i j : Nat) : Nat × Nat :=
  if v > 0 then (j, i) else (i, j)

/-- The upstream and the downstream node of a phase at a face, as chosen by
`fluxRate` from the Darcy flux of that phase. -/
def fluxRateUpwind {dim : Nat} (impl : Implementation dim)
    (self : TwoPTwoCBoxJacobianBase dim) (faceId : Nat) (phase : Fin NumPhases) : Nat × Nat :=
  upwindNodes (fluxRateDarcy impl self faceId phase)
    (self.curCellGeom_.subContVolFace faceId).i (self.curCellGeom_.subContVolFace faceId).j

/-- The method `fluxRate`: the mass flux over the face `faceId` of a
sub-control volume, written to `flux`. The code behind its `return`, the
diffusion, is never executed. -/
def fluxRate {dim : Nat} (impl : Implementation dim) (self : TwoPTwoCBoxJacobianBase dim)
    (flux : UnknownsVector) (faceId : Nat) : UnknownsVector :=
  let tempGrad := (fluxRateGradients impl self faceId).tempGrad
  let vDarcyOut := fluxRateDarcy impl self faceId
  -- find upsteam and downstream nodes
  let upW := self.curSolCache_.atSCV (fluxRateUpwind impl self faceId WPhaseIndex).1
  let dnW := self.curSolCache_.atSCV (fluxRateUpwind impl self faceId WPhaseIndex).2
  let upN := self.curSolCache_.atSCV (fluxRateUpwind impl self faceId NPhaseIndex).1
  let dnN := self.curSolCache_.atSCV (fluxRateUpwind impl self faceId NPhaseIndex).2
  -- Upwind parameter
  let alpha : Scalar := 1
  -- advective flux of the wetting component
  let flux := Function.update flux PwIndex (vDarcyOut WPhaseIndex * (
    alpha *
    (upW.density WPhaseIndex * upW.mobility WPhaseIndex * upW.massfrac WCompIndex WPhaseIndex)
    +
    (1 - alpha) *
    (dnW.density WPhaseIndex * dnW.mobility WPhaseIndex * dnW.massfrac WCompIndex WPhaseIndex)))
  let flux := Function.update flux PwIndex (flux PwIndex + vDarcyOut NPhaseIndex * (
    alpha *
    (upN.density NPhaseIndex * upN.mobility NPhaseIndex * upN.massfrac WCompIndex NPhaseIndex)
    +
    (1 - alpha) *
    (dnN.density NPhaseIndex * dnN.mobility NPhaseIndex * dnN.massfrac WCompIndex NPhaseIndex)))
  -- advective flux of the non-wetting component
  let flux := Function.update flux SwitchIndex (vDarcyOut NPhaseIndex * (
    alpha *
    (upN.density NPhaseIndex * upN.mobility NPhaseIndex * upN.massfrac NCompIndex NPhaseIndex)
    +
    (1 - alpha) *
    (dnN.density NPhaseIndex * dnN.mobility NPhaseIndex * dnN.massfrac NCompIndex NPhaseIndex)))
  let flux := Function.update flux SwitchIndex (flux SwitchIndex + vDarcyOut WPhaseIndex * (
    alpha *
    (upW.density WPhaseIndex * upW.mobility WPhaseIndex * upW.massfrac NCompIndex WPhaseIndex)
    +
    (1 - alpha) *
    (dnW.density WPhaseIndex * dnW.mobility WPhaseIndex * dnW.massfrac NCompIndex WPhaseIndex)))
  -- advective flux of energy
  let flux := impl.advectiveHeatFlux flux vDarcyOut alpha upW dnW upN dnN
  impl.diffusiveHeatFlux flux faceId tempGrad

/-- The method `switched`: true if the primary variables were switched after
the last timestep. -/
def switched {dim : Nat} (self : TwoPTwoCBoxJacobianBase dim) : Bool :=
  self.switchFlag_

/-- The method `setSwitched`. -/
def setSwitched {dim : Nat} (self : TwoPTwoCBoxJacobianBase dim) (yesno : Bool) :
    TwoPTwoCBoxJacobianBase dim :=
  { self with switchFlag_ := yesno }

/-- The method `primaryVarSwitch_`: perform the variable switch at the node
`globalIdx`. It returns the object, the solution `sol` it writes to, and true
iff a variable switch was performed. The messages written to `std::cout` are
left out. -/
def primaryVarSwitch_ {dim : Nat} (impl : Implementation dim)
    (self : TwoPTwoCBoxJacobianBase dim) (sol : SpatialFunction) (globalIdx : Nat)
    (globalPos : Coord dim) : TwoPTwoCBoxJacobianBase dim × SpatialFunction × Bool :=
  -- evaluate primary variable switch
  let phaseState := (self.staticNodeDat_ globalIdx).phaseState
  let newPhaseState := phaseState
  -- Evaluate saturation and pressures
  let pW := sol globalIdx PwIndex
  let satW : Scalar := 0
  let temperature := impl.temperature_ (sol globalIdx)
  let satW :=
    if phaseState = BothPhases then 1 - sol globalIdx SwitchIndex
    else if phaseState = WPhaseOnly then 1
    else if phaseState = NPhaseOnly then 0
    else satW
  let pC := self.problem_.pC satW globalIdx globalPos
  let pN := pW + pC
  let r : Int × SpatialFunction :=
    if phaseState = NPhaseOnly then
      let xWN := sol globalIdx SwitchIndex
      let xWNmax := self.problem_.multicomp.xWN pN temperature
      if xWN > xWNmax * (1 + 2e-5) then
        -- wetting phase appears
        (BothPhases,
          Function.update sol globalIdx
            (Function.update (sol globalIdx) SwitchIndex (1 - 2e-5)))
      else (newPhaseState, sol)
    else if phaseState = WPhaseOnly then
      let xAW := sol globalIdx SwitchIndex
      let xAWmax := self.problem_.multicomp.xAW pN temperature
      if xAW > xAWmax * (1 + 2e-5) then
        -- non-wetting phase appears
        (BothPhases,
          Function.update sol globalIdx (Function.update (sol globalIdx) SwitchIndex 2e-5))
      else (newPhaseState, sol)
    else if phaseState = BothPhases then
      let satN := 1 - satW
      if satN < -1e-5 then
        -- non-wetting phase disappears
        (WPhaseOnly,
          Function.update sol globalIdx
            (Function.update (sol globalIdx) SwitchIndex
              (self.problem_.multicomp.xAW pN temperature)))
      else if satW < -1e-5 then
        -- wetting phase disappears
        (NPhaseOnly,
          Function.update sol globalIdx
            (Function.update (sol globalIdx) SwitchIndex
              (self.problem_.multicomp.xWN pN temperature)))
      else (newPhaseState, sol)
    else (newPhaseState, sol)
  let newPhaseState := r.1
  let sol := r.2
  let self := { self with
    staticNodeDat_ := (Function.update self.staticNodeDat_ globalIdx
      { self.staticNodeDat_ globalIdx with phaseState := newPhaseState }) }
  (self, sol, decide (phaseState ≠ newPhaseState))

/-- The body of the loop of `updateStaticData` over the nodes: the variable
switch at the node `globalIdx`, and the flag `wasSwitched`. -/
def updateStaticDataStep {dim : Nat} (impl : Implementation dim)
    (st : TwoPTwoCBoxJacobianBase dim × SpatialFunction × Bool) (globalIdx : Nat) :
    TwoPTwoCBoxJacobianBase dim × SpatialFunction × Bool :=
  let global := st.1.problem_.nodePosition globalIdx
  let r := primaryVarSwitch_ impl st.1 st.2.1 globalIdx global
  (r.1, r.2.1, r.2.2 || st.2.2)

/-- The method `updateStaticData`: update the static data of all nodes and do
a variable switch where necessary. It returns the object and the solution
`curSol` it writes to; `oldSol` is not used. -/
def updateStaticData {dim : Nat} (impl : Implementation dim)
    (self : TwoPTwoCBoxJacobianBase dim) (curSol _oldSol : SpatialFunction) :
    TwoPTwoCBoxJacobianBase dim × SpatialFunction :=
  let wasSwitched := false
  let st := (List.range self.problem_.numNodes).foldl (updateStaticDataStep impl)
    (self, curSol, wasSwitched)
  (setSwitched st.1 st.2.2, st.2.1)

/-- The body of the loop of `updateOldPhaseState`, at the node `i`. -/
def updateOldPhaseStateStep {dim : Nat} (self : TwoPTwoCBoxJacobianBase dim) (i : Nat) :
    TwoPTwoCBoxJacobianBase dim :=
  { self with
    staticNodeDat_ := (Function.update self.staticNodeDat_ i
      { self.staticNodeDat_ i with oldPhaseState := (self.staticNodeDat_ i).phaseState }) }

/-- The method `updateOldPhaseState`: set the old phase state of all nodes to
the current one. -/
def updateOldPhaseState {dim : Nat} (self : TwoPTwoCBoxJacobianBase dim) :
    TwoPTwoCBoxJacobianBase dim :=
  let nNodes := self.problem_.numNodes
  (List.range nNodes).foldl updateOldPhaseStateStep self

/-- The body of the loop of `resetPhaseState`, at the node `i`. -/
def resetPhaseStateStep {dim : Nat} (self : TwoPTwoCBoxJacobianBase dim) (i : Nat) :
    TwoPTwoCBoxJacobianBase dim :=
  { self with
    staticNodeDat_ := (Function.update self.staticNodeDat_ i
      { self.staticNodeDat_ i with phaseState := (self.staticNodeDat_ i).oldPhaseState }) }

/-- The method `resetPhaseState`: reset the current phase state of all nodes to
the old one after an update failed. -/
def resetPhaseState {dim : Nat} (self : TwoPTwoCBoxJacobianBase dim) :
    TwoPTwoCBoxJacobianBase dim :=
  let nNodes := self.problem_.numNodes
  (List.range nNodes).foldl resetPhaseStateStep self

/-- The body of the loop of `updateCellCache_`, at the node `i` of the cell. -/
def updateCellCacheStep {dim : Nat} (impl : Implementation dim)
    (self : TwoPTwoCBoxJacobianBase dim) (sol : LocalFunction) (isOldSol : Bool)
    (dest : CellCache) (i : Nat) : Except Exception CellCache := do
  let iGlobal := self.problem_.nodeIndex self.curCell_ i
  let phaseState :=
    if isOldSol then (self.staticNodeDat_ iGlobal).oldPhaseState
    else (self.staticNodeDat_ iGlobal).phaseState
  let d ← updateVarNodeData_ (dest.atSCV i) (sol i) phaseState self.curCell_ i self.problem_
    (impl.temperature_ (sol i))
  pure { atSCV := Function.update dest.atSCV i d }

/-- The method `updateCellCache_`: update the cache `dest` at all nodes of the
current cell from the solution `sol`, with the old phase states if `isOldSol`
and the current ones otherwise. -/
def updateCellCache_ {dim : Nat} (impl : Implementation dim)
    (self : TwoPTwoCBoxJacobianBase dim) (dest : CellCache) (sol : LocalFunction)
    (isOldSol : Bool) : Except Exception CellCache :=
  let nNodes := self.curCell_.count
  (List.range nNodes).foldlM (updateCellCacheStep impl self sol isOldSol) dest

/-- The method `setCurrentCell`: it calls `setCurrentCell_` of the parent
`BoxJacobian`, which makes `cell` the current cell and updates the finite
volume geometry; `fvGeometry` is the geometry the parent computes for a cell. -/
def setCurrentCell {dim : Nat} (fvGeometry : Cell dim → FVElementGeometry dim)
    (self : TwoPTwoCBoxJacobianBase dim) (cell : Cell dim) : TwoPTwoCBoxJacobianBase dim :=
  { self with curCell_ := cell, curCellGeom_ := fvGeometry cell }

/-- The method `setParams`: set the parameters for the calls to the remaining
members. -/
def setParams {dim : Nat} (impl : Implementation dim)
    (fvGeometry : Cell dim → FVElementGeometry dim) (self : TwoPTwoCBoxJacobianBase dim)
    (cell : Cell dim) (curSol prevSol : LocalFunction) :
    Except Exception (TwoPTwoCBoxJacobianBase dim) := do
  let self := setCurrentCell fvGeometry self cell
  let self := { self with curSol_ := curSol }
  let cache ← updateCellCache_ impl self self.curSolCache_ self.curSol_ false
  let self := { self with curSolCache_ := cache }
  let self := { self with curSolDeflected_ := false }
  let self := { self with prevSol_ := prevSol }
  let cache ← updateCellCache_ impl self self.prevSolCache_ self.prevSol_ true
  pure { self with prevSolCache_ := cache }

/-- A call of one of the three methods that write phase states: a switch
pass, `updateOldPhaseState` or `resetPhaseState`. -/
inductive PhaseStateOp where
  | switchPass (curSol oldSol : SpatialFunction)
  | commit
  | rollback

/-- The object after a call of a method that writes phase states. -/
def PhaseStateOp.run {dim : Nat} (impl : Implementation dim)
    (self : TwoPTwoCBoxJacobianBase dim) : PhaseStateOp → TwoPTwoCBoxJacobianBase dim
  | PhaseStateOp.switchPass curSol oldSol => (updateStaticData impl self curSol oldSol).1
  | PhaseStateOp.commit => updateOldPhaseState self
  | PhaseStateOp.rollback => resetPhaseState self

/-! ## The members in the arithmetic of `double`

The definitions above compute in exact arithmetic. The definitions of this
section are the same members with the result of each operation on `double`
passed through `fl`, as in `harmonicMeanKRounded`: the identity gives the
exact members back, `roundDouble` gives the arithmetic of the machine. A
literal is the rounding of its decimal value. -/

/-- The method `updateVarNodeData_` with the rounding `fl` of each of its four
operations on `double`: `1.0 - d.satN`, `d.pW + d.pC` and the two closures of
the mass fractions. -/
def updateVarNodeDataRounded {dim : Nat} (fl : Scalar → Scalar) (d : VariableNodeData)
    (nodeSol : UnknownsVector) (phaseState : Int) (cell : Cell dim) (localIdx : Nat)
    (problem : Problem dim) (temperature : Scalar) : Except Exception VariableNodeData := do
  let global := cell.geometry localIdx
  let localCoord := cell.referencePosition localIdx
  let d := { d with pW := nodeSol PwIndex }
  let d ←
    if phaseState = BothPhases then pure { d with satN := nodeSol SwitchIndex }
    else if phaseState = WPhaseOnly then pure { d with satN := 0 }
    else if phaseState = NPhaseOnly then pure { d with satN := 1 }
    else throw (Exception.InvalidStateException phaseState)
  let d := { d with satW := fl (1 - d.satN) }
  let d := { d with pC := problem.materialLaw.pC d.satW global cell localCoord }
  let d := { d with pN := fl (d.pW + d.pC) }
  -- Solubilities of components in phases
  let d ←
    if phaseState = BothPhases then do
      let d := { d with massfrac :=
        d.massfrac.setEntry NCompIndex WPhaseIndex (problem.multicomp.xAW d.pN temperature) }
      pure { d with massfrac :=
        d.massfrac.setEntry WCompIndex NPhaseIndex (problem.multicomp.xWN d.pN temperature) }
    else if phaseState = WPhaseOnly then do
      let d := { d with massfrac := d.massfrac.setEntry WCompIndex NPhaseIndex 0 }
      pure { d with massfrac := d.massfrac.setEntry NCompIndex WPhaseIndex (nodeSol SwitchIndex) }
    else if phaseState = NPhaseOnly then do
      let d := { d with massfrac := d.massfrac.setEntry WCompIndex NPhaseIndex (nodeSol SwitchIndex) }
      pure { d with massfrac := d.massfrac.setEntry NCompIndex WPhaseIndex 0 }
    else throw (Exception.InvalidStateException phaseState)
  let d := { d with massfrac :=
    d.massfrac.setEntry WCompIndex WPhaseIndex (fl (1 - d.massfrac NCompIndex WPhaseIndex)) }
  let d := { d with massfrac :=
    d.massfrac.setEntry NCompIndex NPhaseIndex (fl (1 - d.massfrac WCompIndex NPhaseIndex)) }
  let d := { d with phaseState := phaseState }
  -- Density of Water is set constant here!
  let d := { d with density := (Function.update d.density WPhaseIndex
    (problem.wettingPhase.density temperature d.pW (d.massfrac NCompIndex WPhaseIndex))) }
  let d := { d with density := (Function.update d.density NPhaseIndex
    (problem.nonwettingPhase.density temperature d.pN (d.massfrac WCompIndex NPhaseIndex))) }
  -- Mobilities & densities
  let d := { d with mobility := (Function.update d.mobility WPhaseIndex
    (problem.materialLaw.mobW d.satW global cell localCoord temperature d.pW)) }
  let d := { d with mobility := (Function.update d.mobility NPhaseIndex
    (problem.materialLaw.mobN d.satN global cell localCoord temperature d.pN)) }
  pure d

/-- The method `localRate` with the rounding `fl` of each multiplication and
addition; the products are taken from the left, as the compiler does. -/
def localRateRounded {dim : Nat} (fl : Scalar → Scalar) (impl : Implementation dim)
    (self : TwoPTwoCBoxJacobianBase dim) (_result : UnknownsVector) (scvId : Nat)
    (usePrevSol : Bool) : UnknownsVector :=
  let result : UnknownsVector := fun _ => 0
  let sol := if usePrevSol then self.prevSol_ else self.curSol_
  let cellCache := if usePrevSol then self.prevSolCache_ else self.curSolCache_
  let satN := (cellCache.atSCV scvId).satN
  let satW := (cellCache.atSCV scvId).satW
  -- assume porosity defined at nodes
  let porosity := self.problem_.porosity self.curCell_ scvId
  -- storage of component water
  let result := Function.update result PwIndex
    (fl (porosity *
      fl (fl (fl ((cellCache.atSCV scvId).density WPhaseIndex * satW) *
              (cellCache.atSCV scvId).massfrac WCompIndex WPhaseIndex)
          + fl (fl ((cellCache.atSCV scvId).density NPhaseIndex * satN) *
              (cellCache.atSCV scvId).massfrac WCompIndex NPhaseIndex))))
  -- storage of component air
  let result := Function.update result SwitchIndex
    (fl (porosity *
      fl (fl (fl ((cellCache.atSCV scvId).density NPhaseIndex * satN) *
              (cellCache.atSCV scvId).massfrac NCompIndex NPhaseIndex)
          + fl (fl ((cellCache.atSCV scvId).density WPhaseIndex * satW) *
              (cellCache.atSCV scvId).massfrac NCompIndex WPhaseIndex))))
  -- storage of energy
  impl.heatStorage result scvId sol cellCache

/-- The method `primaryVarSwitch_` with the rounding `fl` of each operation on
`double` and of each literal. -/
def primaryVarSwitchRounded {dim : Nat} (fl : Scalar → Scalar) (impl : Implementation dim)
    (self : TwoPTwoCBoxJacobianBase dim) (sol : SpatialFunction) (globalIdx : Nat)
    (globalPos : Coord dim) : TwoPTwoCBoxJacobianBase dim × SpatialFunction × Bool :=
  -- evaluate primary variable switch
  let phaseState := (self.staticNodeDat_ globalIdx).phaseState
  let newPhaseState := phaseState
  -- Evaluate saturation and pressures
  let pW := sol globalIdx PwIndex
  let satW : Scalar := 0
  let temperature := impl.temperature_ (sol globalIdx)
  let satW :=
    if phaseState = BothPhases then fl (1 - sol globalIdx SwitchIndex)
    else if phaseState = WPhaseOnly then 1
    else if phaseState = NPhaseOnly then 0
    else satW
  let pC := self.problem_.pC satW globalIdx globalPos
  let pN := fl (pW + pC)
  let r : Int × SpatialFunction :=
    if phaseState = NPhaseOnly then
      let xWN := sol globalIdx SwitchIndex
      let xWNmax := self.problem_.multicomp.xWN pN temperature
      if xWN > fl (xWNmax * fl (1 + fl 2e-5)) then
        -- wetting phase appears
        (BothPhases,
          Function.update sol globalIdx
            (Function.update (sol globalIdx) SwitchIndex (fl (1 - fl 2e-5))))
      else (newPhaseState, sol)
    else if phaseState = WPhaseOnly then
      let xAW := sol globalIdx SwitchIndex
      let xAWmax := self.problem_.multicomp.xAW pN temperature
      if xAW > fl (xAWmax * fl (1 + fl 2e-5)) then
        -- non-wetting phase appears
        (BothPhases,
          Function.update sol globalIdx (Function.update (sol globalIdx) SwitchIndex (fl 2e-5)))
      else (newPhaseState, sol)
    else if phaseState = BothPhases then
      let satN := fl (1 - satW)
      if satN < -(fl 1e-5) then
        -- non-wetting phase disappears
        (WPhaseOnly,
          Function.update sol globalIdx
            (Function.update (sol globalIdx) SwitchIndex
              (self.problem_.multicomp.xAW pN temperature)))
      else if satW < -(fl 1e-5) then
        -- wetting phase disappears
        (NPhaseOnly,
          Function.update sol globalIdx
            (Function.update (sol globalIdx) SwitchIndex
              (self.problem_.multicomp.xWN pN temperature)))
      else (newPhaseState, sol)
    else (newPhaseState, sol)
  let newPhaseState := r.1
  let sol := r.2
  let self := { self with
    staticNodeDat_ := (Function.update self.staticNodeDat_ globalIdx
      { self.staticNodeDat_ globalIdx with phaseState := newPhaseState }) }
  (self, sol, decide (phaseState ≠ newPhaseState))

/-- The product `K.mv(x, y)` with rounding: each entry of `y` starts from 0
and the products of a row are added to it one after the other. -/
def Tensor.mvRounded {dim : Nat} (fl : Scalar → Scalar) (K : Tensor dim) (x : Coord dim) :
    Coord dim :=
  fun r => (List.finRange dim).foldl (fun acc c => fl (acc + fl (K r c * x c))) 0

/-- The scalar product `a * b` with rounding: the result starts from 0 and the
products are added to it one after the other. -/
def Coord.dotRounded {dim : Nat} (fl : Scalar → Scalar) (a b : Coord dim) : Scalar :=
  (List.finRange dim).foldl (fun acc d => fl (acc + fl (a d * b d))) 0

/-- The body of the loop of `fluxRate` over the adjacent nodes `k`, with the
rounding `fl` of `tmp *= ...` and of `... += tmp`. -/
def fluxRateGradStepRounded {dim : Nat} (fl : Scalar → Scalar) (impl : Implementation dim)
    (self : TwoPTwoCBoxJacobianBase dim) (faceId : Nat) (g : FluxGradients dim) (k : Nat) :
    FluxGradients dim :=
  -- FEGradient at node k
  let feGrad := (self.curCellGeom_.subContVolFace faceId).grad k
  let pressure : PhasesVector := fun _ => 0
  let pressure := Function.update pressure WPhaseIndex (self.curSolCache_.atSCV k).pW
  let pressure := Function.update pressure NPhaseIndex (self.curSolCache_.atSCV k).pN
  -- compute sum of pressure gradients for each phase
  let pGrad : Fin NumPhases → Coord dim :=
    fun phase d => fl (g.pGrad phase d + fl (feGrad d * pressure phase))
  -- for diffusion of air in wetting phase
  let xGrad := Function.update g.xGrad WPhaseIndex
    (fun d => fl (g.xGrad WPhaseIndex d
      + fl (feGrad d * (self.curSolCache_.atSCV k).massfrac NCompIndex WPhaseIndex)))
  -- for diffusion of water in nonwetting phase
  let xGrad := Function.update xGrad NPhaseIndex
    (fun d => fl (xGrad NPhaseIndex d
      + fl (feGrad d * (self.curSolCache_.atSCV k).massfrac WCompIndex NPhaseIndex)))
  -- temperature gradient
  let tempGrad := impl.updateTempGrad g.tempGrad feGrad self.curSol_ k
  { pGrad := pGrad, xGrad := xGrad, tempGrad := tempGrad }

/-- The gradients that the loop of `fluxRate` over the nodes of the cell
accumulates, with rounding, before the correction by gravity. -/
def fluxRateGradLoopRounded {dim : Nat} (fl : Scalar → Scalar) (impl : Implementation dim)
    (self : TwoPTwoCBoxJacobianBase dim) (faceId : Nat) : FluxGradients dim :=
  (List.range self.curCellGeom_.nNodes).foldl (fluxRateGradStepRounded fl impl self faceId)
    { pGrad := fun _ _ => 0, xGrad := fun _ _ => 0, tempGrad := fun _ => 0 }

/-- The gradients of `fluxRate` at a face with rounding: the loop over the
nodes of the cell, then the correction of the pressure gradients by the
hydrostatic pressure due to gravity. -/
def fluxRateGradientsRounded {dim : Nat} (fl : Scalar → Scalar) (impl : Implementation dim)
    (self : TwoPTwoCBoxJacobianBase dim) (faceId : Nat) : FluxGradients dim :=
  let i := (self.curCellGeom_.subContVolFace faceId).i
  let g := fluxRateGradLoopRounded fl impl self faceId
  { g with pGrad := (fun phase d =>
      fl (g.pGrad phase d -
        fl (self.problem_.gravity d * (self.curSolCache_.atSCV i).density phase))) }

/-- The vector `vDarcyOut` of `fluxRate` with rounding. -/
def fluxRateDarcyRounded {dim : Nat} (fl : Scalar → Scalar) (impl : Implementation dim)
    (self : TwoPTwoCBoxJacobianBase dim) (faceId : Nat) : PhasesVector :=
  let i := (self.curCellGeom_.subContVolFace faceId).i
  let j := (self.curCellGeom_.subContVolFace faceId).j
  let normal := (self.curCellGeom_.subContVolFace faceId).normal
  let global_i := (self.curCellGeom_.subContVol i).global
  let global_j := (self.curCellGeom_.subContVol j).global
  let local_i := (self.curCellGeom_.subContVol i).localCoord
  let local_j := (self.curCellGeom_.subContVol j).localCoord
  let g := fluxRateGradientsRounded fl impl self faceId
  -- calculate the permeability tensor
  let K := self.problem_.soil.K global_i self.curCell_ local_i
  let Kj := self.problem_.soil.K global_j self.curCell_ local_j
  let K := harmonicMeanKRounded fl K Kj
  fun phase => Coord.dotRounded fl (K.mvRounded fl (g.pGrad phase)) normal

/-- The method `fluxRate` with the rounding `fl` of each operation on
`double`. -/
def fluxRateRounded {dim : Nat} (fl : Scalar → Scalar) (impl : Implementation dim)
    (self : TwoPTwoCBoxJacobianBase dim) (flux : UnknownsVector) (faceId : Nat) :
    UnknownsVector :=
  let i := (self.curCellGeom_.subContVolFace faceId).i
  let j := (self.curCellGeom_.subContVolFace faceId).j
  let tempGrad := (fluxRateGradientsRounded fl impl self faceId).tempGrad
  let vDarcyOut := fluxRateDarcyRounded fl impl self faceId
  -- find upsteam and downstream nodes
  let upW := self.curSolCache_.atSCV (upwindNodes (vDarcyOut WPhaseIndex) i j).1
  let dnW := self.curSolCache_.atSCV (upwindNodes (vDarcyOut WPhaseIndex) i j).2
  let upN := self.curSolCache_.atSCV (upwindNodes (vDarcyOut NPhaseIndex) i j).1
  let dnN := self.curSolCache_.atSCV (upwindNodes (vDarcyOut NPhaseIndex) i j).2
  -- Upwind parameter
  let alpha : Scalar := 1
  -- advective flux of the wetting component
  let flux := Function.update flux PwIndex (fl (vDarcyOut WPhaseIndex * fl (
    fl (alpha *
      fl (fl (upW.density WPhaseIndex * upW.mobility WPhaseIndex) *
        upW.massfrac WCompIndex WPhaseIndex))
    +
    fl (fl (1 - alpha) *
      fl (fl (dnW.density WPhaseIndex * dnW.mobility WPhaseIndex) *
        dnW.massfrac WCompIndex WPhaseIndex)))))
  let flux := Function.update flux PwIndex (fl (flux PwIndex + fl (vDarcyOut NPhaseIndex * fl (
    fl (alpha *
      fl (fl (upN.density NPhaseIndex * upN.mobility NPhaseIndex) *
        upN.massfrac WCompIndex NPhaseIndex))
    +
    fl (fl (1 - alpha) *
      fl (fl (dnN.density NPhaseIndex * dnN.mobility NPhaseIndex) *
        dnN.massfrac WCompIndex NPhaseIndex))))))
  -- advective flux of the non-wetting component
  let flux := Function.update flux SwitchIndex (fl (vDarcyOut NPhaseIndex * fl (
    fl (alpha *
      fl (fl (upN.density NPhaseIndex * upN.mobility NPhaseIndex) *
        upN.massfrac NCompIndex NPhaseIndex))
    +
    fl (fl (1 - alpha) *
      fl (fl (dnN.density NPhaseIndex * dnN.mobility NPhaseIndex) *
        dnN.massfrac NCompIndex NPhaseIndex)))))
  let flux := Function.update flux SwitchIndex (fl (flux SwitchIndex + fl (vDarcyOut WPhaseIndex * fl (
    fl (alpha *
      fl (fl (upW.density WPhaseIndex * upW.mobility WPhaseIndex) *
        upW.massfrac NCompIndex WPhaseIndex))
    +
    fl (fl (1 - alpha) *
      fl (fl (dnW.density WPhaseIndex * dnW.mobility WPhaseIndex) *
        dnW.massfrac NCompIndex WPhaseIndex))))))
  -- advective flux of energy
  let flux := impl.advectiveHeatFlux flux vDarcyOut alpha upW dnW upN dnN
  impl.diffusiveHeatFlux flux faceId tempGrad

/-! ## TwoPTwoCBoxJacobian, the isothermal implementation -/

/-- The isothermal local Jacobian: its heat members do nothing and its
temperature is constant. -/
def TwoPTwoCBoxJacobian (dim : Nat) : Implementation dim where
  heatStorage := fun result _scvId _sol _cellCache => result
  updateTempGrad := fun tempGrad _feGrad _sol _nodeIdx => tempGrad
  advectiveHeatFlux := fun flux _darcyOut _alpha _upW _dnW _upN _dnN => flux
  diffusiveHeatFlux := fun flux _faceIdx _tempGrad => flux
  temperature_ := fun _sol => 283.15

/-! ## TwoPTwoCBoxModel -/

/-- The state of a `TwoPTwoCBoxModel` object: its local Jacobian and the
current and the previous solution of its parent `BoxScheme`. -/
structure TwoPTwoCBoxModel (dim : Nat) where
  twoPTwoCLocalJacobian_ : TwoPTwoCBoxJacobianBase dim
  currentSolution : SpatialFunction
  previousSolution : SpatialFunction

/-- The method `TwoPTwoCBoxModel::updateFailedTry`, called if applying the
newton method was unsuccessful. `parentUpdateFailedTry` is what
`updateFailedTry` of the parent `BoxScheme` does to the current and the
previous solution. -/
def TwoPTwoCBoxModel.updateFailedTry {dim : Nat}
    (parentUpdateFailedTry : SpatialFunction × SpatialFunction →
      SpatialFunction × SpatialFunction)
    (self : TwoPTwoCBoxModel dim) : TwoPTwoCBoxModel dim :=
  let sols := parentUpdateFailedTry (self.currentSolution, self.previousSolution)
  let jac := setSwitched self.twoPTwoCLocalJacobian_ false
  let jac := resetPhaseState jac
  let r := updateStaticData (TwoPTwoCBoxJacobian dim) jac sols.1 sols.2
  { twoPTwoCLocalJacobian_ := r.1, currentSolution := r.2, previousSolution := sols.2 }

/-- The method `TwoPTwoCBoxModel::updateSuccessful`, called by the update
method of the `BoxScheme`. `parentUpdateSuccessful` is what `updateSuccessful`
of the parent does to the current and the previous solution. -/
def TwoPTwoCBoxModel.updateSuccessful {dim : Nat}
    (parentUpdateSuccessful : SpatialFunction × SpatialFunction →
      SpatialFunction × SpatialFunction)
    (self : TwoPTwoCBoxModel dim) : TwoPTwoCBoxModel dim :=
  let sols := parentUpdateSuccessful (self.currentSolution, self.previousSolution)
  let jac := updateOldPhaseState self.twoPTwoCLocalJacobian_
  let jac := setSwitched jac false
  { twoPTwoCLocalJacobian_ := jac, currentSolution := sols.1, previousSolution := sols.2 }

/-! ## Test data -/

/-- A one-dimensional cell with two nodes, at the coordinates 0 and 1. -/
def lineCell : Cell 1 where
  geometry := fun k _ => (k : Scalar)
  referencePosition := fun k _ => (k : Scalar)
  count := 2

/-- A problem on `lineCell` with the linear capillary pressure
`pC(Sw) = 1000 * (1 - Sw)`, mobilities equal to the saturations and constant
densities and solubilities. -/
def linearPcProblem : Problem 1 where
  numNodes := 3
  nodePosition := fun k _ => (k : Scalar)
  nodeIndex := fun _ i => i
  porosity := fun _ _ => 1 / 5
  gravity := fun _ => 0
  pC := fun satW _ _ => 1000 * (1 - satW)
  materialLaw :=
    { pC := fun satW _ _ _ => 1000 * (1 - satW)
      mobW := fun satW _ _ _ _ _ => satW
      mobN := fun satN _ _ _ _ _ => satN }
  multicomp := { xAW := fun _ _ => 1 / 100, xWN := fun _ _ => 1 / 50 }
  wettingPhase := { density := fun _ _ _ => 1000 }
  nonwettingPhase := { density := fun _ _ _ => 1 }
  soil := { K := fun _ _ _ _ _ => 1 }

/-- A cache entry with every field zero, the value a node has before its
first update. -/
def zeroVarNodeData : VariableNodeData where
  satN := 0
  satW := 0
  pW := 0
  pC := 0
  pN := 0
  mobility := fun _ => 0
  density := fun _ => 0
  massfrac := fun _ _ => 0
  phaseState := 0

/-- The unknowns `pW = 1e5` and switch variable `0.3`. -/
def sampleNodeSol : UnknownsVector := ![100000, 3 / 10]

/-- A finite volume geometry with three nodes and one face, from the node
`i = 0` to the node `j = 1`, with the normal 1 and the gradient weights
-1, 1 and 0. -/
def lineCellGeom : FVElementGeometry 1 where
  nNodes := 3
  subContVol := fun k => { global := fun _ => (k : Scalar), localCoord := fun _ => (k : Scalar) }
  subContVolFace := fun _ =>
    { i := 0
      j := 1
      normal := fun _ => 1
      grad := fun k _ => if k = 0 then -1 else if k = 1 then 1 else 0 }

/-- A cache entry in the state `BothPhases` with both pressures `p`, both
densities 1000, both mobilities `mob` and no dissolved component. -/
def sampleVarNodeData (p mob : Scalar) : VariableNodeData where
  satN := 1 / 2
  satW := 1 / 2
  pW := p
  pC := 0
  pN := p
  mobility := fun _ => mob
  density := fun _ => 1000
  massfrac := fun comp phase => if comp.val = phase.val then 1 else 0
  phaseState := BothPhases

/-- A cache with the pressures 1, 3 and 5 and the mobilities 1, 1/2 and 1/4 at
the nodes 0, 1 and 2. -/
def sampleCache : CellCache where
  atSCV := fun k =>
    if k = 0 then sampleVarNodeData 1 1
    else if k = 1 then sampleVarNodeData 3 (1 / 2)
    else sampleVarNodeData 5 (1 / 4)

/-- The cache `sampleCache` with other phase states and saturations, and with
other mass fractions at the node 2. -/
def sampleCacheOther : CellCache where
  atSCV := fun k =>
    if k = 0 then { sampleVarNodeData 1 1 with phaseState := NPhaseOnly, satN := 1, satW := 0 }
    else if k = 1 then { sampleVarNodeData 3 (1 / 2) with phaseState := WPhaseOnly }
    else { sampleVarNodeData 5 (1 / 4) with massfrac := fun _ _ => 1 / 2, mobility := fun _ => 7 }

/-- A local Jacobian on `lineCell` that is not deflected, with all nodes in the
state `BothPhases`. -/
def sampleJacobian : TwoPTwoCBoxJacobianBase 1 where
  problem_ := linearPcProblem
  curCell_ := lineCell
  curCellGeom_ := lineCellGeom
  staticNodeDat_ := fun _ => { phaseState := BothPhases, oldPhaseState := BothPhases }
  switchFlag_ := false
  curSol_ := fun k => if k = 0 then ![1, 1 / 2] else if k = 1 then ![3, 1 / 2] else ![5, 1 / 2]
  curSolCache_ := sampleCache
  curSolDeflected_ := false
  curSolOrigValue_ := 0
  curSolOrigVarData_ := zeroVarNodeData
  prevSol_ := fun _ => ![1, 1 / 2]
  prevSolCache_ := sampleCache

/-- The sample Jacobian with the node 0 in the state `NPhaseOnly`, the node 1
in the state `WPhaseOnly` and the other nodes in the state `BothPhases`. -/
def switchJacobian : TwoPTwoCBoxJacobianBase 1 :=
  { sampleJacobian with
    staticNodeDat_ := fun k =>
      if k = 0 then { phaseState := NPhaseOnly, oldPhaseState := NPhaseOnly }
      else if k = 1 then { phaseState := WPhaseOnly, oldPhaseState := WPhaseOnly }
      else { phaseState := BothPhases, oldPhaseState := BothPhases } }

/-- A global solution with the switch variables 3/100, 1/200 and -1 at the
nodes 0, 1 and 2. -/
def switchSol : SpatialFunction :=
  fun k => if k = 0 then ![1, 3 / 100] else if k = 1 then ![3, 1 / 200] else ![5, -1]

/-- The problem `linearPcProblem` with both solubilities zero. -/
def zeroSolubilityProblem : Problem 1 :=
  { linearPcProblem with multicomp := { xAW := fun _ _ => 0, xWN := fun _ _ => 0 } }

/-- A model whose local Jacobian is the switch Jacobian and whose current and
previous solution are both `switchSol`. -/
def failedTryModel : TwoPTwoCBoxModel 1 where
  twoPTwoCLocalJacobian_ := switchJacobian
  currentSolution := switchSol
  previousSolution := switchSol

/-- A switch pass with the solution `switchSol`, a commit, a second switch
pass and a rollback. -/
def samplePhaseStateOps : List PhaseStateOp :=
  [PhaseStateOp.switchPass switchSol switchSol, PhaseStateOp.commit,
    PhaseStateOp.switchPass switchSol switchSol, PhaseStateOp.rollback]

/-- The problem `linearPcProblem` with the porosity 1 and the density 1 of
both phases. -/
def unitProblem : Problem 1 :=
  { linearPcProblem with
    porosity := fun _ _ => 1
    wettingPhase := { density := fun _ _ _ => 1 } }

/-- The sample Jacobian for the problem `unitProblem`, with the cache entry
`c` at every node. -/
def unitJacobian (c : VariableNodeData) : TwoPTwoCBoxJacobianBase 1 :=
  { sampleJacobian with
    problem_ := unitProblem
    curSolCache_ := { atSCV := fun _ => c } }

/-- A finite volume geometry with three nodes and one face, from the node
`i = 0` to the node `j = 1`, with the normal 1 and the gradient weights 2, -3
and 1, which add up to zero. -/
def skewCellGeom : FVElementGeometry 1 where
  nNodes := 3
  subContVol := fun k => { global := fun _ => (k : Scalar), localCoord := fun _ => (k : Scalar) }
  subContVolFace := fun _ =>
    { i := 0
      j := 1
      normal := fun _ => 1
      grad := fun k _ => if k = 0 then 2 else if k = 1 then -3 else 1 }

/-- The sample Jacobian with the geometry `geom` and, at every node, a cache
entry with both pressures `p`, both densities 1, both mobilities 1 and no
dissolved component. -/
def uniformJacobian (geom : FVElementGeometry 1) (p : Scalar) : TwoPTwoCBoxJacobianBase 1 :=
  { sampleJacobian with
    curCellGeom_ := geom
    curSolCache_ := { atSCV := fun _ => { sampleVarNodeData p 1 with density := fun _ => 1 } } }

/-! ## The variable update, `updateVarNodeData_` -/

/-- For a valid phase state the variable update returns, and the cached
`phaseState` is the tag passed in. -/
theorem updateVarNodeData_ok_of_valid {dim : Nat} (d : VariableNodeData)
    (nodeSol : UnknownsVector) (phaseState : Int) (cell : Cell dim) (localIdx : Nat)
    (problem : Problem dim) (temperature : Scalar)
    (h : phaseState = NPhaseOnly ∨ phaseState = WPhaseOnly ∨ phaseState = BothPhases) :
    ∃ d', updateVarNodeData_ d nodeSol phaseState cell localIdx problem temperature
        = Except.ok d' ∧ d'.phaseState = phaseState := by
  rcases h with rfl | rfl | rfl <;>
    simp [updateVarNodeData_, MassfracMatrix.setEntry] <;>
    exact ⟨_, rfl, rfl⟩

/-- In exact arithmetic, for every valid phase state the variable update
returns a cached state whose mass fractions sum to 1 within the wetting phase
and within the non-wetting phase. In the arithmetic of `double` the sums are 1
only up to rounding. -/
theorem updateVarNodeData_massfrac_closure {dim : Nat} (d : VariableNodeData)
    (nodeSol : UnknownsVector) (phaseState : Int) (cell : Cell dim) (localIdx : Nat)
    (problem : Problem dim) (temperature : Scalar)
    (h : phaseState = NPhaseOnly ∨ phaseState = WPhaseOnly ∨ phaseState = BothPhases) :
    ∃ d', updateVarNodeData_ d nodeSol phaseState cell localIdx problem temperature
        = Except.ok d' ∧
      d'.massfrac WCompIndex WPhaseIndex + d'.massfrac NCompIndex WPhaseIndex = 1 ∧
      d'.massfrac WCompIndex NPhaseIndex + d'.massfrac NCompIndex NPhaseIndex = 1 := by
  rcases h with rfl | rfl | rfl <;>
    simp [updateVarNodeData_, MassfracMatrix.setEntry] <;>
    exact ⟨_, rfl, by simp, by simp⟩

/-- In exact arithmetic, for every valid phase state the variable update
returns a cached state with `satW + satN = 1`, whatever the value of the
switch variable. In the arithmetic of `double` the sum is 1 only up to
rounding. -/
theorem updateVarNodeData_saturation_closure {dim : Nat} (d : VariableNodeData)
    (nodeSol : UnknownsVector) (phaseState : Int) (cell : Cell dim) (localIdx : Nat)
    (problem : Problem dim) (temperature : Scalar)
    (h : phaseState = NPhaseOnly ∨ phaseState = WPhaseOnly ∨ phaseState = BothPhases) :
    ∃ d', updateVarNodeData_ d nodeSol phaseState cell localIdx problem temperature
        = Except.ok d' ∧
      d'.satW + d'.satN = 1 := by
  rcases h with rfl | rfl | rfl <;>
    simp [updateVarNodeData_, MassfracMatrix.setEntry] <;>
    exact ⟨_, rfl, by simp⟩

/-- Claim C3: for every valid phase state the cached `pW` is the first primary
variable, the cached `pC` is the capillary pressure law at the cached `satW`
and the position of the node, and the cached `pN` is `pW + pC`. -/
theorem updateVarNodeData_pressures {dim : Nat} (d : VariableNodeData)
    (nodeSol : UnknownsVector) (phaseState : Int) (cell : Cell dim) (localIdx : Nat)
    (problem : Problem dim) (temperature : Scalar)
    (h : phaseState = NPhaseOnly ∨ phaseState = WPhaseOnly ∨ phaseState = BothPhases) :
    ∃ d', updateVarNodeData_ d nodeSol phaseState cell localIdx problem temperature
        = Except.ok d' ∧
      d'.pW = nodeSol PwIndex ∧
      d'.pC = problem.materialLaw.pC d'.satW (cell.geometry localIdx) cell
        (cell.referencePosition localIdx) ∧
      d'.pN = d'.pW + d'.pC := by
  rcases h with rfl | rfl | rfl <;>
    simp [updateVarNodeData_, MassfracMatrix.setEntry] <;>
    exact ⟨_, rfl, rfl, rfl, rfl⟩

/-- The pressures of C3 at the sample node in the state `WPhaseOnly`. -/
theorem updateVarNodeData_pressures_witness :
    (WPhaseOnly = NPhaseOnly ∨ WPhaseOnly = WPhaseOnly ∨ WPhaseOnly = BothPhases) ∧
    ∃ d', updateVarNodeData_ zeroVarNodeData sampleNodeSol WPhaseOnly lineCell 0
        linearPcProblem 283.15 = Except.ok d' ∧
      d'.pW = sampleNodeSol PwIndex ∧
      d'.pC = linearPcProblem.materialLaw.pC d'.satW (lineCell.geometry 0) lineCell
        (lineCell.referencePosition 0) ∧
      d'.pN = d'.pW + d'.pC :=
  ⟨by decide, updateVarNodeData_pressures _ _ _ _ _ _ _ (by decide)⟩

/-- Claim C4, refuted as stated: with `pW = 1e5`, non-wetting saturation `0.3`
and the law `pC(Sw) = 1000 * (1 - Sw)` the update caches `pC = 300` and
`pN = 1e5 + 300`, not `700` and `1e5 + 700`. -/
theorem updateVarNodeData_linearPc_not_700 :
    (∃ d', updateVarNodeData_ zeroVarNodeData sampleNodeSol BothPhases lineCell 0
        linearPcProblem 283.15 = Except.ok d' ∧ d'.pC = 300 ∧ d'.pN = 100000 + 300) ∧
    ¬ (∃ d', updateVarNodeData_ zeroVarNodeData sampleNodeSol BothPhases lineCell 0
        linearPcProblem 283.15 = Except.ok d' ∧ d'.pC = 700 ∧ d'.pN = 100000 + 700) := by
  constructor
  · simp [updateVarNodeData_, MassfracMatrix.setEntry]
    refine ⟨_, rfl, ?_, ?_⟩ <;> norm_num [linearPcProblem, sampleNodeSol]
  · rintro ⟨d', hd, hpC, -⟩
    simp [updateVarNodeData_, MassfracMatrix.setEntry] at hd
    cases hd
    norm_num [linearPcProblem, sampleNodeSol] at hpC

/-- Claim C4, amended: in the state `BothPhases` with `pW = 1e5`, non-wetting
saturation `0.3` and a capillary pressure law `pC(Sw) = 1000 * (1 - Sw)`, the
law is evaluated at `satW = 0.7`, so the update caches `pC = 300` and
`pN = 1e5 + 300`. -/
theorem updateVarNodeData_linearPc {dim : Nat} (d : VariableNodeData)
    (nodeSol : UnknownsVector) (cell : Cell dim) (localIdx : Nat) (problem : Problem dim)
    (temperature : Scalar)
    (hpW : nodeSol PwIndex = 100000) (hsatN : nodeSol SwitchIndex = 3 / 10)
    (hlaw : ∀ satW global c localCoord,
      problem.materialLaw.pC satW global c localCoord = 1000 * (1 - satW)) :
    ∃ d', updateVarNodeData_ d nodeSol BothPhases cell localIdx problem temperature
        = Except.ok d' ∧
      d'.satW = 7 / 10 ∧ d'.pC = 300 ∧ d'.pN = 100000 + 300 := by
  simp [updateVarNodeData_, MassfracMatrix.setEntry]
  refine ⟨_, rfl, ?_, ?_, ?_⟩ <;> simp only [hpW, hsatN, hlaw] <;> norm_num

/-- The amended C4 at the sample node of the problem with the linear law. -/
theorem updateVarNodeData_linearPc_witness :
    sampleNodeSol PwIndex = 100000 ∧ sampleNodeSol SwitchIndex = 3 / 10 ∧
    (∀ satW global c localCoord,
      linearPcProblem.materialLaw.pC satW global c localCoord = 1000 * (1 - satW)) ∧
    ∃ d', updateVarNodeData_ zeroVarNodeData sampleNodeSol BothPhases lineCell 0
        linearPcProblem 283.15 = Except.ok d' ∧
      d'.satW = 7 / 10 ∧ d'.pC = 300 ∧ d'.pN = 100000 + 300 :=
  ⟨rfl, rfl, fun _ _ _ _ => rfl,
    updateVarNodeData_linearPc _ _ _ _ _ _ rfl rfl (fun _ _ _ _ => rfl)⟩

/-- Claim C5: the cached non-wetting saturation is the switch variable in the
state `BothPhases`, exactly 0 in `WPhaseOnly` and exactly 1 in `NPhaseOnly`,
for every value of the primary variables. -/
theorem updateVarNodeData_satN {dim : Nat} (d : VariableNodeData)
    (nodeSol : UnknownsVector) (cell : Cell dim) (localIdx : Nat) (problem : Problem dim)
    (temperature : Scalar) :
    (∃ d', updateVarNodeData_ d nodeSol BothPhases cell localIdx problem temperature
        = Except.ok d' ∧ d'.satN = nodeSol SwitchIndex) ∧
    (∃ d', updateVarNodeData_ d nodeSol WPhaseOnly cell localIdx problem temperature
        = Except.ok d' ∧ d'.satN = 0) ∧
    (∃ d', updateVarNodeData_ d nodeSol NPhaseOnly cell localIdx problem temperature
        = Except.ok d' ∧ d'.satN = 1) := by
  refine ⟨?_, ?_, ?_⟩ <;>
    simp [updateVarNodeData_, MassfracMatrix.setEntry] <;>
    exact ⟨_, rfl, rfl⟩

/-- Claim C6: in a single-phase state the cross mass fraction of the present
phase is the switch variable and the other cross mass fraction is 0; the
result is the same for every solubility law, which is not consulted. -/
theorem updateVarNodeData_single_phase_massfrac {dim : Nat} (d : VariableNodeData)
    (nodeSol : UnknownsVector) (cell : Cell dim) (localIdx : Nat) (problem : Problem dim)
    (temperature : Scalar) :
    (∃ d', updateVarNodeData_ d nodeSol WPhaseOnly cell localIdx problem temperature
        = Except.ok d' ∧
      d'.massfrac NCompIndex WPhaseIndex = nodeSol SwitchIndex ∧
      d'.massfrac WCompIndex NPhaseIndex = 0) ∧
    (∃ d', updateVarNodeData_ d nodeSol NPhaseOnly cell localIdx problem temperature
        = Except.ok d' ∧
      d'.massfrac WCompIndex NPhaseIndex = nodeSol SwitchIndex ∧
      d'.massfrac NCompIndex WPhaseIndex = 0) ∧
    (∀ multicomp : Multicomp,
      updateVarNodeData_ d nodeSol WPhaseOnly cell localIdx
          { problem with multicomp := multicomp } temperature
        = updateVarNodeData_ d nodeSol WPhaseOnly cell localIdx problem temperature ∧
      updateVarNodeData_ d nodeSol NPhaseOnly cell localIdx
          { problem with multicomp := multicomp } temperature
        = updateVarNodeData_ d nodeSol NPhaseOnly cell localIdx problem temperature) := by
  refine ⟨?_, ?_, fun multicomp => ⟨?_, ?_⟩⟩
  · simp [updateVarNodeData_, MassfracMatrix.setEntry]
    exact ⟨_, rfl, by simp, by simp⟩
  · simp [updateVarNodeData_, MassfracMatrix.setEntry]
    exact ⟨_, rfl, by simp, by simp⟩
  · simp [updateVarNodeData_, MassfracMatrix.setEntry]
  · simp [updateVarNodeData_, MassfracMatrix.setEntry]

/-- Claim C7: in the state `BothPhases` both cross mass fractions are the
solubility law at the cached non-wetting pressure `pN = pW + pC` and the
temperature; two updates with the same law, temperature and cached `pN` cache
the same cross mass fractions, whatever their switch variables are. -/
theorem updateVarNodeData_both_phases_massfrac {dim : Nat} (d : VariableNodeData)
    (nodeSol : UnknownsVector) (cell : Cell dim) (localIdx : Nat) (problem : Problem dim)
    (temperature : Scalar) :
    ∃ d', updateVarNodeData_ d nodeSol BothPhases cell localIdx problem temperature
        = Except.ok d' ∧
      d'.pN = d'.pW + d'.pC ∧
      d'.massfrac NCompIndex WPhaseIndex = problem.multicomp.xAW d'.pN temperature ∧
      d'.massfrac WCompIndex NPhaseIndex = problem.multicomp.xWN d'.pN temperature ∧
      ∀ (e : VariableNodeData) (nodeSol2 : UnknownsVector) (cell2 : Cell dim)
        (localIdx2 : Nat) (problem2 : Problem dim),
        problem2.multicomp = problem.multicomp →
        ∃ e', updateVarNodeData_ e nodeSol2 BothPhases cell2 localIdx2 problem2 temperature
            = Except.ok e' ∧
          (e'.pN = d'.pN →
            e'.massfrac NCompIndex WPhaseIndex = d'.massfrac NCompIndex WPhaseIndex ∧
            e'.massfrac WCompIndex NPhaseIndex = d'.massfrac WCompIndex NPhaseIndex) := by
  simp [updateVarNodeData_, MassfracMatrix.setEntry]
  refine ⟨_, rfl, rfl, by simp, by simp, ?_⟩
  intro e nodeSol2 cell2 localIdx2 problem2 hmc
  refine ⟨_, rfl, ?_⟩
  intro hpN
  simp only [] at hpN
  simp [hmc, hpN]

/-- Claim C8: the variable update throws `InvalidStateException` if and only
if the phase state is none of `NPhaseOnly`, `WPhaseOnly`, `BothPhases`; for
each of the three it returns a cached state whose `phaseState` is the tag
passed in. -/
theorem updateVarNodeData_fault_iff {dim : Nat} (d : VariableNodeData)
    (nodeSol : UnknownsVector) (phaseState : Int) (cell : Cell dim) (localIdx : Nat)
    (problem : Problem dim) (temperature : Scalar) :
    (updateVarNodeData_ d nodeSol phaseState cell localIdx problem temperature
        = Except.error (Exception.InvalidStateException phaseState) ↔
      ¬ (phaseState = NPhaseOnly ∨ phaseState = WPhaseOnly ∨ phaseState = BothPhases)) ∧
    ((∃ d', updateVarNodeData_ d nodeSol phaseState cell localIdx problem temperature
        = Except.ok d' ∧ d'.phaseState = phaseState) ↔
      (phaseState = NPhaseOnly ∨ phaseState = WPhaseOnly ∨ phaseState = BothPhases)) := by
  by_cases hvalid : phaseState = NPhaseOnly ∨ phaseState = WPhaseOnly ∨ phaseState = BothPhases
  · obtain ⟨d', hd, hps⟩ := updateVarNodeData_ok_of_valid d nodeSol phaseState cell localIdx
      problem temperature hvalid
    refine ⟨⟨fun h => ?_, fun h => absurd hvalid h⟩, ⟨fun _ => hvalid, fun _ => ⟨d', hd, hps⟩⟩⟩
    rw [hd] at h
    cases h
  have h0 : ¬ phaseState = NPhaseOnly := fun h => hvalid (Or.inl h)
  have h1 : ¬ phaseState = WPhaseOnly := fun h => hvalid (Or.inr (Or.inl h))
  have h2 : ¬ phaseState = BothPhases := fun h => hvalid (Or.inr (Or.inr h))
  have he : updateVarNodeData_ d nodeSol phaseState cell localIdx problem temperature
      = Except.error (Exception.InvalidStateException phaseState) := by
    simp [updateVarNodeData_, h0, h1, h2]
    rfl
  refine ⟨⟨fun _ => hvalid, fun _ => he⟩, ⟨?_, fun h => absurd h hvalid⟩⟩
  rintro ⟨d', hd, -⟩
  rw [he] at hd
  cases hd

/-! ## The storage term, `localRate` -/

/-- Claim C9: for every sub-control volume the water entry of the storage term
is `porosity * (density_w * satW * X_ww + density_n * satN * X_wn)`, every
factor read from the previous-solution cache when `usePrevSol` is true and from
the current-solution cache when it is false. -/
theorem localRate_water {dim : Nat} (self : TwoPTwoCBoxJacobianBase dim)
    (result : UnknownsVector) (scvId : Nat) :
    localRate (TwoPTwoCBoxJacobian dim) self result scvId true PwIndex =
      self.problem_.porosity self.curCell_ scvId *
        ((self.prevSolCache_.atSCV scvId).density WPhaseIndex *
          (self.prevSolCache_.atSCV scvId).satW *
          (self.prevSolCache_.atSCV scvId).massfrac WCompIndex WPhaseIndex
        + (self.prevSolCache_.atSCV scvId).density NPhaseIndex *
          (self.prevSolCache_.atSCV scvId).satN *
          (self.prevSolCache_.atSCV scvId).massfrac WCompIndex NPhaseIndex) ∧
    localRate (TwoPTwoCBoxJacobian dim) self result scvId false PwIndex =
      self.problem_.porosity self.curCell_ scvId *
        ((self.curSolCache_.atSCV scvId).density WPhaseIndex *
          (self.curSolCache_.atSCV scvId).satW *
          (self.curSolCache_.atSCV scvId).massfrac WCompIndex WPhaseIndex
        + (self.curSolCache_.atSCV scvId).density NPhaseIndex *
          (self.curSolCache_.atSCV scvId).satN *
          (self.curSolCache_.atSCV scvId).massfrac WCompIndex NPhaseIndex) := by
  constructor <;> simp [localRate, TwoPTwoCBoxJacobian]

/-- Claim C10: for every sub-control volume the second-component entry of the
storage term is `porosity * (density_n * satN * X2_n + density_w * satW * X2_w)`
with `X2_n = massfrac[NComp][NPhase]` and `X2_w = massfrac[NComp][WPhase]`,
every factor read from the cache selected by `usePrevSol`. -/
theorem localRate_component2 {dim : Nat} (self : TwoPTwoCBoxJacobianBase dim)
    (result : UnknownsVector) (scvId : Nat) :
    localRate (TwoPTwoCBoxJacobian dim) self result scvId true SwitchIndex =
      self.problem_.porosity self.curCell_ scvId *
        ((self.prevSolCache_.atSCV scvId).density NPhaseIndex *
          (self.prevSolCache_.atSCV scvId).satN *
          (self.prevSolCache_.atSCV scvId).massfrac NCompIndex NPhaseIndex
        + (self.prevSolCache_.atSCV scvId).density WPhaseIndex *
          (self.prevSolCache_.atSCV scvId).satW *
          (self.prevSolCache_.atSCV scvId).massfrac NCompIndex WPhaseIndex) ∧
    localRate (TwoPTwoCBoxJacobian dim) self result scvId false SwitchIndex =
      self.problem_.porosity self.curCell_ scvId *
        ((self.curSolCache_.atSCV scvId).density NPhaseIndex *
          (self.curSolCache_.atSCV scvId).satN *
          (self.curSolCache_.atSCV scvId).massfrac NCompIndex NPhaseIndex
        + (self.curSolCache_.atSCV scvId).density WPhaseIndex *
          (self.curSolCache_.atSCV scvId).satW *
          (self.curSolCache_.atSCV scvId).massfrac NCompIndex WPhaseIndex) := by
  constructor <;> simp [localRate, TwoPTwoCBoxJacobian]

/-! ## The harmonic mean of the permeabilities, `harmonicMeanK_` -/

/-- The loop of `harmonicMeanK_` over the columns of the row `kx` changes the
entries of that row in the list of columns, each from its value on entry. -/
theorem harmonicMeanKStep_row_fold {dim : Nat} (fl : Scalar → Scalar) (Kj : Tensor dim)
    (kx : Fin dim) :
    ∀ l : List (Fin dim), l.Nodup → ∀ (Ki : Tensor dim) (r c : Fin dim),
      (l.foldl (harmonicMeanKStep fl Kj kx) Ki) r c
      = if r = kx ∧ c ∈ l ∧ Ki r c ≠ Kj r c then
          fl (2 / fl (fl (1 / fl (Ki r c + fl 1e-20)) + fl (1 / fl (Kj r c + fl 1e-20))))
        else Ki r c := by
  intro l
  induction l with
  | nil => intro _ Ki r c; simp
  | cons ky l ih =>
    intro hnd Ki r c
    rw [List.nodup_cons] at hnd
    rw [List.foldl_cons, ih hnd.2]
    by_cases hr : r = kx
    · subst hr
      by_cases hc : c = ky
      · subst hc
        by_cases hne : Ki r c = Kj r c
        · simp [harmonicMeanKStep, hne, hnd.1]
        · simp [harmonicMeanKStep, hne, hnd.1]
      · have hc' : ky ≠ c := fun h => hc h.symm
        by_cases hne : Ki r ky = Kj r ky
        · simp [harmonicMeanKStep, hne, hc]
        · simp [harmonicMeanKStep, hne, hc, Function.update_noteq hc]
    · have : harmonicMeanKStep fl Kj kx Ki ky r c = Ki r c := by
        unfold harmonicMeanKStep
        split_ifs <;> simp [Function.update_noteq hr]
      simp [hr, this]

/-- The loop of `harmonicMeanK_` over a list of rows. -/
theorem harmonicMeanKStep_fold {dim : Nat} (fl : Scalar → Scalar) (Kj : Tensor dim) :
    ∀ l : List (Fin dim), l.Nodup → ∀ (Ki : Tensor dim) (r c : Fin dim),
      (l.foldl (fun Ki kx => (List.finRange dim).foldl (harmonicMeanKStep fl Kj kx) Ki) Ki) r c
      = if r ∈ l ∧ Ki r c ≠ Kj r c then
          fl (2 / fl (fl (1 / fl (Ki r c + fl 1e-20)) + fl (1 / fl (Kj r c + fl 1e-20))))
        else Ki r c := by
  intro l
  induction l with
  | nil => intro _ Ki r c; simp
  | cons kx l ih =>
    intro hnd Ki r c
    rw [List.nodup_cons] at hnd
    rw [List.foldl_cons, ih hnd.2, harmonicMeanKStep_row_fold fl Kj kx _ (List.nodup_finRange dim)]
    by_cases hr : r = kx
    · subst hr
      by_cases hne : Ki r c = Kj r c
      · simp [hne, hnd.1]
      · simp [hne, hnd.1]
    · simp [hr]

/-- Each entry of the rounded harmonic mean. -/
theorem harmonicMeanKRounded_apply {dim : Nat} (fl : Scalar → Scalar) (Ki Kj : Tensor dim)
    (r c : Fin dim) :
    harmonicMeanKRounded fl Ki Kj r c
      = if Ki r c ≠ Kj r c then
          fl (2 / fl (fl (1 / fl (Ki r c + fl 1e-20)) + fl (1 / fl (Kj r c + fl 1e-20))))
        else Ki r c := by
  unfold harmonicMeanKRounded
  rw [harmonicMeanKStep_fold fl Kj _ (List.nodup_finRange dim)]
  simp

/-- Each entry of the harmonic mean in exact arithmetic. -/
theorem harmonicMeanK_apply {dim : Nat} (Ki Kj : Tensor dim) (r c : Fin dim) :
    harmonicMeanK_ Ki Kj r c
      = if Ki r c ≠ Kj r c then 2 / (1 / (Ki r c + 1e-20) + 1 / (Kj r c + 1e-20))
        else Ki r c := by
  unfold harmonicMeanK_
  rw [harmonicMeanKRounded_apply]
  simp

/-- Claim C11: `harmonicMeanK_` works entry by entry: an entry of `Ki` that
differs from that of `Kj` becomes `2 / (1/(Ki+eps) + 1/(Kj+eps))` with
`eps = 1e-20`, in exact arithmetic and, with every operation rounded by `fl`,
in rounded arithmetic; an entry equal to that of `Kj` is left as it is. `Kj`
is read only. -/
theorem harmonicMeanK_entries {dim : Nat} (fl : Scalar → Scalar) (Ki Kj : Tensor dim)
    (r c : Fin dim) :
    (Ki r c ≠ Kj r c →
      harmonicMeanK_ Ki Kj r c = 2 / (1 / (Ki r c + 1e-20) + 1 / (Kj r c + 1e-20)) ∧
      harmonicMeanKRounded fl Ki Kj r c
        = fl (2 / fl (fl (1 / fl (Ki r c + fl 1e-20)) + fl (1 / fl (Kj r c + fl 1e-20))))) ∧
    (Ki r c = Kj r c →
      harmonicMeanK_ Ki Kj r c = Ki r c ∧ harmonicMeanKRounded fl Ki Kj r c = Ki r c) := by
  rw [harmonicMeanK_apply, harmonicMeanKRounded_apply]
  constructor
  · intro h; simp [h]
  · intro h; simp [h]

/-- A positive number in the binade of `2 ^ e` that is less than half a unit
in the last place away from `n * 2 ^ (e - 52)` is rounded to it. -/
theorem roundDouble_of_near (q : Scalar) (e n : Int) (hq : 0 < q)
    (hlo : (2 : Scalar) ^ e ≤ q) (hhi : q < (2 : Scalar) ^ (e + 1))
    (hlt : |q / 2 ^ (e - 52) - n| < 1 / 2) :
    roundDouble q = n * 2 ^ (e - 52) := by
  have hlog : Int.log 2 |q| = e := by
    rw [abs_of_pos hq]
    have h1 : e ≤ Int.log 2 q := (Int.zpow_le_iff_le_log (by norm_num) hq).1 (by exact_mod_cast hlo)
    have h2 : Int.log 2 q < e + 1 := (Int.lt_zpow_iff_log_lt (by norm_num) hq).1 (by exact_mod_cast hhi)
    omega
  unfold roundDouble
  rw [if_neg hq.ne']
  simp only [hlog]
  rw [abs_lt] at hlt
  set t := q / 2 ^ (e - 52) with ht
  by_cases hge : (n : Scalar) ≤ t
  · have hfl : ⌊t⌋ = n := by
      rw [Int.floor_eq_iff]
      constructor
      · exact hge
      · linarith [hlt.2]
    rw [hfl, if_pos (by linarith [hlt.2])]
  · push_neg at hge
    have hfl : ⌊t⌋ = n - 1 := by
      rw [Int.floor_eq_iff]
      push_cast
      constructor
      · linarith [hlt.1]
      · linarith
    rw [hfl]
    push_cast
    rw [if_neg (by linarith [hlt.1]), if_pos (by linarith [hlt.1])]
    ring


/-- The `double` of the literal `1e-20`. -/
theorem roundDouble_eps :
    roundDouble 1e-20 = 6646139978924579 * 2 ^ (-119 : Int) := by
  have h := roundDouble_of_near 1e-20 (-67) 6646139978924579 (by norm_num) (by norm_num)
    (by norm_num) (by rw [abs_lt]; constructor <;> norm_num)
  simpa using h

/-- Claim C12: for the 1x1 permeabilities `Ki = 4` and `Kj = 1` the harmonic
mean computed in `double` arithmetic is the `double` 1.6: `4 + eps` and
`1 + eps` round to 4 and 1. In exact arithmetic the result is 1.6 up to the
regulariser, less than `2e-20` away. -/
theorem harmonicMeanK_double_4_1 :
    harmonicMeanKRounded roundDouble (fun _ _ => 4 : Tensor 1) (fun _ _ => 1) 0 0
      = roundDouble (8 / 5) ∧
    |harmonicMeanK_ (fun _ _ => 4 : Tensor 1) (fun _ _ => 1) 0 0 - 8 / 5| < 2e-20 := by
  constructor
  · rw [harmonicMeanKRounded_apply, if_pos (by norm_num), roundDouble_eps]
    have h4 : roundDouble (4 + 6646139978924579 * 2 ^ (-119 : Int)) = 4 := by
      have h := roundDouble_of_near (4 + 6646139978924579 * 2 ^ (-119 : Int)) 2 (2 ^ 52)
        (by norm_num) (by norm_num) (by norm_num) (by rw [abs_lt]; constructor <;> norm_num)
      rw [h]; norm_num
    have h1 : roundDouble (1 + 6646139978924579 * 2 ^ (-119 : Int)) = 1 := by
      have h := roundDouble_of_near (1 + 6646139978924579 * 2 ^ (-119 : Int)) 0 (2 ^ 52)
        (by norm_num) (by norm_num) (by norm_num) (by rw [abs_lt]; constructor <;> norm_num)
      rw [h]; norm_num
    have hq : roundDouble (1 / 4) = 1 / 4 := by
      have h := roundDouble_of_near (1 / 4) (-2) (2 ^ 52)
        (by norm_num) (by norm_num) (by norm_num) (by rw [abs_lt]; constructor <;> norm_num)
      rw [h]; norm_num
    have ho : roundDouble (1 / 1) = 1 := by
      have h := roundDouble_of_near (1 / 1) 0 (2 ^ 52)
        (by norm_num) (by norm_num) (by norm_num) (by rw [abs_lt]; constructor <;> norm_num)
      rw [h]; norm_num
    have hs : roundDouble (1 / 4 + 1) = 5 / 4 := by
      have h := roundDouble_of_near (1 / 4 + 1) 0 (5 * 2 ^ 50)
        (by norm_num) (by norm_num) (by norm_num) (by rw [abs_lt]; constructor <;> norm_num)
      rw [h]; norm_num
    rw [h4, h1, hq, ho, hs]
    norm_num
  · rw [harmonicMeanK_apply, if_pos (by norm_num), abs_lt]
    constructor <;> norm_num


/-! ## The flux term, `fluxRate` -/

/-- The pressure gradients after the loop of `fluxRate` over the first `n`
nodes of the cell. -/
theorem fluxRateGradStep_fold_pGrad {dim : Nat} (impl : Implementation dim)
    (self : TwoPTwoCBoxJacobianBase dim) (faceId : Nat) (g : FluxGradients dim)
    (phase : Fin NumPhases) (d : Fin dim) (n : Nat) :
    ((List.range n).foldl (fluxRateGradStep impl self faceId) g).pGrad phase d
      = g.pGrad phase d + ∑ k in Finset.range n,
          (self.curCellGeom_.subContVolFace faceId).grad k d *
            (if phase = WPhaseIndex then (self.curSolCache_.atSCV k).pW
             else (self.curSolCache_.atSCV k).pN) := by
  induction n with
  | zero => simp
  | succ n ih =>
    rw [List.range_succ, List.foldl_append, List.foldl_cons, List.foldl_nil,
      Finset.sum_range_succ, ← add_assoc, ← ih]
    simp only [fluxRateGradStep]
    congr 2
    fin_cases phase <;> simp

/-- The vector `vDarcyOut` of `fluxRate` in closed form. -/
theorem fluxRateDarcy_eq {dim : Nat} (impl : Implementation dim)
    (self : TwoPTwoCBoxJacobianBase dim) (faceId : Nat) (phase : Fin NumPhases) :
    fluxRateDarcy impl self faceId phase
      = Coord.dot
          (Tensor.mv
            (harmonicMeanK_
              (self.problem_.soil.K
                (self.curCellGeom_.subContVol (self.curCellGeom_.subContVolFace faceId).i).global
                self.curCell_
                (self.curCellGeom_.subContVol
                  (self.curCellGeom_.subContVolFace faceId).i).localCoord)
              (self.problem_.soil.K
                (self.curCellGeom_.subContVol (self.curCellGeom_.subContVolFace faceId).j).global
                self.curCell_
                (self.curCellGeom_.subContVol
                  (self.curCellGeom_.subContVolFace faceId).j).localCoord))
            (fun d =>
              (∑ k in Finset.range self.curCellGeom_.nNodes,
                (self.curCellGeom_.subContVolFace faceId).grad k d *
                  (if phase = WPhaseIndex then (self.curSolCache_.atSCV k).pW
                   else (self.curSolCache_.atSCV k).pN))
              - self.problem_.gravity d *
                (self.curSolCache_.atSCV
                  (self.curCellGeom_.subContVolFace faceId).i).density phase))
          (self.curCellGeom_.subContVolFace faceId).normal := by
  simp only [fluxRateDarcy, fluxRateGradients, fluxRateGradStep_fold_pGrad, zero_add]

/-- The isothermal `advectiveHeatFlux` returns the flux it is given. -/
theorem isothermal_advectiveHeatFlux {dim : Nat} (flux : UnknownsVector)
    (darcyOut : PhasesVector) (alpha : Scalar) (upW dnW upN dnN : VariableNodeData) :
    (TwoPTwoCBoxJacobian dim).advectiveHeatFlux flux darcyOut alpha upW dnW upN dnN = flux :=
  rfl

/-- The isothermal `diffusiveHeatFlux` returns the flux it is given. -/
theorem isothermal_diffusiveHeatFlux {dim : Nat} (flux : UnknownsVector) (faceIdx : Nat)
    (tempGrad : Coord dim) :
    (TwoPTwoCBoxJacobian dim).diffusiveHeatFlux flux faceIdx tempGrad = flux :=
  rfl

/-- The two entries of the isothermal flux, in terms of the upstream nodes. -/
theorem fluxRate_isothermal_apply {dim : Nat} (self : TwoPTwoCBoxJacobianBase dim)
    (flux : UnknownsVector) (faceId : Nat) :
    let v := fluxRateDarcy (TwoPTwoCBoxJacobian dim) self faceId
    let upW := self.curSolCache_.atSCV
      (fluxRateUpwind (TwoPTwoCBoxJacobian dim) self faceId WPhaseIndex).1
    let upN := self.curSolCache_.atSCV
      (fluxRateUpwind (TwoPTwoCBoxJacobian dim) self faceId NPhaseIndex).1
    fluxRate (TwoPTwoCBoxJacobian dim) self flux faceId PwIndex
      = v WPhaseIndex * (upW.density WPhaseIndex * upW.mobility WPhaseIndex *
            upW.massfrac WCompIndex WPhaseIndex)
        + v NPhaseIndex * (upN.density NPhaseIndex * upN.mobility NPhaseIndex *
            upN.massfrac WCompIndex NPhaseIndex) ∧
    fluxRate (TwoPTwoCBoxJacobian dim) self flux faceId SwitchIndex
      = v NPhaseIndex * (upN.density NPhaseIndex * upN.mobility NPhaseIndex *
            upN.massfrac NCompIndex NPhaseIndex)
        + v WPhaseIndex * (upW.density WPhaseIndex * upW.mobility WPhaseIndex *
            upW.massfrac NCompIndex WPhaseIndex) := by
  intro v upW upN
  simp only [fluxRate, isothermal_advectiveHeatFlux, isothermal_diffusiveHeatFlux]
  constructor <;> simp [v, upW, upN]

/-- Both Darcy fluxes of the sample Jacobian at its face are 2. -/
theorem fluxRateDarcy_sample (phase : Fin NumPhases) :
    fluxRateDarcy (TwoPTwoCBoxJacobian 1) sampleJacobian 0 phase = 2 := by
  rw [fluxRateDarcy_eq]
  simp [Coord.dot, Tensor.mv, harmonicMeanK_apply, sampleJacobian, lineCellGeom,
    linearPcProblem, sampleCache, sampleVarNodeData, Finset.sum_range_succ]
  fin_cases phase <;> norm_num

/-- Claim C13, refuted as stated: at the face of the sample Jacobian the
wetting Darcy flux is positive, 2, and the water flux is 1000, computed with
the wetting mobility 1/2 of the node `j = 1`; with the values of the node
`i = 0` it would be 2000. -/
theorem fluxRate_positive_flux_not_node_i :
    0 < fluxRateDarcy (TwoPTwoCBoxJacobian 1) sampleJacobian 0 WPhaseIndex ∧
    fluxRate (TwoPTwoCBoxJacobian 1) sampleJacobian (fun _ => 0) 0 PwIndex = 1000 ∧
    fluxRate (TwoPTwoCBoxJacobian 1) sampleJacobian (fun _ => 0) 0 PwIndex ≠
      fluxRateDarcy (TwoPTwoCBoxJacobian 1) sampleJacobian 0 WPhaseIndex *
        ((sampleJacobian.curSolCache_.atSCV
            (sampleJacobian.curCellGeom_.subContVolFace 0).i).density WPhaseIndex *
          (sampleJacobian.curSolCache_.atSCV
            (sampleJacobian.curCellGeom_.subContVolFace 0).i).mobility WPhaseIndex *
          (sampleJacobian.curSolCache_.atSCV
            (sampleJacobian.curCellGeom_.subContVolFace 0).i).massfrac WCompIndex WPhaseIndex)
      + fluxRateDarcy (TwoPTwoCBoxJacobian 1) sampleJacobian 0 NPhaseIndex *
        ((sampleJacobian.curSolCache_.atSCV
            (fluxRateUpwind (TwoPTwoCBoxJacobian 1) sampleJacobian 0
              NPhaseIndex).1).density NPhaseIndex *
          (sampleJacobian.curSolCache_.atSCV
            (fluxRateUpwind (TwoPTwoCBoxJacobian 1) sampleJacobian 0
              NPhaseIndex).1).mobility NPhaseIndex *
          (sampleJacobian.curSolCache_.atSCV
            (fluxRateUpwind (TwoPTwoCBoxJacobian 1) sampleJacobian 0
              NPhaseIndex).1).massfrac WCompIndex NPhaseIndex) := by
  have h := (fluxRate_isothermal_apply sampleJacobian (fun _ => 0) 0).1
  simp only [fluxRateUpwind, fluxRateDarcy_sample, upwindNodes] at h
  have hflux : fluxRate (TwoPTwoCBoxJacobian 1) sampleJacobian (fun _ => 0) 0 PwIndex = 1000 := by
    rw [h]
    simp [sampleJacobian, lineCellGeom, sampleCache, sampleVarNodeData]
    norm_num
  refine ⟨by rw [fluxRateDarcy_sample]; norm_num, hflux, ?_⟩
  rw [hflux]
  simp only [fluxRateUpwind, fluxRateDarcy_sample, upwindNodes]
  simp [sampleJacobian, lineCellGeom, sampleCache, sampleVarNodeData]

/-- Claim C13, amended: when the wetting Darcy flux `vDarcyOut[WPhase]` of a
face is positive, the wetting contributions to both entries of the flux use
density, mobility and mass fraction of the node `j`, which is the upstream
node; when it is not positive they use those of the node `i`. -/
theorem fluxRate_wetting_upstream {dim : Nat} (self : TwoPTwoCBoxJacobianBase dim)
    (flux : UnknownsVector) (faceId : Nat) :
    let v := fluxRateDarcy (TwoPTwoCBoxJacobian dim) self faceId
    let di := self.curSolCache_.atSCV (self.curCellGeom_.subContVolFace faceId).i
    let dj := self.curSolCache_.atSCV (self.curCellGeom_.subContVolFace faceId).j
    let upN := self.curSolCache_.atSCV
      (fluxRateUpwind (TwoPTwoCBoxJacobian dim) self faceId NPhaseIndex).1
    (0 < v WPhaseIndex →
      fluxRate (TwoPTwoCBoxJacobian dim) self flux faceId PwIndex
        = v WPhaseIndex * (dj.density WPhaseIndex * dj.mobility WPhaseIndex *
              dj.massfrac WCompIndex WPhaseIndex)
          + v NPhaseIndex * (upN.density NPhaseIndex * upN.mobility NPhaseIndex *
              upN.massfrac WCompIndex NPhaseIndex) ∧
      fluxRate (TwoPTwoCBoxJacobian dim) self flux faceId SwitchIndex
        = v NPhaseIndex * (upN.density NPhaseIndex * upN.mobility NPhaseIndex *
              upN.massfrac NCompIndex NPhaseIndex)
          + v WPhaseIndex * (dj.density WPhaseIndex * dj.mobility WPhaseIndex *
              dj.massfrac NCompIndex WPhaseIndex)) ∧
    (v WPhaseIndex ≤ 0 →
      fluxRate (TwoPTwoCBoxJacobian dim) self flux faceId PwIndex
        = v WPhaseIndex * (di.density WPhaseIndex * di.mobility WPhaseIndex *
              di.massfrac WCompIndex WPhaseIndex)
          + v NPhaseIndex * (upN.density NPhaseIndex * upN.mobility NPhaseIndex *
              upN.massfrac WCompIndex NPhaseIndex) ∧
      fluxRate (TwoPTwoCBoxJacobian dim) self flux faceId SwitchIndex
        = v NPhaseIndex * (upN.density NPhaseIndex * upN.mobility NPhaseIndex *
              upN.massfrac NCompIndex NPhaseIndex)
          + v WPhaseIndex * (di.density WPhaseIndex * di.mobility WPhaseIndex *
              di.massfrac NCompIndex WPhaseIndex)) := by
  intro v di dj upN
  have h := fluxRate_isothermal_apply self flux faceId
  simp only [] at h
  constructor
  · intro hv
    have hup : (fluxRateUpwind (TwoPTwoCBoxJacobian dim) self faceId WPhaseIndex).1
        = (self.curCellGeom_.subContVolFace faceId).j := by
      simp only [fluxRateUpwind, upwindNodes]
      rw [if_pos hv]
    rw [hup] at h
    exact h
  · intro hv
    have hup : (fluxRateUpwind (TwoPTwoCBoxJacobian dim) self faceId WPhaseIndex).1
        = (self.curCellGeom_.subContVolFace faceId).i := by
      simp only [fluxRateUpwind, upwindNodes]
      rw [if_neg (not_lt.mpr hv)]
    rw [hup] at h
    exact h


/-- Claim C14: for each phase the upstream node of a face is chosen from the
sign of the Darcy flux of that phase alone: the node `j` for a positive flux,
the node `i` for a negative one, the same nodes for two fluxes of the same
sign, and the two nodes swapped when a nonzero flux changes its sign. -/
theorem fluxRateUpwind_sign {dim : Nat} (impl : Implementation dim)
    (self : TwoPTwoCBoxJacobianBase dim) (faceId : Nat) (phase : Fin NumPhases)
    (v w : Scalar) (i j : Nat) :
    fluxRateUpwind impl self faceId phase
      = upwindNodes (fluxRateDarcy impl self faceId phase)
          (self.curCellGeom_.subContVolFace faceId).i
          (self.curCellGeom_.subContVolFace faceId).j ∧
    (0 < v → upwindNodes v i j = (j, i)) ∧
    (v < 0 → upwindNodes v i j = (i, j)) ∧
    (SignType.sign v = SignType.sign w → upwindNodes v i j = upwindNodes w i j) ∧
    (v ≠ 0 → (upwindNodes (-v) i j).1 = (upwindNodes v i j).2 ∧
      (upwindNodes (-v) i j).2 = (upwindNodes v i j).1) := by
  refine ⟨rfl, ?_, ?_, ?_, ?_⟩
  · intro hv
    simp [upwindNodes, hv]
  · intro hv
    simp [upwindNodes, not_lt.mpr hv.le]
  · intro hs
    by_cases hv : 0 < v
    · have hw : 0 < w := by
        rw [← sign_eq_one_iff, ← hs, sign_eq_one_iff]
        exact hv
      simp [upwindNodes, hv, hw]
    · have hw : ¬ 0 < w := by
        intro hw
        apply hv
        rw [← sign_eq_one_iff, hs, sign_eq_one_iff]
        exact hw
      simp [upwindNodes, hv, hw]
  · intro hv
    rcases lt_or_gt_of_ne hv with h | h
    · have h1 : 0 < -v := by linarith
      simp [upwindNodes, h1, not_lt.mpr h.le]
    · have h1 : ¬ 0 < -v := by linarith
      simp [upwindNodes, h1, h]

/-- Claim C15: the isothermal flux is fully upwinded: each entry is the sum
over the phases of the Darcy flux of the phase times density, mobility and
mass fraction at the upstream node of the phase; the downstream nodes do not
enter. -/
theorem fluxRate_fully_upwind {dim : Nat} (self : TwoPTwoCBoxJacobianBase dim)
    (flux : UnknownsVector) (faceId : Nat) :
    let v := fluxRateDarcy (TwoPTwoCBoxJacobian dim) self faceId
    let upW := self.curSolCache_.atSCV
      (fluxRateUpwind (TwoPTwoCBoxJacobian dim) self faceId WPhaseIndex).1
    let upN := self.curSolCache_.atSCV
      (fluxRateUpwind (TwoPTwoCBoxJacobian dim) self faceId NPhaseIndex).1
    fluxRate (TwoPTwoCBoxJacobian dim) self flux faceId =
      ![v WPhaseIndex * (upW.density WPhaseIndex * upW.mobility WPhaseIndex *
            upW.massfrac WCompIndex WPhaseIndex)
          + v NPhaseIndex * (upN.density NPhaseIndex * upN.mobility NPhaseIndex *
            upN.massfrac WCompIndex NPhaseIndex),
        v NPhaseIndex * (upN.density NPhaseIndex * upN.mobility NPhaseIndex *
            upN.massfrac NCompIndex NPhaseIndex)
          + v WPhaseIndex * (upW.density WPhaseIndex * upW.mobility WPhaseIndex *
            upW.massfrac NCompIndex WPhaseIndex)] := by
  intro v upW upN
  have h := fluxRate_isothermal_apply self flux faceId
  simp only [] at h
  funext idx
  fin_cases idx
  · exact h.1
  · exact h.2

/-- Claim C16: for each phase the Darcy flux of a face is the harmonic mean of
the permeabilities at the nodes `i` and `j`, applied to the sum over the nodes
`k` of the cell of `grad_k * p(k)` minus the density at the node `i` times the
gravity, and multiplied with the normal; `p` is the cached `pW` for the
wetting and the cached `pN` for the non-wetting phase. -/
theorem fluxRateDarcy_formula {dim : Nat} (impl : Implementation dim)
    (self : TwoPTwoCBoxJacobianBase dim) (faceId : Nat) :
    let face := self.curCellGeom_.subContVolFace faceId
    let cache := self.curSolCache_.atSCV
    let Keff := harmonicMeanK_
      (self.problem_.soil.K (self.curCellGeom_.subContVol face.i).global self.curCell_
        (self.curCellGeom_.subContVol face.i).localCoord)
      (self.problem_.soil.K (self.curCellGeom_.subContVol face.j).global self.curCell_
        (self.curCellGeom_.subContVol face.j).localCoord)
    fluxRateDarcy impl self faceId WPhaseIndex
      = Coord.dot
          (Keff.mv (fun d =>
            (∑ k in Finset.range self.curCellGeom_.nNodes, face.grad k d * (cache k).pW)
            - self.problem_.gravity d * (cache face.i).density WPhaseIndex))
          face.normal ∧
    fluxRateDarcy impl self faceId NPhaseIndex
      = Coord.dot
          (Keff.mv (fun d =>
            (∑ k in Finset.range self.curCellGeom_.nNodes, face.grad k d * (cache k).pN)
            - self.problem_.gravity d * (cache face.i).density NPhaseIndex))
          face.normal := by
  intro face cache Keff
  constructor
  · rw [fluxRateDarcy_eq]
    simp [face, cache, Keff]
  · rw [fluxRateDarcy_eq]
    simp [face, cache, Keff]

/-- The Darcy fluxes are the same for two caches with the same pressures at
the nodes of the cell and the same densities at the node `i` of the face. -/
theorem fluxRateDarcy_congr {dim : Nat} (impl : Implementation dim)
    (self : TwoPTwoCBoxJacobianBase dim) (cache : CellCache) (faceId : Nat)
    (hp : ∀ k, k < self.curCellGeom_.nNodes →
      (cache.atSCV k).pW = (self.curSolCache_.atSCV k).pW ∧
      (cache.atSCV k).pN = (self.curSolCache_.atSCV k).pN)
    (hi : (cache.atSCV (self.curCellGeom_.subContVolFace faceId).i).density
      = (self.curSolCache_.atSCV (self.curCellGeom_.subContVolFace faceId).i).density) :
    fluxRateDarcy impl { self with curSolCache_ := cache } faceId
      = fluxRateDarcy impl self faceId := by
  funext phase
  rw [fluxRateDarcy_eq, fluxRateDarcy_eq]
  simp only [hi]
  have hsum : ∀ d, (∑ k in Finset.range self.curCellGeom_.nNodes,
        (self.curCellGeom_.subContVolFace faceId).grad k d *
          (if phase = WPhaseIndex then (cache.atSCV k).pW else (cache.atSCV k).pN))
      = ∑ k in Finset.range self.curCellGeom_.nNodes,
        (self.curCellGeom_.subContVolFace faceId).grad k d *
          (if phase = WPhaseIndex then (self.curSolCache_.atSCV k).pW
           else (self.curSolCache_.atSCV k).pN) := by
    intro d
    apply Finset.sum_congr rfl
    intro k hk
    rw [Finset.mem_range] at hk
    rw [(hp k hk).1, (hp k hk).2]
  simp only [hsum]

/-- Claim C17: the isothermal flux is the same for two current-solution caches
that agree on `pW` and `pN` at the nodes of the cell and on density, mobility
and mass fractions at the nodes `i` and `j` of the face: the diffusion behind
the `return` does not contribute, and neither the phase states nor the mass
fractions of the other nodes enter. -/
theorem fluxRate_no_diffusion {dim : Nat} (self : TwoPTwoCBoxJacobianBase dim)
    (cache : CellCache) (flux : UnknownsVector) (faceId : Nat)
    (hp : ∀ k, k < self.curCellGeom_.nNodes →
      (cache.atSCV k).pW = (self.curSolCache_.atSCV k).pW ∧
      (cache.atSCV k).pN = (self.curSolCache_.atSCV k).pN)
    (hij : ∀ k, k = (self.curCellGeom_.subContVolFace faceId).i ∨
        k = (self.curCellGeom_.subContVolFace faceId).j →
      (cache.atSCV k).density = (self.curSolCache_.atSCV k).density ∧
      (cache.atSCV k).mobility = (self.curSolCache_.atSCV k).mobility ∧
      (cache.atSCV k).massfrac = (self.curSolCache_.atSCV k).massfrac) :
    fluxRate (TwoPTwoCBoxJacobian dim) { self with curSolCache_ := cache } flux faceId
      = fluxRate (TwoPTwoCBoxJacobian dim) self flux faceId := by
  have hv := fluxRateDarcy_congr (TwoPTwoCBoxJacobian dim) self cache faceId hp
    (hij _ (Or.inl rfl)).1
  have hup : ∀ phase, fluxRateUpwind (TwoPTwoCBoxJacobian dim)
      { self with curSolCache_ := cache } faceId phase
      = fluxRateUpwind (TwoPTwoCBoxJacobian dim) self faceId phase := by
    intro phase
    simp only [fluxRateUpwind, hv]
  have hmem : ∀ phase, (fluxRateUpwind (TwoPTwoCBoxJacobian dim) self faceId phase).1
        = (self.curCellGeom_.subContVolFace faceId).i ∨
      (fluxRateUpwind (TwoPTwoCBoxJacobian dim) self faceId phase).1
        = (self.curCellGeom_.subContVolFace faceId).j := by
    intro phase
    simp only [fluxRateUpwind, upwindNodes]
    split_ifs
    · exact Or.inr rfl
    · exact Or.inl rfl
  have h1 := fluxRate_isothermal_apply { self with curSolCache_ := cache } flux faceId
  have h2 := fluxRate_isothermal_apply self flux faceId
  simp only [hv, hup] at h1
  simp only [] at h2
  have hW := hij _ (hmem WPhaseIndex)
  have hN := hij _ (hmem NPhaseIndex)
  funext idx
  fin_cases idx
  · show fluxRate _ _ _ _ PwIndex = fluxRate _ _ _ _ PwIndex
    rw [h1.1, h2.1, hW.1, hW.2.1, hW.2.2, hN.1, hN.2.1, hN.2.2]
  · show fluxRate _ _ _ _ SwitchIndex = fluxRate _ _ _ _ SwitchIndex
    rw [h1.2, h2.2, hW.1, hW.2.1, hW.2.2, hN.1, hN.2.1, hN.2.2]

/-- The flux of C17 at the sample Jacobian and the cache `sampleCacheOther`,
which has other phase states at the nodes 0 and 1 and other mass fractions
at the node 2. -/
theorem fluxRate_no_diffusion_witness :
    (sampleCacheOther.atSCV 0).phaseState ≠ (sampleJacobian.curSolCache_.atSCV 0).phaseState ∧
    (sampleCacheOther.atSCV 2).massfrac ≠ (sampleJacobian.curSolCache_.atSCV 2).massfrac ∧
    fluxRate (TwoPTwoCBoxJacobian 1) { sampleJacobian with curSolCache_ := sampleCacheOther }
        (fun _ => 0) 0
      = fluxRate (TwoPTwoCBoxJacobian 1) sampleJacobian (fun _ => 0) 0 := by
  refine ⟨by simp [sampleCacheOther, sampleJacobian, sampleCache, sampleVarNodeData], ?_,
    fluxRate_no_diffusion sampleJacobian sampleCacheOther (fun _ => 0) 0 ?_ ?_⟩
  · intro h
    have := congrFun (congrFun h 0) 0
    simp [sampleCacheOther, sampleJacobian, sampleCache, sampleVarNodeData] at this
  · intro k hk
    have hk3 : k < 3 := hk
    interval_cases k <;> simp [sampleCacheOther, sampleJacobian, sampleCache]
  · intro k hk
    have hk' : k = 0 ∨ k = 1 := hk
    rcases hk' with rfl | rfl <;> simp [sampleCacheOther, sampleJacobian, sampleCache]


/-! ## The deflection of the current solution -/

/-- What `deflectCurSolution` returns for a node with a valid phase state: the
unknown is overwritten, the cache entry of the node is updated, and the
original value and cache entry are recorded unless a deflection is active. -/
theorem deflectCurSolution_spec {dim : Nat} (impl : Implementation dim)
    (self : TwoPTwoCBoxJacobianBase dim) (node : Nat) (component : Fin PrimaryVars)
    (value : Scalar)
    (hvalid :
      (self.staticNodeDat_ (self.problem_.nodeIndex self.curCell_ node)).phaseState = NPhaseOnly ∨
      (self.staticNodeDat_ (self.problem_.nodeIndex self.curCell_ node)).phaseState = WPhaseOnly ∨
      (self.staticNodeDat_ (self.problem_.nodeIndex self.curCell_ node)).phaseState = BothPhases) :
    ∃ d, updateVarNodeData_ (self.curSolCache_.atSCV node)
        (Function.update (self.curSol_ node) component value)
        (self.staticNodeDat_ (self.problem_.nodeIndex self.curCell_ node)).phaseState
        self.curCell_ node self.problem_
        (impl.temperature_ (Function.update (self.curSol_ node) component value))
        = Except.ok d ∧
      deflectCurSolution impl self node component value = Except.ok
        { self with
          curSolDeflected_ := true
          curSolOrigValue_ :=
            if self.curSolDeflected_ then self.curSolOrigValue_ else self.curSol_ node component
          curSolOrigVarData_ :=
            if self.curSolDeflected_ then self.curSolOrigVarData_
            else self.curSolCache_.atSCV node
          curSol_ := Function.update self.curSol_ node
            (Function.update (self.curSol_ node) component value)
          curSolCache_ := { atSCV := Function.update self.curSolCache_.atSCV node d } } := by
  obtain ⟨d, hd, -⟩ := updateVarNodeData_ok_of_valid (self.curSolCache_.atSCV node)
    (Function.update (self.curSol_ node) component value)
    (self.staticNodeDat_ (self.problem_.nodeIndex self.curCell_ node)).phaseState
    self.curCell_ node self.problem_
    (impl.temperature_ (Function.update (self.curSol_ node) component value)) hvalid
  refine ⟨d, hd, ?_⟩
  cases hflag : self.curSolDeflected_
  · simp [deflectCurSolution, hflag, hd]
  · simp [deflectCurSolution, hflag, hd]

/-- Claim C18: from a state without an active deflection and with a valid
phase state at the node, `deflectCurSolution` returns, and
`restoreCurSolution` after it gives back the state before the deflection:
the current solution and the current-solution cache are the same, the
deflection flag is cleared, and only the two recorded originals differ. -/
theorem deflect_restore_roundtrip {dim : Nat} (impl : Implementation dim)
    (self : TwoPTwoCBoxJacobianBase dim) (node : Nat) (component : Fin PrimaryVars)
    (value : Scalar)
    (hflag : self.curSolDeflected_ = false)
    (hvalid :
      (self.staticNodeDat_ (self.problem_.nodeIndex self.curCell_ node)).phaseState = NPhaseOnly ∨
      (self.staticNodeDat_ (self.problem_.nodeIndex self.curCell_ node)).phaseState = WPhaseOnly ∨
      (self.staticNodeDat_ (self.problem_.nodeIndex self.curCell_ node)).phaseState = BothPhases) :
    ∃ s, deflectCurSolution impl self node component value = Except.ok s ∧
      (restoreCurSolution s node component).curSol_ = self.curSol_ ∧
      (restoreCurSolution s node component).curSolCache_ = self.curSolCache_ ∧
      (restoreCurSolution s node component).curSolDeflected_ = false ∧
      restoreCurSolution s node component =
        { self with
          curSolOrigValue_ := self.curSol_ node component
          curSolOrigVarData_ := self.curSolCache_.atSCV node } := by
  obtain ⟨d, -, hs⟩ := deflectCurSolution_spec impl self node component value hvalid
  refine ⟨_, hs, ?_⟩
  have hfull : restoreCurSolution
      { self with
        curSolDeflected_ := true
        curSolOrigValue_ :=
          if self.curSolDeflected_ then self.curSolOrigValue_ else self.curSol_ node component
        curSolOrigVarData_ :=
          if self.curSolDeflected_ then self.curSolOrigVarData_
          else self.curSolCache_.atSCV node
        curSol_ := Function.update self.curSol_ node
          (Function.update (self.curSol_ node) component value)
        curSolCache_ := { atSCV := Function.update self.curSolCache_.atSCV node d } }
      node component =
      { self with
        curSolOrigValue_ := self.curSol_ node component
        curSolOrigVarData_ := self.curSolCache_.atSCV node } := by
    simp [restoreCurSolution, hflag]
  rw [hfull]
  exact ⟨rfl, rfl, hflag, rfl⟩


/-- The members of the state that `deflectCurSolution` returns for a node with
a valid phase state. -/
theorem deflectCurSolution_fields {dim : Nat} (impl : Implementation dim)
    (self : TwoPTwoCBoxJacobianBase dim) (node : Nat) (component : Fin PrimaryVars)
    (value : Scalar)
    (hvalid :
      (self.staticNodeDat_ (self.problem_.nodeIndex self.curCell_ node)).phaseState = NPhaseOnly ∨
      (self.staticNodeDat_ (self.problem_.nodeIndex self.curCell_ node)).phaseState = WPhaseOnly ∨
      (self.staticNodeDat_ (self.problem_.nodeIndex self.curCell_ node)).phaseState = BothPhases) :
    ∃ s d, deflectCurSolution impl self node component value = Except.ok s ∧
      s.problem_ = self.problem_ ∧ s.curCell_ = self.curCell_ ∧
      s.staticNodeDat_ = self.staticNodeDat_ ∧
      s.curSol_ = Function.update self.curSol_ node
        (Function.update (self.curSol_ node) component value) ∧
      s.curSolCache_.atSCV = Function.update self.curSolCache_.atSCV node d ∧
      s.curSolDeflected_ = true ∧
      s.curSolOrigValue_ =
        (if self.curSolDeflected_ then self.curSolOrigValue_
         else self.curSol_ node component) ∧
      s.curSolOrigVarData_ =
        (if self.curSolDeflected_ then self.curSolOrigVarData_
         else self.curSolCache_.atSCV node) := by
  obtain ⟨d, -, hs⟩ := deflectCurSolution_spec impl self node component value hvalid
  exact ⟨_, d, hs, rfl, rfl, rfl, rfl, rfl, rfl, rfl, rfl⟩

/-- Two deflections of the same node from a state without an active
deflection, followed by `restoreCurSolution` with the second component: the
cache entry of the node is restored; the unknowns of the node are restored
when the two components are the same, and otherwise the first component
keeps its deflected value and the second gets the original value of the
first. -/
theorem deflect_deflect_restore_fields {dim : Nat} (impl : Implementation dim)
    (self : TwoPTwoCBoxJacobianBase dim) (n : Nat) (c1 c2 : Fin PrimaryVars)
    (v1 v2 : Scalar)
    (hflag : self.curSolDeflected_ = false)
    (hvalid :
      (self.staticNodeDat_ (self.problem_.nodeIndex self.curCell_ n)).phaseState = NPhaseOnly ∨
      (self.staticNodeDat_ (self.problem_.nodeIndex self.curCell_ n)).phaseState = WPhaseOnly ∨
      (self.staticNodeDat_ (self.problem_.nodeIndex self.curCell_ n)).phaseState = BothPhases) :
    ∃ s1 s2, deflectCurSolution impl self n c1 v1 = Except.ok s1 ∧
      deflectCurSolution impl s1 n c2 v2 = Except.ok s2 ∧
      (restoreCurSolution s2 n c2).curSolCache_ = self.curSolCache_ ∧
      (restoreCurSolution s2 n c2).curSolDeflected_ = false ∧
      (c1 = c2 → (restoreCurSolution s2 n c2).curSol_ = self.curSol_) ∧
      (c1 ≠ c2 → (restoreCurSolution s2 n c2).curSol_ n c1 = v1 ∧
        (restoreCurSolution s2 n c2).curSol_ n c2 = self.curSol_ n c1) := by
  obtain ⟨s1, d1, hs1, hp1, hc1, hst1, hsol1, hcache1, hf1, hov1, hod1⟩ :=
    deflectCurSolution_fields impl self n c1 v1 hvalid
  have hvalid1 :
      (s1.staticNodeDat_ (s1.problem_.nodeIndex s1.curCell_ n)).phaseState = NPhaseOnly ∨
      (s1.staticNodeDat_ (s1.problem_.nodeIndex s1.curCell_ n)).phaseState = WPhaseOnly ∨
      (s1.staticNodeDat_ (s1.problem_.nodeIndex s1.curCell_ n)).phaseState = BothPhases := by
    rw [hp1, hc1, hst1]
    exact hvalid
  obtain ⟨s2, d2, hs2, -, -, -, hsol2, hcache2, -, hov2, hod2⟩ :=
    deflectCurSolution_fields impl s1 n c2 v2 hvalid1
  rw [hf1, if_pos rfl, hov1, hflag] at hov2
  rw [hf1, if_pos rfl, hod1, hflag] at hod2
  simp only [Bool.false_eq_true, if_false] at hov2 hod2
  refine ⟨s1, s2, hs1, hs2, ?_, rfl, ?_, ?_⟩
  · show ({ atSCV := Function.update s2.curSolCache_.atSCV n s2.curSolOrigVarData_ } : CellCache)
      = self.curSolCache_
    rw [hcache2, hcache1, hod2]
    simp
  · intro hc
    subst hc
    show Function.update s2.curSol_ n (Function.update (s2.curSol_ n) c1 s2.curSolOrigValue_)
      = self.curSol_
    rw [hsol2, hsol1, hov2]
    simp
  · intro hc
    have hc' : c2 ≠ c1 := fun h => hc h.symm
    constructor
    · show Function.update s2.curSol_ n (Function.update (s2.curSol_ n) c2 s2.curSolOrigValue_)
        n c1 = v1
      rw [hsol2, hsol1]
      simp [Function.update_noteq hc]
    · show Function.update s2.curSol_ n (Function.update (s2.curSol_ n) c2 s2.curSolOrigValue_)
        n c2 = self.curSol_ n c1
      rw [hov2]
      simp


/-- The round trip of C18 at the node 1 of the sample Jacobian, with the
switch variable deflected to 9/10. -/
theorem deflect_restore_roundtrip_witness :
    sampleJacobian.curSolDeflected_ = false ∧
    ∃ s, deflectCurSolution (TwoPTwoCBoxJacobian 1) sampleJacobian 1 SwitchIndex (9 / 10)
        = Except.ok s ∧
      (restoreCurSolution s 1 SwitchIndex).curSol_ = sampleJacobian.curSol_ ∧
      (restoreCurSolution s 1 SwitchIndex).curSolCache_ = sampleJacobian.curSolCache_ ∧
      (restoreCurSolution s 1 SwitchIndex).curSolDeflected_ = false ∧
      restoreCurSolution s 1 SwitchIndex =
        { sampleJacobian with
          curSolOrigValue_ := sampleJacobian.curSol_ 1 SwitchIndex
          curSolOrigVarData_ := sampleJacobian.curSolCache_.atSCV 1 } :=
  ⟨rfl, deflect_restore_roundtrip (TwoPTwoCBoxJacobian 1) sampleJacobian 1 SwitchIndex (9 / 10)
    rfl (Or.inr (Or.inr rfl))⟩

/-- Claim C19, refuted as stated: at the node 0 of the sample Jacobian, with
the unknowns `(1, 1/2)`, the sequence deflect the pressure to 7, deflect the
switch variable to 9, restore the switch variable leaves the unknowns
`(7, 1)`: the pressure stays deflected and the switch variable gets the
original pressure. -/
theorem nested_deflect_other_component_not_restored :
    sampleJacobian.curSolDeflected_ = false ∧
    sampleJacobian.curSol_ 0 PwIndex = 1 ∧ sampleJacobian.curSol_ 0 SwitchIndex = 1 / 2 ∧
    ∃ s1 s2, deflectCurSolution (TwoPTwoCBoxJacobian 1) sampleJacobian 0 PwIndex 7
        = Except.ok s1 ∧
      deflectCurSolution (TwoPTwoCBoxJacobian 1) s1 0 SwitchIndex 9 = Except.ok s2 ∧
      (restoreCurSolution s2 0 SwitchIndex).curSol_ 0 PwIndex = 7 ∧
      (restoreCurSolution s2 0 SwitchIndex).curSol_ 0 SwitchIndex = 1 ∧
      (restoreCurSolution s2 0 SwitchIndex).curSol_ 0 ≠ sampleJacobian.curSol_ 0 := by
  obtain ⟨s1, s2, hs1, hs2, -, -, -, hne⟩ :=
    deflect_deflect_restore_fields (TwoPTwoCBoxJacobian 1) sampleJacobian 0 PwIndex
      SwitchIndex 7 9 rfl (Or.inr (Or.inr rfl))
  have h := hne (by decide)
  have h1 : sampleJacobian.curSol_ 0 PwIndex = 1 := by simp [sampleJacobian]
  have h2 : sampleJacobian.curSol_ 0 SwitchIndex = 1 / 2 := by simp [sampleJacobian]
  refine ⟨rfl, h1, h2, s1, s2, hs1, hs2, h.1, by rw [h.2, h1], ?_⟩
  intro heq
  have := congrFun heq PwIndex
  rw [h.1, h1] at this
  norm_num at this

/-- Claim C19, amended: from a state without an active deflection, two
deflections of the same component `c` of the same node `n` followed by
`restoreCurSolution(n, c)` leave the unknowns of all nodes and the cache as
they were before the first deflection and the deflection flag cleared. With
two components `c1` and `c2` the cache is restored as well, whatever the
components are. -/
theorem nested_deflect_restore {dim : Nat} (impl : Implementation dim)
    (self : TwoPTwoCBoxJacobianBase dim) (n : Nat) (c c1 c2 : Fin PrimaryVars)
    (v1 v2 : Scalar)
    (hflag : self.curSolDeflected_ = false)
    (hvalid :
      (self.staticNodeDat_ (self.problem_.nodeIndex self.curCell_ n)).phaseState = NPhaseOnly ∨
      (self.staticNodeDat_ (self.problem_.nodeIndex self.curCell_ n)).phaseState = WPhaseOnly ∨
      (self.staticNodeDat_ (self.problem_.nodeIndex self.curCell_ n)).phaseState = BothPhases) :
    (∃ s1 s2, deflectCurSolution impl self n c v1 = Except.ok s1 ∧
      deflectCurSolution impl s1 n c v2 = Except.ok s2 ∧
      (restoreCurSolution s2 n c).curSol_ = self.curSol_ ∧
      (restoreCurSolution s2 n c).curSolCache_ = self.curSolCache_ ∧
      (restoreCurSolution s2 n c).curSolDeflected_ = false) ∧
    (∃ s1 s2, deflectCurSolution impl self n c1 v1 = Except.ok s1 ∧
      deflectCurSolution impl s1 n c2 v2 = Except.ok s2 ∧
      (restoreCurSolution s2 n c2).curSolCache_ = self.curSolCache_ ∧
      (restoreCurSolution s2 n c2).curSolDeflected_ = false) := by
  constructor
  · obtain ⟨s1, s2, hs1, hs2, hcache, hfl, hsame, -⟩ :=
      deflect_deflect_restore_fields impl self n c c v1 v2 hflag hvalid
    exact ⟨s1, s2, hs1, hs2, hsame rfl, hcache, hfl⟩
  · obtain ⟨s1, s2, hs1, hs2, hcache, hfl, -, -⟩ :=
      deflect_deflect_restore_fields impl self n c1 c2 v1 v2 hflag hvalid
    exact ⟨s1, s2, hs1, hs2, hcache, hfl⟩

/-- The amended C19 at the node 0 of the sample Jacobian. -/
theorem nested_deflect_restore_witness :
    sampleJacobian.curSolDeflected_ = false ∧
    (∃ s1 s2, deflectCurSolution (TwoPTwoCBoxJacobian 1) sampleJacobian 0 SwitchIndex (1 / 4)
        = Except.ok s1 ∧
      deflectCurSolution (TwoPTwoCBoxJacobian 1) s1 0 SwitchIndex (3 / 4) = Except.ok s2 ∧
      (restoreCurSolution s2 0 SwitchIndex).curSol_ = sampleJacobian.curSol_ ∧
      (restoreCurSolution s2 0 SwitchIndex).curSolCache_ = sampleJacobian.curSolCache_ ∧
      (restoreCurSolution s2 0 SwitchIndex).curSolDeflected_ = false) ∧
    (∃ s1 s2, deflectCurSolution (TwoPTwoCBoxJacobian 1) sampleJacobian 0 PwIndex (1 / 4)
        = Except.ok s1 ∧
      deflectCurSolution (TwoPTwoCBoxJacobian 1) s1 0 SwitchIndex (3 / 4) = Except.ok s2 ∧
      (restoreCurSolution s2 0 SwitchIndex).curSolCache_ = sampleJacobian.curSolCache_ ∧
      (restoreCurSolution s2 0 SwitchIndex).curSolDeflected_ = false) :=
  ⟨rfl, nested_deflect_restore (TwoPTwoCBoxJacobian 1) sampleJacobian 0 SwitchIndex PwIndex
    SwitchIndex (1 / 4) (3 / 4) rfl (Or.inr (Or.inr rfl))⟩


/-- A deflection of the node `m` while a deflection of another node `n` is
active, followed by `restoreCurSolution` at `m`: both deflections return, and
the restore writes the original value and cache entry recorded for `n` into
the node `m`, while `n` keeps its deflected value. -/
theorem deflect_other_node_fields {dim : Nat} (impl : Implementation dim)
    (self : TwoPTwoCBoxJacobianBase dim) (n m : Nat) (c c' : Fin PrimaryVars)
    (v w : Scalar) (hnm : n ≠ m)
    (hflag : self.curSolDeflected_ = false)
    (hn :
      (self.staticNodeDat_ (self.problem_.nodeIndex self.curCell_ n)).phaseState = NPhaseOnly ∨
      (self.staticNodeDat_ (self.problem_.nodeIndex self.curCell_ n)).phaseState = WPhaseOnly ∨
      (self.staticNodeDat_ (self.problem_.nodeIndex self.curCell_ n)).phaseState = BothPhases)
    (hm :
      (self.staticNodeDat_ (self.problem_.nodeIndex self.curCell_ m)).phaseState = NPhaseOnly ∨
      (self.staticNodeDat_ (self.problem_.nodeIndex self.curCell_ m)).phaseState = WPhaseOnly ∨
      (self.staticNodeDat_ (self.problem_.nodeIndex self.curCell_ m)).phaseState = BothPhases) :
    ∃ s1 s2, deflectCurSolution impl self n c v = Except.ok s1 ∧
      deflectCurSolution impl s1 m c' w = Except.ok s2 ∧
      s2.curSol_ m c' = w ∧
      (restoreCurSolution s2 m c').curSol_ m c' = self.curSol_ n c ∧
      (restoreCurSolution s2 m c').curSolCache_.atSCV m = self.curSolCache_.atSCV n ∧
      (restoreCurSolution s2 m c').curSol_ n c = v ∧
      (restoreCurSolution s2 m c').curSolDeflected_ = false := by
  obtain ⟨s1, d1, hs1, hp1, hc1, hst1, hsol1, hcache1, hf1, hov1, hod1⟩ :=
    deflectCurSolution_fields impl self n c v hn
  have hm1 :
      (s1.staticNodeDat_ (s1.problem_.nodeIndex s1.curCell_ m)).phaseState = NPhaseOnly ∨
      (s1.staticNodeDat_ (s1.problem_.nodeIndex s1.curCell_ m)).phaseState = WPhaseOnly ∨
      (s1.staticNodeDat_ (s1.problem_.nodeIndex s1.curCell_ m)).phaseState = BothPhases := by
    rw [hp1, hc1, hst1]
    exact hm
  obtain ⟨s2, d2, hs2, -, -, -, hsol2, hcache2, -, hov2, hod2⟩ :=
    deflectCurSolution_fields impl s1 m c' w hm1
  rw [hf1, if_pos rfl, hov1, hflag] at hov2
  rw [hf1, if_pos rfl, hod1, hflag] at hod2
  simp only [Bool.false_eq_true, if_false] at hov2 hod2
  refine ⟨s1, s2, hs1, hs2, ?_, ?_, ?_, ?_, rfl⟩
  · rw [hsol2]
    simp
  · show Function.update s2.curSol_ m (Function.update (s2.curSol_ m) c' s2.curSolOrigValue_)
      m c' = self.curSol_ n c
    rw [hov2]
    simp
  · show Function.update s2.curSolCache_.atSCV m s2.curSolOrigVarData_ m
      = self.curSolCache_.atSCV n
    rw [hod2]
    simp
  · show Function.update s2.curSol_ m (Function.update (s2.curSol_ m) c' s2.curSolOrigValue_)
      n c = v
    rw [hsol2, hsol1]
    simp [Function.update_noteq hnm]

/-- Claim C20, refuted as stated: after the pressure of the node 0 of the
sample Jacobian is deflected to 7, a deflection of the pressure of the node 1
to 9 returns without a fault, and the restore at the node 1 writes the
original pressure 1 and the original cache entry of the node 0 into the node
1, whose pressure was 3. -/
theorem deflect_other_node_not_guarded :
    sampleJacobian.curSol_ 0 PwIndex = 1 ∧ sampleJacobian.curSol_ 1 PwIndex = 3 ∧
    ∃ s1 s2, deflectCurSolution (TwoPTwoCBoxJacobian 1) sampleJacobian 0 PwIndex 7
        = Except.ok s1 ∧
      deflectCurSolution (TwoPTwoCBoxJacobian 1) s1 1 PwIndex 9 = Except.ok s2 ∧
      s2.curSol_ 1 PwIndex = 9 ∧
      (restoreCurSolution s2 1 PwIndex).curSol_ 1 PwIndex = 1 ∧
      (restoreCurSolution s2 1 PwIndex).curSolCache_.atSCV 1
        = sampleJacobian.curSolCache_.atSCV 0 ∧
      (restoreCurSolution s2 1 PwIndex).curSolCache_.atSCV 1
        ≠ sampleJacobian.curSolCache_.atSCV 1 := by
  obtain ⟨s1, s2, hs1, hs2, hw, hval, hcache, -, -⟩ :=
    deflect_other_node_fields (TwoPTwoCBoxJacobian 1) sampleJacobian 0 1 PwIndex PwIndex 7 9
      (by decide) rfl (Or.inr (Or.inr rfl)) (Or.inr (Or.inr rfl))
  have h0 : sampleJacobian.curSol_ 0 PwIndex = 1 := by simp [sampleJacobian]
  have h1 : sampleJacobian.curSol_ 1 PwIndex = 3 := by simp [sampleJacobian]
  refine ⟨h0, h1, s1, s2, hs1, hs2, hw, by rw [hval, h0], hcache, ?_⟩
  rw [hcache]
  intro heq
  have := congrArg VariableNodeData.pW heq
  simp [sampleJacobian, sampleCache, sampleVarNodeData] at this

/-- Claim C20, amended: a deflection of another node while a deflection is
active is not guarded against. For nodes `n ≠ m` with valid phase states,
from a state without an active deflection, `deflectCurSolution(m, c', w)`
after `deflectCurSolution(n, c, v)` returns and overwrites the unknown of `m`;
a `restoreCurSolution(m, c')` after it writes the original value and the
original cache entry recorded for `n` into the node `m`, leaves the unknown of
`n` deflected and clears the deflection flag. -/
theorem deflect_other_node_proceeds {dim : Nat} (impl : Implementation dim)
    (self : TwoPTwoCBoxJacobianBase dim) (n m : Nat) (c c' : Fin PrimaryVars)
    (v w : Scalar) (hnm : n ≠ m)
    (hflag : self.curSolDeflected_ = false)
    (hn :
      (self.staticNodeDat_ (self.problem_.nodeIndex self.curCell_ n)).phaseState = NPhaseOnly ∨
      (self.staticNodeDat_ (self.problem_.nodeIndex self.curCell_ n)).phaseState = WPhaseOnly ∨
      (self.staticNodeDat_ (self.problem_.nodeIndex self.curCell_ n)).phaseState = BothPhases)
    (hm :
      (self.staticNodeDat_ (self.problem_.nodeIndex self.curCell_ m)).phaseState = NPhaseOnly ∨
      (self.staticNodeDat_ (self.problem_.nodeIndex self.curCell_ m)).phaseState = WPhaseOnly ∨
      (self.staticNodeDat_ (self.problem_.nodeIndex self.curCell_ m)).phaseState = BothPhases) :
    ∃ s1 s2, deflectCurSolution impl self n c v = Except.ok s1 ∧
      deflectCurSolution impl s1 m c' w = Except.ok s2 ∧
      s2.curSol_ m c' = w ∧
      (restoreCurSolution s2 m c').curSol_ m c' = self.curSol_ n c ∧
      (restoreCurSolution s2 m c').curSolCache_.atSCV m = self.curSolCache_.atSCV n ∧
      (restoreCurSolution s2 m c').curSol_ n c = v ∧
      (restoreCurSolution s2 m c').curSolDeflected_ = false :=
  deflect_other_node_fields impl self n m c c' v w hnm hflag hn hm

/-- The amended C20 at the nodes 1 and 2 of the sample Jacobian. -/
theorem deflect_other_node_proceeds_witness :
    (1 : Nat) ≠ 2 ∧ sampleJacobian.curSolDeflected_ = false ∧
    ∃ s1 s2, deflectCurSolution (TwoPTwoCBoxJacobian 1) sampleJacobian 1 SwitchIndex (1 / 4)
        = Except.ok s1 ∧
      deflectCurSolution (TwoPTwoCBoxJacobian 1) s1 2 PwIndex 8 = Except.ok s2 ∧
      s2.curSol_ 2 PwIndex = 8 ∧
      (restoreCurSolution s2 2 PwIndex).curSol_ 2 PwIndex = sampleJacobian.curSol_ 1 SwitchIndex ∧
      (restoreCurSolution s2 2 PwIndex).curSolCache_.atSCV 2
        = sampleJacobian.curSolCache_.atSCV 1 ∧
      (restoreCurSolution s2 2 PwIndex).curSol_ 1 SwitchIndex = 1 / 4 ∧
      (restoreCurSolution s2 2 PwIndex).curSolDeflected_ = false :=
  ⟨by decide, rfl,
    deflect_other_node_proceeds (TwoPTwoCBoxJacobian 1) sampleJacobian 1 2 SwitchIndex PwIndex
      (1 / 4) 8 (by decide) rfl (Or.inr (Or.inr rfl)) (Or.inr (Or.inr rfl))⟩


/-- The result of the variable update does not depend on the cache entry it
overwrites. -/
theorem updateVarNodeData_indep {dim : Nat} (d e : VariableNodeData)
    (nodeSol : UnknownsVector) (phaseState : Int) (cell : Cell dim) (localIdx : Nat)
    (problem : Problem dim) (temperature : Scalar) :
    updateVarNodeData_ d nodeSol phaseState cell localIdx problem temperature
      = updateVarNodeData_ e nodeSol phaseState cell localIdx problem temperature := by
  by_cases h2 : phaseState = BothPhases
  · subst h2
    simp [updateVarNodeData_, MassfracMatrix.setEntry]
    refine congrArg Except.ok ?_
    congr 1
    · funext a; fin_cases a <;> simp
    · funext a; fin_cases a <;> simp
    · funext a b; fin_cases a <;> fin_cases b <;> simp
  by_cases h1 : phaseState = WPhaseOnly
  · subst h1
    simp [updateVarNodeData_, MassfracMatrix.setEntry]
    refine congrArg Except.ok ?_
    congr 1
    · funext a; fin_cases a <;> simp
    · funext a; fin_cases a <;> simp
    · funext a b; fin_cases a <;> fin_cases b <;> simp
  by_cases h0 : phaseState = NPhaseOnly
  · subst h0
    simp [updateVarNodeData_, MassfracMatrix.setEntry]
    refine congrArg Except.ok ?_
    congr 1
    · funext a; fin_cases a <;> simp
    · funext a; fin_cases a <;> simp
    · funext a b; fin_cases a <;> fin_cases b <;> simp
  simp [updateVarNodeData_, h0, h1, h2]


/-- Claim C21: for a node with a valid phase state `deflectCurSolution`
overwrites exactly the unknown `curSol[node][component]` and recomputes
exactly the cache entry of the node: the new entry is `updateVarNodeData_` of
the deflected unknowns of the node with its current phase state (whatever
entry the update starts from), and every other unknown, every other entry of
the current-solution cache, the previous solution and its cache and all
phase states stay as they are. -/
theorem deflectCurSolution_frame {dim : Nat} (impl : Implementation dim)
    (self : TwoPTwoCBoxJacobianBase dim) (node : Nat) (component : Fin PrimaryVars)
    (value : Scalar) (d0 : VariableNodeData)
    (hvalid :
      (self.staticNodeDat_ (self.problem_.nodeIndex self.curCell_ node)).phaseState = NPhaseOnly ∨
      (self.staticNodeDat_ (self.problem_.nodeIndex self.curCell_ node)).phaseState = WPhaseOnly ∨
      (self.staticNodeDat_ (self.problem_.nodeIndex self.curCell_ node)).phaseState = BothPhases) :
    ∃ s, deflectCurSolution impl self node component value = Except.ok s ∧
      s.curSol_ node component = value ∧
      updateVarNodeData_ d0 (s.curSol_ node)
        (self.staticNodeDat_ (self.problem_.nodeIndex self.curCell_ node)).phaseState
        self.curCell_ node self.problem_ (impl.temperature_ (s.curSol_ node))
        = Except.ok (s.curSolCache_.atSCV node) ∧
      (∀ n c, n ≠ node ∨ c ≠ component → s.curSol_ n c = self.curSol_ n c) ∧
      (∀ n, n ≠ node → s.curSolCache_.atSCV n = self.curSolCache_.atSCV n) ∧
      s.prevSol_ = self.prevSol_ ∧ s.prevSolCache_ = self.prevSolCache_ ∧
      s.staticNodeDat_ = self.staticNodeDat_ ∧ s.switchFlag_ = self.switchFlag_ := by
  obtain ⟨d, hd, hs⟩ := deflectCurSolution_spec impl self node component value hvalid
  refine ⟨_, hs, ?_, ?_, ?_, ?_, rfl, rfl, rfl, rfl⟩
  · simp
  · simp only [Function.update_same]
    rw [updateVarNodeData_indep d0 (self.curSolCache_.atSCV node)]
    exact hd
  · intro n c h
    by_cases hn : n = node
    · subst hn
      rcases h with h | h
      · exact absurd rfl h
      · simp [Function.update_noteq h]
    · simp [Function.update_noteq hn]
  · intro n hn
    simp [Function.update_noteq hn]

/-- The frame of C21 at the node 1 of the sample Jacobian, with the switch
variable deflected to 9/10. -/
theorem deflectCurSolution_frame_witness :
    ∃ s, deflectCurSolution (TwoPTwoCBoxJacobian 1) sampleJacobian 1 SwitchIndex (9 / 10)
        = Except.ok s ∧
      s.curSol_ 1 SwitchIndex = 9 / 10 ∧
      updateVarNodeData_ zeroVarNodeData (s.curSol_ 1)
        (sampleJacobian.staticNodeDat_
          (sampleJacobian.problem_.nodeIndex sampleJacobian.curCell_ 1)).phaseState
        sampleJacobian.curCell_ 1 sampleJacobian.problem_
        ((TwoPTwoCBoxJacobian 1).temperature_ (s.curSol_ 1))
        = Except.ok (s.curSolCache_.atSCV 1) ∧
      (∀ n c, n ≠ 1 ∨ c ≠ SwitchIndex → s.curSol_ n c = sampleJacobian.curSol_ n c) ∧
      (∀ n, n ≠ 1 → s.curSolCache_.atSCV n = sampleJacobian.curSolCache_.atSCV n) ∧
      s.prevSol_ = sampleJacobian.prevSol_ ∧ s.prevSolCache_ = sampleJacobian.prevSolCache_ ∧
      s.staticNodeDat_ = sampleJacobian.staticNodeDat_ ∧
      s.switchFlag_ = sampleJacobian.switchFlag_ :=
  deflectCurSolution_frame (TwoPTwoCBoxJacobian 1) sampleJacobian 1 SwitchIndex (9 / 10)
    zeroVarNodeData (Or.inr (Or.inr rfl))


/-! ## The variable switch, `primaryVarSwitch_` -/

/-- The variable switch changes the object only in the current phase state of
the node it is called for. -/
theorem primaryVarSwitch_state {dim : Nat} (impl : Implementation dim)
    (self : TwoPTwoCBoxJacobianBase dim) (sol : SpatialFunction) (k : Nat) (pos : Coord dim) :
    (primaryVarSwitch_ impl self sol k pos).1 =
      { self with
        staticNodeDat_ := Function.update self.staticNodeDat_ k
          { self.staticNodeDat_ k with
            phaseState := ((primaryVarSwitch_ impl self sol k pos).1.staticNodeDat_ k).phaseState } } := by
  simp [primaryVarSwitch_]

/-- The variable switch changes the solution only in the switch variable of
the node it is called for. -/
theorem primaryVarSwitch_sol {dim : Nat} (impl : Implementation dim)
    (self : TwoPTwoCBoxJacobianBase dim) (sol : SpatialFunction) (k : Nat) (pos : Coord dim) :
    (∀ j, j ≠ k → (primaryVarSwitch_ impl self sol k pos).2.1 j = sol j) ∧
    (primaryVarSwitch_ impl self sol k pos).2.1 k PwIndex = sol k PwIndex := by
  constructor
  · intro j hj
    simp only [primaryVarSwitch_]
    split_ifs <;> simp [Function.update_noteq hj]
  · simp only [primaryVarSwitch_]
    split_ifs <;> simp

/-- The variable switch returns true iff the phase state of the node changed. -/
theorem primaryVarSwitch_returns {dim : Nat} (impl : Implementation dim)
    (self : TwoPTwoCBoxJacobianBase dim) (sol : SpatialFunction) (k : Nat) (pos : Coord dim) :
    (primaryVarSwitch_ impl self sol k pos).2.2 = true ↔
      ((primaryVarSwitch_ impl self sol k pos).1.staticNodeDat_ k).phaseState
        ≠ (self.staticNodeDat_ k).phaseState := by
  simp [primaryVarSwitch_, ne_comm]

/-- The outcome of the variable switch at a node depends only on the problem,
the phase state of the node and the unknowns of the node. -/
theorem primaryVarSwitch_congr {dim : Nat} (impl : Implementation dim)
    (self self2 : TwoPTwoCBoxJacobianBase dim) (sol sol2 : SpatialFunction) (k : Nat)
    (pos : Coord dim) (hp : self2.problem_ = self.problem_)
    (ht : (self2.staticNodeDat_ k).phaseState = (self.staticNodeDat_ k).phaseState)
    (hs : sol2 k = sol k) :
    ((primaryVarSwitch_ impl self2 sol2 k pos).1.staticNodeDat_ k).phaseState
      = ((primaryVarSwitch_ impl self sol k pos).1.staticNodeDat_ k).phaseState ∧
    (primaryVarSwitch_ impl self2 sol2 k pos).2.1 k = (primaryVarSwitch_ impl self sol k pos).2.1 k ∧
    (primaryVarSwitch_ impl self2 sol2 k pos).2.2 = (primaryVarSwitch_ impl self sol k pos).2.2 := by
  simp only [primaryVarSwitch_, hp, ht, hs]
  refine ⟨?_, ?_, ?_⟩
  · split_ifs <;> simp
  · split_ifs <;> simp [hs]
  · split_ifs <;> simp


/-- Writing its own phase state to the static data of a node changes nothing. -/
theorem staticNodeDat_update_self {dim : Nat} (self : TwoPTwoCBoxJacobianBase dim) (k : Nat)
    (t : Int) (ht : (self.staticNodeDat_ k).phaseState = t) :
    Function.update self.staticNodeDat_ k
        { phaseState := t, oldPhaseState := (self.staticNodeDat_ k).oldPhaseState }
      = self.staticNodeDat_ := by
  subst ht
  simp

/-- The variable switch at a node in the state `NPhaseOnly`. -/
theorem primaryVarSwitch_NPhaseOnly {dim : Nat} (impl : Implementation dim)
    (self : TwoPTwoCBoxJacobianBase dim) (sol : SpatialFunction) (k : Nat) (pos : Coord dim)
    (ht : (self.staticNodeDat_ k).phaseState = NPhaseOnly) :
    (sol k SwitchIndex >
        self.problem_.multicomp.xWN (sol k PwIndex + self.problem_.pC 0 k pos)
          (impl.temperature_ (sol k)) * (1 + 2e-5) →
      ((primaryVarSwitch_ impl self sol k pos).1.staticNodeDat_ k).phaseState = BothPhases ∧
      (primaryVarSwitch_ impl self sol k pos).2.1
        = Function.update sol k (Function.update (sol k) SwitchIndex (1 - 2e-5)) ∧
      (primaryVarSwitch_ impl self sol k pos).2.2 = true) ∧
    (¬ sol k SwitchIndex >
        self.problem_.multicomp.xWN (sol k PwIndex + self.problem_.pC 0 k pos)
          (impl.temperature_ (sol k)) * (1 + 2e-5) →
      primaryVarSwitch_ impl self sol k pos = (self, sol, false)) := by
  constructor
  · intro h
    simp [primaryVarSwitch_, ht, h]
  · intro h
    have heta := staticNodeDat_update_self self k _ ht
    simp [primaryVarSwitch_, ht, h, heta]

/-- The variable switch at a node in the state `WPhaseOnly`. -/
theorem primaryVarSwitch_WPhaseOnly {dim : Nat} (impl : Implementation dim)
    (self : TwoPTwoCBoxJacobianBase dim) (sol : SpatialFunction) (k : Nat) (pos : Coord dim)
    (ht : (self.staticNodeDat_ k).phaseState = WPhaseOnly) :
    (sol k SwitchIndex >
        self.problem_.multicomp.xAW (sol k PwIndex + self.problem_.pC 1 k pos)
          (impl.temperature_ (sol k)) * (1 + 2e-5) →
      ((primaryVarSwitch_ impl self sol k pos).1.staticNodeDat_ k).phaseState = BothPhases ∧
      (primaryVarSwitch_ impl self sol k pos).2.1
        = Function.update sol k (Function.update (sol k) SwitchIndex 2e-5) ∧
      (primaryVarSwitch_ impl self sol k pos).2.2 = true) ∧
    (¬ sol k SwitchIndex >
        self.problem_.multicomp.xAW (sol k PwIndex + self.problem_.pC 1 k pos)
          (impl.temperature_ (sol k)) * (1 + 2e-5) →
      primaryVarSwitch_ impl self sol k pos = (self, sol, false)) := by
  constructor
  · intro h
    simp [primaryVarSwitch_, ht, h]
  · intro h
    have heta := staticNodeDat_update_self self k _ ht
    simp [primaryVarSwitch_, ht, h, heta]

/-- The variable switch at a node in the state `BothPhases`. -/
theorem primaryVarSwitch_BothPhases {dim : Nat} (impl : Implementation dim)
    (self : TwoPTwoCBoxJacobianBase dim) (sol : SpatialFunction) (k : Nat) (pos : Coord dim)
    (ht : (self.staticNodeDat_ k).phaseState = BothPhases) :
    (sol k SwitchIndex < -1e-5 →
      ((primaryVarSwitch_ impl self sol k pos).1.staticNodeDat_ k).phaseState = WPhaseOnly ∧
      (primaryVarSwitch_ impl self sol k pos).2.1
        = Function.update sol k (Function.update (sol k) SwitchIndex
            (self.problem_.multicomp.xAW
              (sol k PwIndex + self.problem_.pC (1 - sol k SwitchIndex) k pos)
              (impl.temperature_ (sol k)))) ∧
      (primaryVarSwitch_ impl self sol k pos).2.2 = true) ∧
    (1 - sol k SwitchIndex < -1e-5 →
      ((primaryVarSwitch_ impl self sol k pos).1.staticNodeDat_ k).phaseState = NPhaseOnly ∧
      (primaryVarSwitch_ impl self sol k pos).2.1
        = Function.update sol k (Function.update (sol k) SwitchIndex
            (self.problem_.multicomp.xWN
              (sol k PwIndex + self.problem_.pC (1 - sol k SwitchIndex) k pos)
              (impl.temperature_ (sol k)))) ∧
      (primaryVarSwitch_ impl self sol k pos).2.2 = true) ∧
    (-1e-5 ≤ sol k SwitchIndex → sol k SwitchIndex ≤ 1 + 1e-5 →
      primaryVarSwitch_ impl self sol k pos = (self, sol, false)) := by
  refine ⟨?_, ?_, ?_⟩
  · intro h
    simp [primaryVarSwitch_, ht, h]
  · intro h
    have h' : ¬ sol k SwitchIndex < -1e-5 := by
      rw [not_lt]
      norm_num at h ⊢
      linarith
    simp [primaryVarSwitch_, ht, h, h']
  · intro h1 h2
    have h1' : ¬ sol k SwitchIndex < -1e-5 := not_lt.mpr h1
    have h2' : ¬ 1 - sol k SwitchIndex < -1e-5 := by
      rw [not_lt]
      norm_num at h2 ⊢
      linarith
    have heta := staticNodeDat_update_self self k _ ht
    simp [primaryVarSwitch_, ht, h1', h2', heta]


/-- Claim C22, refuted as stated: with the solubility bound 0 the switch
unknown `bound * (1 + 3e-5)` is 0, not above the threshold, and the node stays
in the state `NPhaseOnly`. -/
theorem primaryVarSwitch_zero_bound_no_transition :
    ({ switchJacobian with problem_ := zeroSolubilityProblem }.staticNodeDat_ 0).phaseState
      = NPhaseOnly ∧
    (fun _ => ![1, 0] : SpatialFunction) 0 SwitchIndex
      = zeroSolubilityProblem.multicomp.xWN (1 + zeroSolubilityProblem.pC 0 0 (fun _ => 0))
          ((TwoPTwoCBoxJacobian 1).temperature_ ![1, 0]) * (1 + 3e-5) ∧
    ((primaryVarSwitch_ (TwoPTwoCBoxJacobian 1)
        { switchJacobian with problem_ := zeroSolubilityProblem }
        (fun _ => ![1, 0]) 0 (fun _ => 0)).1.staticNodeDat_ 0).phaseState = NPhaseOnly ∧
    (primaryVarSwitch_ (TwoPTwoCBoxJacobian 1)
        { switchJacobian with problem_ := zeroSolubilityProblem }
        (fun _ => ![1, 0]) 0 (fun _ => 0)).2.1 0 SwitchIndex = 0 ∧
    (primaryVarSwitch_ (TwoPTwoCBoxJacobian 1)
        { switchJacobian with problem_ := zeroSolubilityProblem }
        (fun _ => ![1, 0]) 0 (fun _ => 0)).2.2 = false := by
  have ht : ({ switchJacobian with problem_ := zeroSolubilityProblem }.staticNodeDat_ 0).phaseState
      = NPhaseOnly := by simp [switchJacobian]
  have h := (primaryVarSwitch_NPhaseOnly (TwoPTwoCBoxJacobian 1)
    { switchJacobian with problem_ := zeroSolubilityProblem }
    (fun _ => ![1, 0]) 0 (fun _ => 0) ht).2 (by simp [zeroSolubilityProblem])
  rw [h]
  refine ⟨ht, by simp [zeroSolubilityProblem], ht, by simp, rfl⟩

/-- Claim C22, amended: at a node in the state `NPhaseOnly` with the switch
unknown `x` and the bound `xWN(pN, T)` the switch moves the node to
`BothPhases` if and only if `x > bound * (1 + 2e-5)`; it then sets the switch
unknown to `1 - 2e-5` and returns true, and otherwise changes nothing. For a
positive bound, `x = bound * (1 + 3e-5)` makes the transition. -/
theorem primaryVarSwitch_wetting_appears {dim : Nat} (impl : Implementation dim)
    (self : TwoPTwoCBoxJacobianBase dim) (sol : SpatialFunction) (k : Nat) (pos : Coord dim)
    (ht : (self.staticNodeDat_ k).phaseState = NPhaseOnly) :
    let bound := self.problem_.multicomp.xWN (sol k PwIndex + self.problem_.pC 0 k pos)
      (impl.temperature_ (sol k))
    let r := primaryVarSwitch_ impl self sol k pos
    ((r.1.staticNodeDat_ k).phaseState = BothPhases ↔ sol k SwitchIndex > bound * (1 + 2e-5)) ∧
    (sol k SwitchIndex > bound * (1 + 2e-5) →
      r.2.1 k SwitchIndex = 1 - 2e-5 ∧ r.2.1 k PwIndex = sol k PwIndex ∧ r.2.2 = true) ∧
    (¬ sol k SwitchIndex > bound * (1 + 2e-5) → r = (self, sol, false)) ∧
    (0 < bound → sol k SwitchIndex = bound * (1 + 3e-5) →
      (r.1.staticNodeDat_ k).phaseState = BothPhases ∧ r.2.1 k SwitchIndex = 1 - 2e-5) := by
  intro bound r
  have h := primaryVarSwitch_NPhaseOnly impl self sol k pos ht
  have hyes : sol k SwitchIndex > bound * (1 + 2e-5) →
      (r.1.staticNodeDat_ k).phaseState = BothPhases ∧ r.2.1 k SwitchIndex = 1 - 2e-5 ∧
      r.2.1 k PwIndex = sol k PwIndex ∧ r.2.2 = true := by
    intro hx
    obtain ⟨h1, h2, h3⟩ := h.1 hx
    refine ⟨h1, ?_, ?_, h3⟩
    · show (primaryVarSwitch_ impl self sol k pos).2.1 k SwitchIndex = 1 - 2e-5
      rw [h2]; simp
    · show (primaryVarSwitch_ impl self sol k pos).2.1 k PwIndex = sol k PwIndex
      rw [h2]; simp
  refine ⟨⟨?_, fun hx => (hyes hx).1⟩, fun hx => (hyes hx).2, h.2, ?_⟩
  · intro htag
    by_contra hx
    have hr : r = (self, sol, false) := h.2 hx
    rw [hr] at htag
    simp only [] at htag
    rw [ht] at htag
    exact absurd htag (by decide)
  · intro hb hx
    have hgt : sol k SwitchIndex > bound * (1 + 2e-5) := by
      rw [hx]
      have : (1 : Scalar) + 2e-5 < 1 + 3e-5 := by norm_num
      exact mul_lt_mul_of_pos_left this hb
    exact ⟨(hyes hgt).1, (hyes hgt).2.1⟩


/-- The amended C22 at the node 0 of `switchJacobian`, in the state
`NPhaseOnly`, with the solution `switchSol`. -/
theorem primaryVarSwitch_wetting_appears_witness :
    (switchJacobian.staticNodeDat_ 0).phaseState = NPhaseOnly ∧
    (let bound := switchJacobian.problem_.multicomp.xWN
        (switchSol 0 PwIndex + switchJacobian.problem_.pC 0 0 (fun _ => 0))
        ((TwoPTwoCBoxJacobian 1).temperature_ (switchSol 0))
     let r := primaryVarSwitch_ (TwoPTwoCBoxJacobian 1) switchJacobian switchSol 0 (fun _ => 0)
     ((r.1.staticNodeDat_ 0).phaseState = BothPhases ↔
        switchSol 0 SwitchIndex > bound * (1 + 2e-5)) ∧
     (switchSol 0 SwitchIndex > bound * (1 + 2e-5) →
        r.2.1 0 SwitchIndex = 1 - 2e-5 ∧ r.2.1 0 PwIndex = switchSol 0 PwIndex ∧
        r.2.2 = true) ∧
     (¬ switchSol 0 SwitchIndex > bound * (1 + 2e-5) → r = (switchJacobian, switchSol, false)) ∧
     (0 < bound → switchSol 0 SwitchIndex = bound * (1 + 3e-5) →
        (r.1.staticNodeDat_ 0).phaseState = BothPhases ∧ r.2.1 0 SwitchIndex = 1 - 2e-5)) :=
  ⟨rfl, primaryVarSwitch_wetting_appears (TwoPTwoCBoxJacobian 1) switchJacobian switchSol 0
    (fun _ => 0) rfl⟩

/-- Claim C23: at a node in the state `WPhaseOnly` with the switch unknown `x`
and the bound `xAW(pN, T)` the switch moves the node to `BothPhases` if and
only if `x > bound * (1 + 2e-5)`; it then sets the switch unknown to `2e-5`
and returns true, and otherwise changes nothing. -/
theorem primaryVarSwitch_nonwetting_appears {dim : Nat} (impl : Implementation dim)
    (self : TwoPTwoCBoxJacobianBase dim) (sol : SpatialFunction) (k : Nat) (pos : Coord dim)
    (ht : (self.staticNodeDat_ k).phaseState = WPhaseOnly) :
    let bound := self.problem_.multicomp.xAW (sol k PwIndex + self.problem_.pC 1 k pos)
      (impl.temperature_ (sol k))
    let r := primaryVarSwitch_ impl self sol k pos
    ((r.1.staticNodeDat_ k).phaseState = BothPhases ↔ sol k SwitchIndex > bound * (1 + 2e-5)) ∧
    (sol k SwitchIndex > bound * (1 + 2e-5) →
      r.2.1 k SwitchIndex = 2e-5 ∧ r.2.1 k PwIndex = sol k PwIndex ∧ r.2.2 = true) ∧
    (¬ sol k SwitchIndex > bound * (1 + 2e-5) → r = (self, sol, false)) := by
  intro bound r
  have h := primaryVarSwitch_WPhaseOnly impl self sol k pos ht
  have hyes : sol k SwitchIndex > bound * (1 + 2e-5) →
      (r.1.staticNodeDat_ k).phaseState = BothPhases ∧ r.2.1 k SwitchIndex = 2e-5 ∧
      r.2.1 k PwIndex = sol k PwIndex ∧ r.2.2 = true := by
    intro hx
    obtain ⟨h1, h2, h3⟩ := h.1 hx
    refine ⟨h1, ?_, ?_, h3⟩
    · show (primaryVarSwitch_ impl self sol k pos).2.1 k SwitchIndex = 2e-5
      rw [h2]; simp
    · show (primaryVarSwitch_ impl self sol k pos).2.1 k PwIndex = sol k PwIndex
      rw [h2]; simp
  refine ⟨⟨?_, fun hx => (hyes hx).1⟩, fun hx => (hyes hx).2, h.2⟩
  intro htag
  by_contra hx
  have hr : r = (self, sol, false) := h.2 hx
  rw [hr] at htag
  simp only [] at htag
  rw [ht] at htag
  exact absurd htag (by decide)

/-- The switch of C23 at the node 1 of `switchJacobian`, in the state
`WPhaseOnly`, with the switch unknown 1/20, above the bound 1/100. -/
theorem primaryVarSwitch_nonwetting_appears_witness :
    (switchJacobian.staticNodeDat_ 1).phaseState = WPhaseOnly ∧
    (let sol : SpatialFunction := fun _ => ![3, 1 / 20]
     let bound := switchJacobian.problem_.multicomp.xAW
        (sol 1 PwIndex + switchJacobian.problem_.pC 1 1 (fun _ => 1))
        ((TwoPTwoCBoxJacobian 1).temperature_ (sol 1))
     let r := primaryVarSwitch_ (TwoPTwoCBoxJacobian 1) switchJacobian sol 1 (fun _ => 1)
     ((r.1.staticNodeDat_ 1).phaseState = BothPhases ↔ sol 1 SwitchIndex > bound * (1 + 2e-5)) ∧
     (sol 1 SwitchIndex > bound * (1 + 2e-5) →
        r.2.1 1 SwitchIndex = 2e-5 ∧ r.2.1 1 PwIndex = sol 1 PwIndex ∧ r.2.2 = true) ∧
     (¬ sol 1 SwitchIndex > bound * (1 + 2e-5) → r = (switchJacobian, sol, false))) :=
  ⟨rfl, primaryVarSwitch_nonwetting_appears (TwoPTwoCBoxJacobian 1) switchJacobian
    (fun _ => ![3, 1 / 20]) 1 (fun _ => 1) rfl⟩

/-- Claim C24, refuted as stated: at the node 2 of `switchJacobian`, in the
state `BothPhases` with the non-wetting saturation -1, the switch moves the
node to `WPhaseOnly`, not to `NPhaseOnly`, and sets the switch unknown to
`xAW = 1/100`. -/
theorem primaryVarSwitch_negative_satN_not_NPhaseOnly :
    (switchJacobian.staticNodeDat_ 2).phaseState = BothPhases ∧
    switchSol 2 SwitchIndex = -1 ∧
    ((primaryVarSwitch_ (TwoPTwoCBoxJacobian 1) switchJacobian switchSol 2
      (fun _ => 2)).1.staticNodeDat_ 2).phaseState = WPhaseOnly ∧
    ((primaryVarSwitch_ (TwoPTwoCBoxJacobian 1) switchJacobian switchSol 2
      (fun _ => 2)).1.staticNodeDat_ 2).phaseState ≠ NPhaseOnly ∧
    (primaryVarSwitch_ (TwoPTwoCBoxJacobian 1) switchJacobian switchSol 2
      (fun _ => 2)).2.1 2 SwitchIndex = 1 / 100 := by
  have hx : switchSol 2 SwitchIndex = -1 := by simp [switchSol]
  obtain ⟨h1, h2, -⟩ := (primaryVarSwitch_BothPhases (TwoPTwoCBoxJacobian 1) switchJacobian
    switchSol 2 (fun _ => 2) rfl).1 (by rw [hx]; norm_num)
  refine ⟨rfl, hx, h1, by rw [h1]; decide, ?_⟩
  rw [h2]
  simp [switchJacobian, sampleJacobian, linearPcProblem]

/-- Claim C24, amended: at a node in the state `BothPhases` whose non-wetting
saturation, the switch unknown `x`, is below `-1e-5`, the switch moves the
node to `WPhaseOnly`, sets the switch unknown to the solubility `xAW(pN, T)`
of the surviving wetting phase, with `pN = pW + pC(1 - x)`, keeps the pressure
and returns true. -/
theorem primaryVarSwitch_nonwetting_disappears {dim : Nat} (impl : Implementation dim)
    (self : TwoPTwoCBoxJacobianBase dim) (sol : SpatialFunction) (k : Nat) (pos : Coord dim)
    (ht : (self.staticNodeDat_ k).phaseState = BothPhases)
    (hx : sol k SwitchIndex < -1e-5) :
    let r := primaryVarSwitch_ impl self sol k pos
    (r.1.staticNodeDat_ k).phaseState = WPhaseOnly ∧
    r.2.1 k SwitchIndex
      = self.problem_.multicomp.xAW
          (sol k PwIndex + self.problem_.pC (1 - sol k SwitchIndex) k pos)
          (impl.temperature_ (sol k)) ∧
    r.2.1 k PwIndex = sol k PwIndex ∧ r.2.2 = true := by
  intro r
  obtain ⟨h1, h2, h3⟩ := (primaryVarSwitch_BothPhases impl self sol k pos ht).1 hx
  refine ⟨h1, ?_, ?_, h3⟩
  · show (primaryVarSwitch_ impl self sol k pos).2.1 k SwitchIndex = _
    rw [h2]; simp
  · show (primaryVarSwitch_ impl self sol k pos).2.1 k PwIndex = _
    rw [h2]; simp

/-- The amended C24 at the node 2 of `switchJacobian` with the solution
`switchSol`. -/
theorem primaryVarSwitch_nonwetting_disappears_witness :
    (switchJacobian.staticNodeDat_ 2).phaseState = BothPhases ∧
    switchSol 2 SwitchIndex < -1e-5 ∧
    (let r := primaryVarSwitch_ (TwoPTwoCBoxJacobian 1) switchJacobian switchSol 2 (fun _ => 2)
     (r.1.staticNodeDat_ 2).phaseState = WPhaseOnly ∧
     r.2.1 2 SwitchIndex
       = switchJacobian.problem_.multicomp.xAW
           (switchSol 2 PwIndex + switchJacobian.problem_.pC (1 - switchSol 2 SwitchIndex) 2
             (fun _ => 2))
           ((TwoPTwoCBoxJacobian 1).temperature_ (switchSol 2)) ∧
     r.2.1 2 PwIndex = switchSol 2 PwIndex ∧ r.2.2 = true) := by
  have hx : switchSol 2 SwitchIndex < -1e-5 := by
    simp [switchSol]
    norm_num
  exact ⟨rfl, hx, primaryVarSwitch_nonwetting_disappears (TwoPTwoCBoxJacobian 1) switchJacobian
    switchSol 2 (fun _ => 2) rfl hx⟩


/-- Claim C25, refuted as stated: at the node 2 of `switchJacobian`, in the
state `BothPhases` with the switch unknown 2 and so the wetting saturation -1,
the switch moves the node to `NPhaseOnly`, not to `WPhaseOnly`, and sets the
switch unknown to `xWN = 1/50`. -/
theorem primaryVarSwitch_negative_satW_not_WPhaseOnly :
    (switchJacobian.staticNodeDat_ 2).phaseState = BothPhases ∧
    1 - (fun _ => ![5, 2] : SpatialFunction) 2 SwitchIndex = -1 ∧
    ((primaryVarSwitch_ (TwoPTwoCBoxJacobian 1) switchJacobian (fun _ => ![5, 2]) 2
      (fun _ => 2)).1.staticNodeDat_ 2).phaseState = NPhaseOnly ∧
    ((primaryVarSwitch_ (TwoPTwoCBoxJacobian 1) switchJacobian (fun _ => ![5, 2]) 2
      (fun _ => 2)).1.staticNodeDat_ 2).phaseState ≠ WPhaseOnly ∧
    (primaryVarSwitch_ (TwoPTwoCBoxJacobian 1) switchJacobian (fun _ => ![5, 2]) 2
      (fun _ => 2)).2.1 2 SwitchIndex = 1 / 50 := by
  have hx : 1 - (fun _ => ![5, 2] : SpatialFunction) 2 SwitchIndex = -1 := by norm_num
  obtain ⟨h1, h2, -⟩ := (primaryVarSwitch_BothPhases (TwoPTwoCBoxJacobian 1) switchJacobian
    (fun _ => ![5, 2]) 2 (fun _ => 2) rfl).2.1 (by rw [hx]; norm_num)
  refine ⟨rfl, hx, h1, by rw [h1]; decide, ?_⟩
  rw [h2]
  simp [switchJacobian, sampleJacobian, linearPcProblem]

/-- Claim C25, amended: at a node in the state `BothPhases` whose wetting
saturation `1 - x` is below `-1e-5`, the switch moves the node to
`NPhaseOnly`, sets the switch unknown to the solubility `xWN(pN, T)` of the
surviving non-wetting phase, with `pN = pW + pC(1 - x)`, keeps the pressure
and returns true. -/
theorem primaryVarSwitch_wetting_disappears {dim : Nat} (impl : Implementation dim)
    (self : TwoPTwoCBoxJacobianBase dim) (sol : SpatialFunction) (k : Nat) (pos : Coord dim)
    (ht : (self.staticNodeDat_ k).phaseState = BothPhases)
    (hx : 1 - sol k SwitchIndex < -1e-5) :
    let r := primaryVarSwitch_ impl self sol k pos
    (r.1.staticNodeDat_ k).phaseState = NPhaseOnly ∧
    r.2.1 k SwitchIndex
      = self.problem_.multicomp.xWN
          (sol k PwIndex + self.problem_.pC (1 - sol k SwitchIndex) k pos)
          (impl.temperature_ (sol k)) ∧
    r.2.1 k PwIndex = sol k PwIndex ∧ r.2.2 = true := by
  intro r
  obtain ⟨h1, h2, h3⟩ := (primaryVarSwitch_BothPhases impl self sol k pos ht).2.1 hx
  refine ⟨h1, ?_, ?_, h3⟩
  · show (primaryVarSwitch_ impl self sol k pos).2.1 k SwitchIndex = _
    rw [h2]; simp
  · show (primaryVarSwitch_ impl self sol k pos).2.1 k PwIndex = _
    rw [h2]; simp

/-- The amended C25 at the node 2 of `switchJacobian` with the switch
unknown 2. -/
theorem primaryVarSwitch_wetting_disappears_witness :
    (switchJacobian.staticNodeDat_ 2).phaseState = BothPhases ∧
    1 - (fun _ => ![5, 2] : SpatialFunction) 2 SwitchIndex < -1e-5 ∧
    (let sol : SpatialFunction := fun _ => ![5, 2]
     let r := primaryVarSwitch_ (TwoPTwoCBoxJacobian 1) switchJacobian sol 2 (fun _ => 2)
     (r.1.staticNodeDat_ 2).phaseState = NPhaseOnly ∧
     r.2.1 2 SwitchIndex
       = switchJacobian.problem_.multicomp.xWN
           (sol 2 PwIndex + switchJacobian.problem_.pC (1 - sol 2 SwitchIndex) 2 (fun _ => 2))
           ((TwoPTwoCBoxJacobian 1).temperature_ (sol 2)) ∧
     r.2.1 2 PwIndex = sol 2 PwIndex ∧ r.2.2 = true) := by
  have hx : 1 - (fun _ => ![5, 2] : SpatialFunction) 2 SwitchIndex < -1e-5 := by norm_num
  exact ⟨rfl, hx, primaryVarSwitch_wetting_disappears (TwoPTwoCBoxJacobian 1) switchJacobian
    (fun _ => ![5, 2]) 2 (fun _ => 2) rfl hx⟩

/-- Claim C27: in one evaluation of `primaryVarSwitch_` at most one of the
four trigger conditions holds: the two conditions of the state `BothPhases`,
non-wetting saturation below `-1e-5` and wetting saturation below `-1e-5`,
exclude each other, and conditions of different phase states cannot hold
together. So every condition that holds takes effect, and without any the
switch changes nothing. -/
theorem primaryVarSwitch_triggers_exclusive {dim : Nat} (impl : Implementation dim)
    (self : TwoPTwoCBoxJacobianBase dim) (sol : SpatialFunction) (k : Nat) (pos : Coord dim) :
    let tag := (self.staticNodeDat_ k).phaseState
    let x := sol k SwitchIndex
    let T := impl.temperature_ (sol k)
    let satW : Scalar := 1 - x
    let satN : Scalar := 1 - satW
    let wAppears := tag = NPhaseOnly ∧
      x > self.problem_.multicomp.xWN (sol k PwIndex + self.problem_.pC 0 k pos) T * (1 + 2e-5)
    let nAppears := tag = WPhaseOnly ∧
      x > self.problem_.multicomp.xAW (sol k PwIndex + self.problem_.pC 1 k pos) T * (1 + 2e-5)
    let nDisappears := tag = BothPhases ∧ satN < -1e-5
    let wDisappears := tag = BothPhases ∧ satW < -1e-5
    let r := primaryVarSwitch_ impl self sol k pos
    ¬ (satN < -1e-5 ∧ satW < -1e-5) ∧
    ¬ (wAppears ∧ nAppears) ∧ ¬ (wAppears ∧ nDisappears) ∧ ¬ (wAppears ∧ wDisappears) ∧
    ¬ (nAppears ∧ nDisappears) ∧ ¬ (nAppears ∧ wDisappears) ∧ ¬ (nDisappears ∧ wDisappears) ∧
    (wAppears → (r.1.staticNodeDat_ k).phaseState = BothPhases ∧ r.2.2 = true) ∧
    (nAppears → (r.1.staticNodeDat_ k).phaseState = BothPhases ∧ r.2.2 = true) ∧
    (nDisappears → (r.1.staticNodeDat_ k).phaseState = WPhaseOnly ∧ r.2.2 = true) ∧
    (wDisappears → (r.1.staticNodeDat_ k).phaseState = NPhaseOnly ∧ r.2.2 = true) ∧
    (¬ wAppears → ¬ nAppears → ¬ nDisappears → ¬ wDisappears → r = (self, sol, false)) := by
  intro tag x T satW satN wAppears nAppears nDisappears wDisappears r
  have hsat : ¬ (satN < -1e-5 ∧ satW < -1e-5) := by
    rintro ⟨h1, h2⟩
    simp only [satN, satW] at h1 h2
    norm_num at h1 h2
    linarith
  have hsatN : satN = x := by simp [satN, satW]
  refine ⟨hsat, ?_, ?_, ?_, ?_, ?_, ?_, ?_, ?_, ?_, ?_, ?_⟩
  · rintro ⟨⟨h1, -⟩, ⟨h2, -⟩⟩
    rw [h1] at h2; exact absurd h2 (by decide)
  · rintro ⟨⟨h1, -⟩, ⟨h2, -⟩⟩
    rw [h1] at h2; exact absurd h2 (by decide)
  · rintro ⟨⟨h1, -⟩, ⟨h2, -⟩⟩
    rw [h1] at h2; exact absurd h2 (by decide)
  · rintro ⟨⟨h1, -⟩, ⟨h2, -⟩⟩
    rw [h1] at h2; exact absurd h2 (by decide)
  · rintro ⟨⟨h1, -⟩, ⟨h2, -⟩⟩
    rw [h1] at h2; exact absurd h2 (by decide)
  · rintro ⟨⟨-, h1⟩, ⟨-, h2⟩⟩
    exact hsat ⟨h1, h2⟩
  · rintro ⟨ht, hx⟩
    obtain ⟨h1, -, h3⟩ := (primaryVarSwitch_NPhaseOnly impl self sol k pos ht).1 hx
    exact ⟨h1, h3⟩
  · rintro ⟨ht, hx⟩
    obtain ⟨h1, -, h3⟩ := (primaryVarSwitch_WPhaseOnly impl self sol k pos ht).1 hx
    exact ⟨h1, h3⟩
  · rintro ⟨ht, hx⟩
    rw [hsatN] at hx
    obtain ⟨h1, -, h3⟩ := (primaryVarSwitch_BothPhases impl self sol k pos ht).1 hx
    exact ⟨h1, h3⟩
  · rintro ⟨ht, hx⟩
    obtain ⟨h1, -, h3⟩ := (primaryVarSwitch_BothPhases impl self sol k pos ht).2.1 hx
    exact ⟨h1, h3⟩
  · intro h1 h2 h3 h4
    by_cases ht0 : tag = NPhaseOnly
    · exact (primaryVarSwitch_NPhaseOnly impl self sol k pos ht0).2 (fun hx => h1 ⟨ht0, hx⟩)
    by_cases ht1 : tag = WPhaseOnly
    · exact (primaryVarSwitch_WPhaseOnly impl self sol k pos ht1).2 (fun hx => h2 ⟨ht1, hx⟩)
    by_cases ht2 : tag = BothPhases
    · have hx1 : -1e-5 ≤ x := by
        by_contra hc
        exact h3 ⟨ht2, by rw [hsatN]; exact not_le.mp hc⟩
      have hx2 : x ≤ 1 + 1e-5 := by
        by_contra hc
        apply h4
        refine ⟨ht2, ?_⟩
        simp only [satW]
        have := not_le.mp hc
        norm_num at this ⊢
        linarith
      exact (primaryVarSwitch_BothPhases impl self sol k pos ht2).2.2 hx1 hx2
    · simp only [tag] at ht0 ht1 ht2
      simp [r, primaryVarSwitch_, ht0, ht1, ht2]


/-! ## The switch pass and the phase-state store -/

/-- The loop of `updateStaticData` over a list of distinct nodes: only the
phase states change in the object, the old phase states stay, a node outside
the list is left as it is, and a node of the list gets the result of its own
variable switch from the state before the loop; the flag is set iff it was
set or one of the switches returned true. -/
theorem updateStaticDataStep_fold {dim : Nat} (impl : Implementation dim) :
    ∀ l : List Nat, l.Nodup →
      ∀ (s : TwoPTwoCBoxJacobianBase dim) (sol : SpatialFunction) (b : Bool),
      (∃ f, (l.foldl (updateStaticDataStep impl) (s, sol, b)).1
        = { s with staticNodeDat_ := f }) ∧
      (∀ k, ((l.foldl (updateStaticDataStep impl) (s, sol, b)).1.staticNodeDat_ k).oldPhaseState
        = (s.staticNodeDat_ k).oldPhaseState) ∧
      (∀ k, k ∉ l →
        (l.foldl (updateStaticDataStep impl) (s, sol, b)).1.staticNodeDat_ k
          = s.staticNodeDat_ k ∧
        (l.foldl (updateStaticDataStep impl) (s, sol, b)).2.1 k = sol k) ∧
      (∀ k, k ∈ l →
        ((l.foldl (updateStaticDataStep impl) (s, sol, b)).1.staticNodeDat_ k).phaseState
          = ((primaryVarSwitch_ impl s sol k
              (s.problem_.nodePosition k)).1.staticNodeDat_ k).phaseState ∧
        (l.foldl (updateStaticDataStep impl) (s, sol, b)).2.1 k
          = (primaryVarSwitch_ impl s sol k (s.problem_.nodePosition k)).2.1 k) ∧
      ((l.foldl (updateStaticDataStep impl) (s, sol, b)).2.2 = true ↔
        b = true ∨ ∃ k ∈ l,
          (primaryVarSwitch_ impl s sol k (s.problem_.nodePosition k)).2.2 = true) := by
  intro l
  induction l with
  | nil =>
    intro _ s sol b
    exact ⟨⟨s.staticNodeDat_, rfl⟩, fun _ => rfl, fun _ _ => ⟨rfl, rfl⟩,
      fun k hk => absurd hk (List.not_mem_nil k), by simp⟩
  | cons a l ih =>
    intro hnd s sol b
    rw [List.nodup_cons] at hnd
    rw [List.foldl_cons]
    have hstep : updateStaticDataStep impl (s, sol, b) a
        = ((primaryVarSwitch_ impl s sol a (s.problem_.nodePosition a)).1,
           (primaryVarSwitch_ impl s sol a (s.problem_.nodePosition a)).2.1,
           ((primaryVarSwitch_ impl s sol a (s.problem_.nodePosition a)).2.2 || b)) := rfl
    rw [hstep]
    have hst := primaryVarSwitch_state impl s sol a (s.problem_.nodePosition a)
    have hsol := primaryVarSwitch_sol impl s sol a (s.problem_.nodePosition a)
    generalize hr : primaryVarSwitch_ impl s sol a (s.problem_.nodePosition a) = r at hst hsol ⊢
    obtain ⟨⟨f, ih1⟩, ih2, ih3, ih4, ih5⟩ := ih hnd.2 r.1 r.2.1 (r.2.2 || b)
    have hprob : r.1.problem_ = s.problem_ := by rw [hst]
    have hother : ∀ k, k ≠ a → r.1.staticNodeDat_ k = s.staticNodeDat_ k := by
      intro k hk
      rw [hst]
      simp [Function.update_noteq hk]
    have hold : ∀ k, (r.1.staticNodeDat_ k).oldPhaseState = (s.staticNodeDat_ k).oldPhaseState := by
      intro k
      by_cases hk : k = a
      · subst hk
        rw [hst]
        simp
      · rw [hother k hk]
    refine ⟨⟨f, ?_⟩, ?_, ?_, ?_, ?_⟩
    · rw [ih1, hst]
    · intro k
      rw [ih2 k, hold k]
    · intro k hk
      rw [List.mem_cons, not_or] at hk
      obtain ⟨h1, h2⟩ := ih3 k hk.2
      exact ⟨by rw [h1, hother k hk.1], by rw [h2, hsol.1 k hk.1]⟩
    · intro k hk
      rw [List.mem_cons] at hk
      by_cases hka : k = a
      · subst hka
        obtain ⟨h1, h2⟩ := ih3 k hnd.1
        rw [hr]
        exact ⟨by rw [h1], by rw [h2]⟩
      · have hkl : k ∈ l := by
          rcases hk with h | h
          · exact absurd h hka
          · exact h
        obtain ⟨h1, h2⟩ := ih4 k hkl
        obtain ⟨c1, c2, -⟩ := primaryVarSwitch_congr impl s r.1 sol r.2.1 k
          (s.problem_.nodePosition k) hprob (by rw [hother k hka]) (hsol.1 k hka)
        rw [hprob] at h1 h2
        exact ⟨by rw [h1, c1], by rw [h2, c2]⟩
    · rw [ih5]
      constructor
      · rintro (h | ⟨k, hk, h⟩)
        · rw [Bool.or_eq_true] at h
          rcases h with h | h
          · exact Or.inr ⟨a, List.mem_cons_self a l, by rw [hr]; exact h⟩
          · exact Or.inl h
        · have hka : k ≠ a := fun h' => hnd.1 (h' ▸ hk)
          obtain ⟨-, -, c3⟩ := primaryVarSwitch_congr impl s r.1 sol r.2.1 k
            (s.problem_.nodePosition k) hprob (by rw [hother k hka]) (hsol.1 k hka)
          rw [hprob, c3] at h
          exact Or.inr ⟨k, List.mem_cons_of_mem a hk, h⟩
      · rintro (h | ⟨k, hk, h⟩)
        · exact Or.inl (by rw [Bool.or_eq_true]; exact Or.inr h)
        · rw [List.mem_cons] at hk
          by_cases hka : k = a
          · subst hka
            rw [hr] at h
            exact Or.inl (by rw [Bool.or_eq_true]; exact Or.inl h)
          · have hkl : k ∈ l := by
              rcases hk with h' | h'
              · exact absurd h' hka
              · exact h'
            obtain ⟨-, -, c3⟩ := primaryVarSwitch_congr impl s r.1 sol r.2.1 k
              (s.problem_.nodePosition k) hprob (by rw [hother k hka]) (hsol.1 k hka)
            refine Or.inr ⟨k, hkl, ?_⟩
            rw [hprob, c3]
            exact h


/-- The object after a switch pass: the flag and the phase states change, and
nothing else. -/
theorem updateStaticData_state {dim : Nat} (impl : Implementation dim)
    (self : TwoPTwoCBoxJacobianBase dim) (curSol oldSol : SpatialFunction) :
    (∃ f b, (updateStaticData impl self curSol oldSol).1
      = { self with staticNodeDat_ := f, switchFlag_ := b }) ∧
    (∀ k, ((updateStaticData impl self curSol oldSol).1.staticNodeDat_ k).oldPhaseState
      = (self.staticNodeDat_ k).oldPhaseState) := by
  obtain ⟨⟨f, h1⟩, h2, -, -, -⟩ := updateStaticDataStep_fold impl
    (List.range self.problem_.numNodes) (List.nodup_range _) self curSol false
  constructor
  · refine ⟨f, ((List.range self.problem_.numNodes).foldl (updateStaticDataStep impl)
      (self, curSol, false)).2.2, ?_⟩
    simp only [updateStaticData, setSwitched]
    rw [h1]
  · intro k
    simp only [updateStaticData, setSwitched]
    exact h2 k

/-- The loop of `updateOldPhaseState` over the first `n` nodes. -/
theorem updateOldPhaseStateStep_fold {dim : Nat} (self : TwoPTwoCBoxJacobianBase dim) (n : Nat) :
    (List.range n).foldl updateOldPhaseStateStep self =
      { self with
        staticNodeDat_ := fun i =>
          if i < n then
            { self.staticNodeDat_ i with oldPhaseState := (self.staticNodeDat_ i).phaseState }
          else self.staticNodeDat_ i } := by
  induction n with
  | zero => simp
  | succ n ih =>
    rw [List.range_succ, List.foldl_append, ih]
    simp only [List.foldl_cons, List.foldl_nil, updateOldPhaseStateStep]
    congr 1
    funext i
    by_cases hi : i = n
    · subst hi
      simp
    · rw [Function.update_noteq hi]
      by_cases hlt : i < n
      · simp [hlt, Nat.lt_succ_of_lt hlt]
      · have : ¬ i < n + 1 := by omega
        simp [hlt, this]

/-- The loop of `resetPhaseState` over the first `n` nodes. -/
theorem resetPhaseStateStep_fold {dim : Nat} (self : TwoPTwoCBoxJacobianBase dim) (n : Nat) :
    (List.range n).foldl resetPhaseStateStep self =
      { self with
        staticNodeDat_ := fun i =>
          if i < n then
            { self.staticNodeDat_ i with phaseState := (self.staticNodeDat_ i).oldPhaseState }
          else self.staticNodeDat_ i } := by
  induction n with
  | zero => simp
  | succ n ih =>
    rw [List.range_succ, List.foldl_append, ih]
    simp only [List.foldl_cons, List.foldl_nil, resetPhaseStateStep]
    congr 1
    funext i
    by_cases hi : i = n
    · subst hi
      simp
    · rw [Function.update_noteq hi]
      by_cases hlt : i < n
      · simp [hlt, Nat.lt_succ_of_lt hlt]
      · have : ¬ i < n + 1 := by omega
        simp [hlt, this]

/-- Claim C28: after a switch pass the flag `switched` is true if and only if
the phase state of at least one node of the grid differs from its phase state
before the pass, whatever the flag was before; and `primaryVarSwitch_` returns
true for a node if and only if it changed the phase state of that node. -/
theorem updateStaticData_switched_iff {dim : Nat} (impl : Implementation dim)
    (self : TwoPTwoCBoxJacobianBase dim) (curSol oldSol : SpatialFunction) :
    (switched (updateStaticData impl self curSol oldSol).1 = true ↔
      ∃ k, k < self.problem_.numNodes ∧
        ((updateStaticData impl self curSol oldSol).1.staticNodeDat_ k).phaseState
          ≠ (self.staticNodeDat_ k).phaseState) ∧
    (∀ (sol : SpatialFunction) (k : Nat) (pos : Coord dim),
      (primaryVarSwitch_ impl self sol k pos).2.2 = true ↔
        ((primaryVarSwitch_ impl self sol k pos).1.staticNodeDat_ k).phaseState
          ≠ (self.staticNodeDat_ k).phaseState) := by
  refine ⟨?_, fun sol k pos => primaryVarSwitch_returns impl self sol k pos⟩
  obtain ⟨-, -, -, h4, h5⟩ := updateStaticDataStep_fold impl
    (List.range self.problem_.numNodes) (List.nodup_range _) self curSol false
  simp only [updateStaticData, setSwitched, switched]
  rw [h5]
  constructor
  · rintro (h | ⟨k, hk, h⟩)
    · exact absurd h (by decide)
    · refine ⟨k, List.mem_range.mp hk, ?_⟩
      rw [(h4 k hk).1]
      exact (primaryVarSwitch_returns impl self curSol k _).mp h
  · rintro ⟨k, hk, h⟩
    have hk' := List.mem_range.mpr hk
    rw [(h4 k hk').1] at h
    exact Or.inr ⟨k, hk', (primaryVarSwitch_returns impl self curSol k _).mpr h⟩

/-- Claim C29: `updateOldPhaseState` is idempotent: a second call right after
the first changes nothing, neither a current nor an old phase state. -/
theorem updateOldPhaseState_idempotent {dim : Nat} (self : TwoPTwoCBoxJacobianBase dim) :
    updateOldPhaseState (updateOldPhaseState self) = updateOldPhaseState self ∧
    (∀ k, (updateOldPhaseState self).staticNodeDat_ k =
      if k < self.problem_.numNodes then
        { phaseState := (self.staticNodeDat_ k).phaseState,
          oldPhaseState := (self.staticNodeDat_ k).phaseState }
      else self.staticNodeDat_ k) := by
  have h : ∀ s : TwoPTwoCBoxJacobianBase dim, updateOldPhaseState s =
      { s with
        staticNodeDat_ := fun i =>
          if i < s.problem_.numNodes then
            { s.staticNodeDat_ i with oldPhaseState := (s.staticNodeDat_ i).phaseState }
          else s.staticNodeDat_ i } := fun s => updateOldPhaseStateStep_fold s _
  constructor
  · rw [h (updateOldPhaseState self), h self]
    congr 1
    funext i
    by_cases hi : i < self.problem_.numNodes <;> simp [hi]
  · intro k
    rw [h self]


/-- Switch passes, with any solutions, keep the problem and the old phase
states of the object. -/
theorem updateStaticData_passes_old {dim : Nat} (impl : Implementation dim) :
    ∀ (sols : List (SpatialFunction × SpatialFunction)) (s : TwoPTwoCBoxJacobianBase dim),
      (sols.foldl (fun s p => (updateStaticData impl s p.1 p.2).1) s).problem_ = s.problem_ ∧
      ∀ k, ((sols.foldl (fun s p => (updateStaticData impl s p.1 p.2).1) s).staticNodeDat_
          k).oldPhaseState = (s.staticNodeDat_ k).oldPhaseState := by
  intro sols
  induction sols with
  | nil => intro s; exact ⟨rfl, fun _ => rfl⟩
  | cons p sols ih =>
    intro s
    rw [List.foldl_cons]
    obtain ⟨h1, h2⟩ := ih (updateStaticData impl s p.1 p.2).1
    obtain ⟨⟨f, b, hs⟩, hold⟩ := updateStaticData_state impl s p.1 p.2
    refine ⟨?_, ?_⟩
    · rw [h1, hs]
    · intro k
      rw [h2 k, hold k]

/-- Claim C30: after `updateOldPhaseState`, any number of switch passes with
any solutions and then `resetPhaseState`, the current phase state of every
node of the grid is its current phase state at the call of
`updateOldPhaseState`; `resetPhaseState` right after `updateOldPhaseState`
changes nothing. -/
theorem resetPhaseState_restores_commit {dim : Nat} (impl : Implementation dim)
    (self : TwoPTwoCBoxJacobianBase dim) (sols : List (SpatialFunction × SpatialFunction)) :
    (∀ k, k < self.problem_.numNodes →
      ((resetPhaseState (sols.foldl (fun s p => (updateStaticData impl s p.1 p.2).1)
          (updateOldPhaseState self))).staticNodeDat_ k).phaseState
        = (self.staticNodeDat_ k).phaseState) ∧
    resetPhaseState (updateOldPhaseState self) = updateOldPhaseState self := by
  have hc : ∀ s : TwoPTwoCBoxJacobianBase dim, updateOldPhaseState s =
      { s with
        staticNodeDat_ := fun i =>
          if i < s.problem_.numNodes then
            { s.staticNodeDat_ i with oldPhaseState := (s.staticNodeDat_ i).phaseState }
          else s.staticNodeDat_ i } := fun s => updateOldPhaseStateStep_fold s _
  have hr : ∀ s : TwoPTwoCBoxJacobianBase dim, resetPhaseState s =
      { s with
        staticNodeDat_ := fun i =>
          if i < s.problem_.numNodes then
            { s.staticNodeDat_ i with phaseState := (s.staticNodeDat_ i).oldPhaseState }
          else s.staticNodeDat_ i } := fun s => resetPhaseStateStep_fold s _
  constructor
  · intro k hk
    obtain ⟨hp, hold⟩ := updateStaticData_passes_old impl sols (updateOldPhaseState self)
    have hp' : (sols.foldl (fun s p => (updateStaticData impl s p.1 p.2).1)
        (updateOldPhaseState self)).problem_ = self.problem_ := by
      rw [hp, hc self]
    rw [hr]
    simp only [hp', hk, if_true]
    rw [hold k, hc self]
    simp [hk]
  · rw [hr (updateOldPhaseState self), hc self]
    congr 1
    funext i
    by_cases hi : i < self.problem_.numNodes <;> simp [hi]


/-! ## The isothermal members -/

/-- Claim C34: in the isothermal local Jacobian `heatStorage`,
`advectiveHeatFlux` and `diffusiveHeatFlux` return the vector they are given,
`updateTempGrad` returns the temperature gradient it is given, and
`temperature_` is 283.15 for every solution vector. -/
theorem isothermal_members_do_nothing {dim : Nat} (result flux : UnknownsVector)
    (scvId faceIdx nodeIdx : Nat) (sol : LocalFunction) (cellCache : CellCache)
    (tempGrad feGrad : Coord dim) (darcyOut : PhasesVector) (alpha : Scalar)
    (upW dnW upN dnN : VariableNodeData) (nodeSol : UnknownsVector) :
    (TwoPTwoCBoxJacobian dim).heatStorage result scvId sol cellCache = result ∧
    (TwoPTwoCBoxJacobian dim).updateTempGrad tempGrad feGrad sol nodeIdx = tempGrad ∧
    (TwoPTwoCBoxJacobian dim).advectiveHeatFlux flux darcyOut alpha upW dnW upN dnN = flux ∧
    (TwoPTwoCBoxJacobian dim).diffusiveHeatFlux flux faceIdx tempGrad = flux ∧
    (TwoPTwoCBoxJacobian dim).temperature_ nodeSol = 283.15 :=
  ⟨rfl, rfl, rfl, rfl, rfl⟩

/-- Claim C37: a switch pass applies the variable switch of every node of the
grid once, whatever the switches of the nodes before it did: after the pass
the phase state and the unknowns of each node are those that
`primaryVarSwitch_` gives for that node from the state before the pass, and a
node outside the grid is left as it is. -/
theorem updateStaticData_each_node {dim : Nat} (impl : Implementation dim)
    (self : TwoPTwoCBoxJacobianBase dim) (curSol oldSol : SpatialFunction) (k : Nat) :
    (k < self.problem_.numNodes →
      ((updateStaticData impl self curSol oldSol).1.staticNodeDat_ k).phaseState
        = ((primaryVarSwitch_ impl self curSol k
            (self.problem_.nodePosition k)).1.staticNodeDat_ k).phaseState ∧
      (updateStaticData impl self curSol oldSol).2 k
        = (primaryVarSwitch_ impl self curSol k (self.problem_.nodePosition k)).2.1 k) ∧
    (¬ k < self.problem_.numNodes →
      (updateStaticData impl self curSol oldSol).1.staticNodeDat_ k = self.staticNodeDat_ k ∧
      (updateStaticData impl self curSol oldSol).2 k = curSol k) := by
  obtain ⟨-, -, h3, h4, -⟩ := updateStaticDataStep_fold impl
    (List.range self.problem_.numNodes) (List.nodup_range _) self curSol false
  constructor
  · intro hk
    exact h4 k (List.mem_range.mpr hk)
  · intro hk
    exact h3 k (fun h => hk (List.mem_range.mp h))


/-- The closures of a cache entry that the variable update returns. -/
theorem updateVarNodeData_closures {dim : Nat} (d : VariableNodeData)
    (nodeSol : UnknownsVector) (phaseState : Int) (cell : Cell dim) (localIdx : Nat)
    (problem : Problem dim) (temperature : Scalar) (d' : VariableNodeData)
    (hd : updateVarNodeData_ d nodeSol phaseState cell localIdx problem temperature
      = Except.ok d') :
    d'.massfrac WCompIndex WPhaseIndex + d'.massfrac NCompIndex WPhaseIndex = 1 ∧
    d'.massfrac WCompIndex NPhaseIndex + d'.massfrac NCompIndex NPhaseIndex = 1 ∧
    (phaseState = NPhaseOnly ∨ phaseState = WPhaseOnly ∨ phaseState = BothPhases) ∧
    (phaseState = WPhaseOnly → d'.satW = 1 ∧ d'.satN = 0) ∧
    (phaseState = NPhaseOnly → d'.satW = 0 ∧ d'.satN = 1) := by
  by_cases hv : phaseState = NPhaseOnly ∨ phaseState = WPhaseOnly ∨ phaseState = BothPhases
  · rcases hv with rfl | rfl | rfl
    · simp [updateVarNodeData_, MassfracMatrix.setEntry] at hd
      cases hd
      simp
    · simp [updateVarNodeData_, MassfracMatrix.setEntry] at hd
      cases hd
      simp
    · simp [updateVarNodeData_, MassfracMatrix.setEntry] at hd
      cases hd
      simp
  · have h0 : ¬ phaseState = NPhaseOnly := fun h => hv (Or.inl h)
    have h1 : ¬ phaseState = WPhaseOnly := fun h => hv (Or.inr (Or.inl h))
    have h2 : ¬ phaseState = BothPhases := fun h => hv (Or.inr (Or.inr h))
    simp [updateVarNodeData_, h0, h1, h2] at hd
    cases hd


/-- The sum of the two entries of the isothermal storage term. -/
theorem localRate_isothermal_sum {dim : Nat} (self : TwoPTwoCBoxJacobianBase dim)
    (result : UnknownsVector) (scvId : Nat) (usePrevSol : Bool) (c : VariableNodeData)
    (hc : (if usePrevSol then self.prevSolCache_ else self.curSolCache_).atSCV scvId = c) :
    localRate (TwoPTwoCBoxJacobian dim) self result scvId usePrevSol PwIndex
      + localRate (TwoPTwoCBoxJacobian dim) self result scvId usePrevSol SwitchIndex
      = self.problem_.porosity self.curCell_ scvId *
          (c.density WPhaseIndex * c.satW *
              (c.massfrac WCompIndex WPhaseIndex + c.massfrac NCompIndex WPhaseIndex)
            + c.density NPhaseIndex * c.satN *
              (c.massfrac WCompIndex NPhaseIndex + c.massfrac NCompIndex NPhaseIndex)) := by
  subst hc
  cases usePrevSol <;> simp [localRate, TwoPTwoCBoxJacobian] <;> ring

/-- In exact arithmetic, for a cache entry `c` that `updateVarNodeData_`
returns, the two entries of the storage term add up to
`porosity * (density_w * satW + density_n * satN)`; in the state `WPhaseOnly`
that is `porosity * density_w` and in the state `NPhaseOnly`
`porosity * density_n`. In the arithmetic of `double` this holds only up to
rounding. -/
theorem localRate_total_mass {dim : Nat} (d : VariableNodeData) (nodeSol : UnknownsVector)
    (phaseState : Int) (cell : Cell dim) (localIdx : Nat) (problem : Problem dim)
    (temperature : Scalar) (self : TwoPTwoCBoxJacobianBase dim) (result : UnknownsVector)
    (scvId : Nat) (usePrevSol : Bool) (c : VariableNodeData)
    (hc : updateVarNodeData_ d nodeSol phaseState cell localIdx problem temperature
      = Except.ok c)
    (hcache : (if usePrevSol then self.prevSolCache_ else self.curSolCache_).atSCV scvId = c) :
    localRate (TwoPTwoCBoxJacobian dim) self result scvId usePrevSol PwIndex
      + localRate (TwoPTwoCBoxJacobian dim) self result scvId usePrevSol SwitchIndex
      = self.problem_.porosity self.curCell_ scvId *
          (c.density WPhaseIndex * c.satW + c.density NPhaseIndex * c.satN) ∧
    (phaseState = WPhaseOnly →
      localRate (TwoPTwoCBoxJacobian dim) self result scvId usePrevSol PwIndex
        + localRate (TwoPTwoCBoxJacobian dim) self result scvId usePrevSol SwitchIndex
        = self.problem_.porosity self.curCell_ scvId * c.density WPhaseIndex) ∧
    (phaseState = NPhaseOnly →
      localRate (TwoPTwoCBoxJacobian dim) self result scvId usePrevSol PwIndex
        + localRate (TwoPTwoCBoxJacobian dim) self result scvId usePrevSol SwitchIndex
        = self.problem_.porosity self.curCell_ scvId * c.density NPhaseIndex) := by
  obtain ⟨hW, hN, -, hw, hn⟩ := updateVarNodeData_closures d nodeSol phaseState cell localIdx
    problem temperature c hc
  have hsum := localRate_isothermal_sum self result scvId usePrevSol c hcache
  rw [hW, hN] at hsum
  refine ⟨by rw [hsum]; ring, ?_, ?_⟩
  · intro h
    rw [hsum, (hw h).1, (hw h).2]
    ring
  · intro h
    rw [hsum, (hn h).1, (hn h).2]
    ring

/-- The harmonic mean of two positive numbers lies between them. -/
theorem harmonic_between (a b : Scalar) (ha : 0 < a) (hb : 0 < b) :
    min a b ≤ 2 / (1 / a + 1 / b) ∧ 2 / (1 / a + 1 / b) ≤ max a b := by
  have hsum : 0 < a + b := add_pos ha hb
  have h : 2 / (1 / a + 1 / b) = 2 * a * b / (a + b) := by
    field_simp
    ring
  rw [h]
  constructor
  · rw [le_div_iff₀ hsum]
    rcases le_total a b with hab | hab
    · rw [min_eq_left hab]
      nlinarith
    · rw [min_eq_right hab]
      nlinarith
  · rw [div_le_iff₀ hsum]
    rcases le_total a b with hab | hab
    · rw [max_eq_right hab]
      nlinarith
    · rw [max_eq_left hab]
      nlinarith

/-- In exact arithmetic, for entries `Ki[r][c] >= 0` and `Kj[r][c] >= 0` no
denominator of `harmonicMeanK_` is zero, and the resulting entry lies between
the minimum of the two entries and their maximum plus `eps = 1e-20`. In the
arithmetic of `double` the bounds hold only up to rounding. -/
theorem harmonicMeanK_bounds {dim : Nat} (Ki Kj : Tensor dim) (r c : Fin dim)
    (hi : 0 ≤ Ki r c) (hj : 0 ≤ Kj r c) :
    Ki r c + 1e-20 ≠ 0 ∧ Kj r c + 1e-20 ≠ 0 ∧
    1 / (Ki r c + 1e-20) + 1 / (Kj r c + 1e-20) ≠ 0 ∧
    min (Ki r c) (Kj r c) ≤ harmonicMeanK_ Ki Kj r c ∧
    harmonicMeanK_ Ki Kj r c ≤ max (Ki r c) (Kj r c) + 1e-20 := by
  have he : (0 : Scalar) < 1e-20 := by norm_num
  have ha : 0 < Ki r c + 1e-20 := by linarith
  have hb : 0 < Kj r c + 1e-20 := by linarith
  have hrec : 0 < 1 / (Ki r c + 1e-20) + 1 / (Kj r c + 1e-20) :=
    add_pos (one_div_pos.mpr ha) (one_div_pos.mpr hb)
  refine ⟨ha.ne', hb.ne', hrec.ne', ?_, ?_⟩
  · rw [harmonicMeanK_apply]
    split_ifs with hne
    · obtain ⟨h1, -⟩ := harmonic_between _ _ ha hb
      have : min (Ki r c) (Kj r c) ≤ min (Ki r c + 1e-20) (Kj r c + 1e-20) :=
        min_le_min (by linarith) (by linarith)
      exact le_trans this h1
    · exact min_le_left _ _
  · rw [harmonicMeanK_apply]
    split_ifs with hne
    · obtain ⟨-, h2⟩ := harmonic_between _ _ ha hb
      have : max (Ki r c + 1e-20) (Kj r c + 1e-20) = max (Ki r c) (Kj r c) + 1e-20 :=
        max_add_add_right _ _ _
      rw [this] at h2
      exact h2
    · have := le_max_left (Ki r c) (Kj r c)
      linarith

/-- In exact arithmetic, without a driving force both Darcy fluxes of a face
vanish. -/
theorem fluxRateDarcy_no_force {dim : Nat} (impl : Implementation dim)
    (self : TwoPTwoCBoxJacobianBase dim) (faceId : Nat) (pW0 pN0 : Scalar)
    (hgrad : ∀ d, ∑ k in Finset.range self.curCellGeom_.nNodes,
      (self.curCellGeom_.subContVolFace faceId).grad k d = 0)
    (hgrav : ∀ d, self.problem_.gravity d = 0)
    (hp : ∀ k, k < self.curCellGeom_.nNodes →
      (self.curSolCache_.atSCV k).pW = pW0 ∧ (self.curSolCache_.atSCV k).pN = pN0)
    (phase : Fin NumPhases) :
    fluxRateDarcy impl self faceId phase = 0 := by
  rw [fluxRateDarcy_eq]
  have hzero : (fun d =>
      (∑ k in Finset.range self.curCellGeom_.nNodes,
        (self.curCellGeom_.subContVolFace faceId).grad k d *
          (if phase = WPhaseIndex then (self.curSolCache_.atSCV k).pW
           else (self.curSolCache_.atSCV k).pN))
      - self.problem_.gravity d *
        (self.curSolCache_.atSCV (self.curCellGeom_.subContVolFace faceId).i).density phase)
      = fun _ => (0 : Scalar) := by
    funext d
    have hsum : (∑ k in Finset.range self.curCellGeom_.nNodes,
        (self.curCellGeom_.subContVolFace faceId).grad k d *
          (if phase = WPhaseIndex then (self.curSolCache_.atSCV k).pW
           else (self.curSolCache_.atSCV k).pN))
        = (∑ k in Finset.range self.curCellGeom_.nNodes,
            (self.curCellGeom_.subContVolFace faceId).grad k d) *
          (if phase = WPhaseIndex then pW0 else pN0) := by
      rw [Finset.sum_mul]
      apply Finset.sum_congr rfl
      intro k hk
      rw [Finset.mem_range] at hk
      rw [(hp k hk).1, (hp k hk).2]
    rw [hsum, hgrad d, hgrav d]
    ring
  rw [hzero]
  simp [Coord.dot, Tensor.mv]

/-- In exact arithmetic, at a face whose gradient weights add up to the zero
vector over the nodes of the cell, with zero gravity and the same cached `pW`
and the same cached `pN` at all nodes of the cell, both Darcy fluxes are 0 and
the isothermal flux is zero in both equations. In the arithmetic of `double`
the accumulated gradient need not vanish. -/
theorem fluxRate_no_force {dim : Nat} (self : TwoPTwoCBoxJacobianBase dim)
    (flux : UnknownsVector) (faceId : Nat) (pW0 pN0 : Scalar)
    (hgrad : ∀ d, ∑ k in Finset.range self.curCellGeom_.nNodes,
      (self.curCellGeom_.subContVolFace faceId).grad k d = 0)
    (hgrav : ∀ d, self.problem_.gravity d = 0)
    (hp : ∀ k, k < self.curCellGeom_.nNodes →
      (self.curSolCache_.atSCV k).pW = pW0 ∧ (self.curSolCache_.atSCV k).pN = pN0) :
    fluxRateDarcy (TwoPTwoCBoxJacobian dim) self faceId WPhaseIndex = 0 ∧
    fluxRateDarcy (TwoPTwoCBoxJacobian dim) self faceId NPhaseIndex = 0 ∧
    fluxRate (TwoPTwoCBoxJacobian dim) self flux faceId = fun _ => 0 := by
  have hv := fluxRateDarcy_no_force (TwoPTwoCBoxJacobian dim) self faceId pW0 pN0 hgrad hgrav hp
  refine ⟨hv _, hv _, ?_⟩
  have h := fluxRate_isothermal_apply self flux faceId
  simp only [hv, zero_mul, add_zero] at h
  funext idx
  fin_cases idx
  · exact h.1
  · exact h.2

/-- Claim C36: a node that `primaryVarSwitch_` has just moved from
`NPhaseOnly` or `WPhaseOnly` to `BothPhases` is left as it is by a second
call with the resulting object and solution: no transition, the value false,
the same object and the same solution. -/
theorem primaryVarSwitch_appearance_stable {dim : Nat} (impl : Implementation dim)
    (self : TwoPTwoCBoxJacobianBase dim) (sol : SpatialFunction) (k : Nat)
    (pos pos2 : Coord dim)
    (ht : (self.staticNodeDat_ k).phaseState = NPhaseOnly ∨
      (self.staticNodeDat_ k).phaseState = WPhaseOnly)
    (hsw : ((primaryVarSwitch_ impl self sol k pos).1.staticNodeDat_ k).phaseState
      = BothPhases) :
    ((primaryVarSwitch_ impl self sol k pos).2.1 k SwitchIndex = 1 - 2e-5 ∨
      (primaryVarSwitch_ impl self sol k pos).2.1 k SwitchIndex = 2e-5) ∧
    primaryVarSwitch_ impl (primaryVarSwitch_ impl self sol k pos).1
        (primaryVarSwitch_ impl self sol k pos).2.1 k pos2
      = ((primaryVarSwitch_ impl self sol k pos).1, (primaryVarSwitch_ impl self sol k pos).2.1,
          false) := by
  have hval : (primaryVarSwitch_ impl self sol k pos).2.1 k SwitchIndex = 1 - 2e-5 ∨
      (primaryVarSwitch_ impl self sol k pos).2.1 k SwitchIndex = 2e-5 := by
    rcases ht with ht | ht
    · left
      by_cases hx : sol k SwitchIndex >
          self.problem_.multicomp.xWN (sol k PwIndex + self.problem_.pC 0 k pos)
            (impl.temperature_ (sol k)) * (1 + 2e-5)
      · rw [((primaryVarSwitch_NPhaseOnly impl self sol k pos ht).1 hx).2.1]
        simp
      · rw [(primaryVarSwitch_NPhaseOnly impl self sol k pos ht).2 hx] at hsw
        simp only [] at hsw
        rw [ht] at hsw
        exact absurd hsw (by decide)
    · right
      by_cases hx : sol k SwitchIndex >
          self.problem_.multicomp.xAW (sol k PwIndex + self.problem_.pC 1 k pos)
            (impl.temperature_ (sol k)) * (1 + 2e-5)
      · rw [((primaryVarSwitch_WPhaseOnly impl self sol k pos ht).1 hx).2.1]
        simp
      · rw [(primaryVarSwitch_WPhaseOnly impl self sol k pos ht).2 hx] at hsw
        simp only [] at hsw
        rw [ht] at hsw
        exact absurd hsw (by decide)
  refine ⟨hval, ?_⟩
  apply (primaryVarSwitch_BothPhases impl _ _ k pos2 hsw).2.2
  · rcases hval with h | h <;> rw [h] <;> norm_num
  · rcases hval with h | h <;> rw [h] <;> norm_num

/-- The stability of C36 at the node 0 of `switchJacobian`, which the switch
moves from `NPhaseOnly` to `BothPhases` for the solution `switchSol`. -/
theorem primaryVarSwitch_appearance_stable_witness :
    (switchJacobian.staticNodeDat_ 0).phaseState = NPhaseOnly ∧
    ((primaryVarSwitch_ (TwoPTwoCBoxJacobian 1) switchJacobian switchSol 0
      (fun _ => 0)).1.staticNodeDat_ 0).phaseState = BothPhases ∧
    primaryVarSwitch_ (TwoPTwoCBoxJacobian 1)
        (primaryVarSwitch_ (TwoPTwoCBoxJacobian 1) switchJacobian switchSol 0 (fun _ => 0)).1
        (primaryVarSwitch_ (TwoPTwoCBoxJacobian 1) switchJacobian switchSol 0 (fun _ => 0)).2.1
        0 (fun _ => 0)
      = ((primaryVarSwitch_ (TwoPTwoCBoxJacobian 1) switchJacobian switchSol 0 (fun _ => 0)).1,
         (primaryVarSwitch_ (TwoPTwoCBoxJacobian 1) switchJacobian switchSol 0 (fun _ => 0)).2.1,
         false) := by
  have hsw : ((primaryVarSwitch_ (TwoPTwoCBoxJacobian 1) switchJacobian switchSol 0
      (fun _ => 0)).1.staticNodeDat_ 0).phaseState = BothPhases := by
    apply ((primaryVarSwitch_NPhaseOnly (TwoPTwoCBoxJacobian 1) switchJacobian switchSol 0
      (fun _ => 0) rfl).1 _).1
    simp [switchSol, switchJacobian, sampleJacobian, linearPcProblem]
    norm_num
  exact ⟨rfl, hsw, (primaryVarSwitch_appearance_stable (TwoPTwoCBoxJacobian 1) switchJacobian
    switchSol 0 (fun _ => 0) (fun _ => 0) (Or.inl rfl) hsw).2⟩


/-! ## The cache rebuild, `setParams` -/

/-- The variable switch leaves a valid phase state valid. -/
theorem primaryVarSwitch_valid {dim : Nat} (impl : Implementation dim)
    (self : TwoPTwoCBoxJacobianBase dim) (sol : SpatialFunction) (k : Nat) (pos : Coord dim)
    (h : (self.staticNodeDat_ k).phaseState = NPhaseOnly ∨
      (self.staticNodeDat_ k).phaseState = WPhaseOnly ∨
      (self.staticNodeDat_ k).phaseState = BothPhases) :
    ((primaryVarSwitch_ impl self sol k pos).1.staticNodeDat_ k).phaseState = NPhaseOnly ∨
    ((primaryVarSwitch_ impl self sol k pos).1.staticNodeDat_ k).phaseState = WPhaseOnly ∨
    ((primaryVarSwitch_ impl self sol k pos).1.staticNodeDat_ k).phaseState = BothPhases := by
  rcases h with h | h | h <;> simp only [primaryVarSwitch_, h] <;> split_ifs <;> simp

/-- The variable switch that keeps the phase state of its node keeps the
solution. -/
theorem primaryVarSwitch_sol_of_same {dim : Nat} (impl : Implementation dim)
    (self : TwoPTwoCBoxJacobianBase dim) (sol : SpatialFunction) (k : Nat) (pos : Coord dim)
    (h : ((primaryVarSwitch_ impl self sol k pos).1.staticNodeDat_ k).phaseState
      = (self.staticNodeDat_ k).phaseState) :
    (primaryVarSwitch_ impl self sol k pos).2.1 = sol := by
  simp only [primaryVarSwitch_] at h ⊢
  split_ifs at h ⊢ <;> simp_all

/-- The loop of `updateCellCache_` over the first `n` nodes of the cell, when
the phase states it reads are valid: it returns, the entry of each of these
nodes is the variable update of the entry before the loop, and the other
entries are left as they are. -/
theorem updateCellCacheStep_fold {dim : Nat} (impl : Implementation dim)
    (self : TwoPTwoCBoxJacobianBase dim) (sol : LocalFunction) (isOldSol : Bool) (n : Nat)
    (tag : Nat → Int)
    (htag : ∀ i, tag i =
      if isOldSol then (self.staticNodeDat_ (self.problem_.nodeIndex self.curCell_ i)).oldPhaseState
      else (self.staticNodeDat_ (self.problem_.nodeIndex self.curCell_ i)).phaseState)
    (hvalid : ∀ i, i < n → tag i = NPhaseOnly ∨ tag i = WPhaseOnly ∨ tag i = BothPhases)
    (dest : CellCache) :
    ∃ dest', (List.range n).foldlM (updateCellCacheStep impl self sol isOldSol) dest
        = Except.ok dest' ∧
      (∀ i, i < n → updateVarNodeData_ (dest.atSCV i) (sol i) (tag i) self.curCell_ i
          self.problem_ (impl.temperature_ (sol i)) = Except.ok (dest'.atSCV i)) ∧
      (∀ i, ¬ i < n → dest'.atSCV i = dest.atSCV i) := by
  induction n with
  | zero =>
    refine ⟨dest, rfl, ?_, fun _ _ => rfl⟩
    intro i hi
    exact absurd hi (Nat.not_lt_zero i)
  | succ n ih =>
    obtain ⟨dest1, h1, h2, h3⟩ := ih (fun i hi => hvalid i (Nat.lt_succ_of_lt hi))
    obtain ⟨d, hd, -⟩ := updateVarNodeData_ok_of_valid (dest1.atSCV n) (sol n) (tag n)
      self.curCell_ n self.problem_ (impl.temperature_ (sol n)) (hvalid n (Nat.lt_succ_self n))
    have hstep : updateCellCacheStep impl self sol isOldSol dest1 n
        = Except.ok { atSCV := Function.update dest1.atSCV n d } := by
      simp only [updateCellCacheStep]
      rw [← htag n, hd]
      rfl
    refine ⟨{ atSCV := Function.update dest1.atSCV n d }, ?_, ?_, ?_⟩
    · rw [List.range_succ, List.foldlM_append, h1]
      simp only [List.foldlM_cons, List.foldlM_nil]
      show (updateCellCacheStep impl self sol isOldSol dest1 n >>= pure) = _
      rw [hstep]
      rfl
    · intro i hi
      by_cases hin : i = n
      · subst hin
        simp only [Function.update_same]
        rw [← h3 i (Nat.lt_irrefl i)]
        exact hd
      · simp only [Function.update_noteq hin]
        exact h2 i (by omega)
    · intro i hi
      have hin : i ≠ n := by omega
      simp only [Function.update_noteq hin]
      exact h3 i (by omega)

/-- What `setParams` returns when the current and the old phase states of the
nodes of the cell are valid. -/
theorem setParams_spec {dim : Nat} (impl : Implementation dim)
    (fvGeometry : Cell dim → FVElementGeometry dim) (self : TwoPTwoCBoxJacobianBase dim)
    (cell : Cell dim) (curSol prevSol : LocalFunction)
    (hcur : ∀ i, i < cell.count →
      (self.staticNodeDat_ (self.problem_.nodeIndex cell i)).phaseState = NPhaseOnly ∨
      (self.staticNodeDat_ (self.problem_.nodeIndex cell i)).phaseState = WPhaseOnly ∨
      (self.staticNodeDat_ (self.problem_.nodeIndex cell i)).phaseState = BothPhases)
    (hold : ∀ i, i < cell.count →
      (self.staticNodeDat_ (self.problem_.nodeIndex cell i)).oldPhaseState = NPhaseOnly ∨
      (self.staticNodeDat_ (self.problem_.nodeIndex cell i)).oldPhaseState = WPhaseOnly ∨
      (self.staticNodeDat_ (self.problem_.nodeIndex cell i)).oldPhaseState = BothPhases) :
    ∃ c p, setParams impl fvGeometry self cell curSol prevSol = Except.ok
        { self with
          curCell_ := cell
          curCellGeom_ := fvGeometry cell
          curSol_ := curSol
          curSolCache_ := c
          curSolDeflected_ := false
          prevSol_ := prevSol
          prevSolCache_ := p } ∧
      (∀ i, i < cell.count →
        updateVarNodeData_ (self.curSolCache_.atSCV i) (curSol i)
          (self.staticNodeDat_ (self.problem_.nodeIndex cell i)).phaseState cell i
          self.problem_ (impl.temperature_ (curSol i)) = Except.ok (c.atSCV i)) ∧
      (∀ i, ¬ i < cell.count → c.atSCV i = self.curSolCache_.atSCV i) ∧
      (∀ i, i < cell.count →
        updateVarNodeData_ (self.prevSolCache_.atSCV i) (prevSol i)
          (self.staticNodeDat_ (self.problem_.nodeIndex cell i)).oldPhaseState cell i
          self.problem_ (impl.temperature_ (prevSol i)) = Except.ok (p.atSCV i)) ∧
      (∀ i, ¬ i < cell.count → p.atSCV i = self.prevSolCache_.atSCV i) := by
  obtain ⟨c, hc1, hc2, hc3⟩ := updateCellCacheStep_fold impl
    { self with curCell_ := cell, curCellGeom_ := fvGeometry cell, curSol_ := curSol }
    curSol false cell.count
    (fun i => (self.staticNodeDat_ (self.problem_.nodeIndex cell i)).phaseState)
    (fun _ => by simp) hcur self.curSolCache_
  obtain ⟨p, hp1, hp2, hp3⟩ := updateCellCacheStep_fold impl
    { self with curCell_ := cell, curCellGeom_ := fvGeometry cell, curSol_ := curSol,
                curSolCache_ := c, curSolDeflected_ := false, prevSol_ := prevSol }
    prevSol true cell.count
    (fun i => (self.staticNodeDat_ (self.problem_.nodeIndex cell i)).oldPhaseState)
    (fun _ => by simp) hold self.prevSolCache_
  refine ⟨c, p, ?_, hc2, hc3, hp2, hp3⟩
  simp only [setParams, setCurrentCell, updateCellCache_]
  rw [hc1]
  simp only [Except.bind, bind, pure, Except.pure] at hp1 ⊢
  rw [hp1]


/-- Claim C33: when the current and the previous accepted phase states of the
nodes of the cell are valid, `setParams cell curSol prevSol` returns, and for
every node `i` of the cell the entry of the current-solution cache is
`updateVarNodeData_` of `curSol i` with the current phase state of the node,
the entry of the previous-solution cache is `updateVarNodeData_` of
`prevSol i` with the previous accepted phase state of the node (whatever entry
the update starts from), and the deflection flag is cleared; the cell and the
two solutions are stored and the phase states stay as they are. -/
theorem setParams_rebuilds_caches {dim : Nat} (impl : Implementation dim)
    (fvGeometry : Cell dim → FVElementGeometry dim) (self : TwoPTwoCBoxJacobianBase dim)
    (cell : Cell dim) (curSol prevSol : LocalFunction) (d0 : VariableNodeData)
    (hcur : ∀ i, i < cell.count →
      (self.staticNodeDat_ (self.problem_.nodeIndex cell i)).phaseState = NPhaseOnly ∨
      (self.staticNodeDat_ (self.problem_.nodeIndex cell i)).phaseState = WPhaseOnly ∨
      (self.staticNodeDat_ (self.problem_.nodeIndex cell i)).phaseState = BothPhases)
    (hold : ∀ i, i < cell.count →
      (self.staticNodeDat_ (self.problem_.nodeIndex cell i)).oldPhaseState = NPhaseOnly ∨
      (self.staticNodeDat_ (self.problem_.nodeIndex cell i)).oldPhaseState = WPhaseOnly ∨
      (self.staticNodeDat_ (self.problem_.nodeIndex cell i)).oldPhaseState = BothPhases) :
    ∃ s, setParams impl fvGeometry self cell curSol prevSol = Except.ok s ∧
      (∀ i, i < cell.count →
        updateVarNodeData_ d0 (curSol i)
          (self.staticNodeDat_ (self.problem_.nodeIndex cell i)).phaseState cell i
          self.problem_ (impl.temperature_ (curSol i)) = Except.ok (s.curSolCache_.atSCV i) ∧
        updateVarNodeData_ d0 (prevSol i)
          (self.staticNodeDat_ (self.problem_.nodeIndex cell i)).oldPhaseState cell i
          self.problem_ (impl.temperature_ (prevSol i)) = Except.ok (s.prevSolCache_.atSCV i)) ∧
      s.curSolDeflected_ = false ∧
      s.curCell_ = cell ∧ s.curSol_ = curSol ∧ s.prevSol_ = prevSol ∧
      s.staticNodeDat_ = self.staticNodeDat_ := by
  obtain ⟨c, p, hs, hc, -, hp, -⟩ :=
    setParams_spec impl fvGeometry self cell curSol prevSol hcur hold
  refine ⟨_, hs, ?_, rfl, rfl, rfl, rfl, rfl⟩
  intro i hi
  constructor
  · rw [updateVarNodeData_indep d0 (self.curSolCache_.atSCV i)]
    exact hc i hi
  · rw [updateVarNodeData_indep d0 (self.prevSolCache_.atSCV i)]
    exact hp i hi

/-- The cache rebuild of C33 for the cell `lineCell` and the switch Jacobian,
whose node 0 is in the state `NPhaseOnly` and whose node 1 is in the state
`WPhaseOnly`. -/
theorem setParams_rebuilds_caches_witness :
    ∃ s, setParams (TwoPTwoCBoxJacobian 1) (fun _ => lineCellGeom) switchJacobian lineCell
        switchSol (fun _ => sampleNodeSol) = Except.ok s ∧
      (∀ i, i < lineCell.count →
        updateVarNodeData_ zeroVarNodeData (switchSol i)
          (switchJacobian.staticNodeDat_
            (switchJacobian.problem_.nodeIndex lineCell i)).phaseState lineCell i
          switchJacobian.problem_ ((TwoPTwoCBoxJacobian 1).temperature_ (switchSol i))
          = Except.ok (s.curSolCache_.atSCV i) ∧
        updateVarNodeData_ zeroVarNodeData ((fun _ => sampleNodeSol) i)
          (switchJacobian.staticNodeDat_
            (switchJacobian.problem_.nodeIndex lineCell i)).oldPhaseState lineCell i
          switchJacobian.problem_
          ((TwoPTwoCBoxJacobian 1).temperature_ ((fun _ => sampleNodeSol) i))
          = Except.ok (s.prevSolCache_.atSCV i)) ∧
      s.curSolDeflected_ = false ∧
      s.curCell_ = lineCell ∧ s.curSol_ = switchSol ∧ s.prevSol_ = (fun _ => sampleNodeSol) ∧
      s.staticNodeDat_ = switchJacobian.staticNodeDat_ :=
  setParams_rebuilds_caches (TwoPTwoCBoxJacobian 1) (fun _ => lineCellGeom) switchJacobian
    lineCell switchSol (fun _ => sampleNodeSol) zeroVarNodeData
    (by
      intro i _
      simp only [switchJacobian]
      split_ifs <;> simp)
    (by
      intro i _
      simp only [switchJacobian]
      split_ifs <;> simp)


/-! ## The ownership of the phase states -/

/-- A bind in `Except` that returns: both parts return. -/
theorem except_bind_eq_ok {ε α β : Type} (x : Except ε α) (f : α → Except ε β) (b : β)
    (h : x >>= f = Except.ok b) : ∃ a, x = Except.ok a ∧ f a = Except.ok b := by
  cases x with
  | error e => cases h
  | ok a => exact ⟨a, rfl, h⟩

/-- The variable switch at the node `k` keeps the old phase states of all
nodes and all data of the other nodes. -/
theorem primaryVarSwitch_frame {dim : Nat} (impl : Implementation dim)
    (self : TwoPTwoCBoxJacobianBase dim) (sol : SpatialFunction) (k : Nat) (pos : Coord dim)
    (j : Nat) :
    ((primaryVarSwitch_ impl self sol k pos).1.staticNodeDat_ j).oldPhaseState
      = (self.staticNodeDat_ j).oldPhaseState ∧
    (j ≠ k → (primaryVarSwitch_ impl self sol k pos).1.staticNodeDat_ j
      = self.staticNodeDat_ j) := by
  rw [primaryVarSwitch_state]
  constructor
  · by_cases hj : j = k
    · subst hj
      simp
    · simp [Function.update_noteq hj]
  · intro hj
    simp [Function.update_noteq hj]

/-- What `setParams` keeps whenever it returns. -/
theorem setParams_keeps {dim : Nat} (impl : Implementation dim)
    (fvGeometry : Cell dim → FVElementGeometry dim) (self : TwoPTwoCBoxJacobianBase dim)
    (cell : Cell dim) (curSol prevSol : LocalFunction) (s : TwoPTwoCBoxJacobianBase dim)
    (h : setParams impl fvGeometry self cell curSol prevSol = Except.ok s) :
    s.staticNodeDat_ = self.staticNodeDat_ ∧ s.switchFlag_ = self.switchFlag_ ∧
    s.problem_ = self.problem_ := by
  simp only [setParams, setCurrentCell] at h
  obtain ⟨c, -, h⟩ := except_bind_eq_ok _ _ _ h
  obtain ⟨p, -, h⟩ := except_bind_eq_ok _ _ _ h
  have hs := Except.ok.inj h
  subst hs
  exact ⟨rfl, rfl, rfl⟩

/-- What `deflectCurSolution` keeps whenever it returns. -/
theorem deflectCurSolution_keeps {dim : Nat} (impl : Implementation dim)
    (self : TwoPTwoCBoxJacobianBase dim) (node : Nat) (component : Fin PrimaryVars)
    (value : Scalar) (s : TwoPTwoCBoxJacobianBase dim)
    (h : deflectCurSolution impl self node component value = Except.ok s) :
    s.staticNodeDat_ = self.staticNodeDat_ ∧ s.switchFlag_ = self.switchFlag_ ∧
    s.problem_ = self.problem_ := by
  simp only [deflectCurSolution] at h
  obtain ⟨d, -, h⟩ := except_bind_eq_ok _ _ _ h
  have hs := Except.ok.inj h
  subst hs
  cases self.curSolDeflected_ <;> exact ⟨rfl, rfl, rfl⟩

/-- Claim C32: the switch pass (`updateStaticData`, and `primaryVarSwitch_` at
a single node) changes no old phase state, no pressure unknown and no unknown
of a node whose phase state it did not change; `updateOldPhaseState` changes
no current phase state; `resetPhaseState` changes no old phase state;
`setParams` and `deflectCurSolution`, whenever they return, and
`restoreCurSolution` change neither the current nor the old phase states. -/
theorem phaseState_ownership {dim : Nat} (impl : Implementation dim)
    (fvGeometry : Cell dim → FVElementGeometry dim) (self : TwoPTwoCBoxJacobianBase dim)
    (curSol oldSol : SpatialFunction) (cell : Cell dim) (localCur localPrev : LocalFunction)
    (node : Nat) (component : Fin PrimaryVars) (value : Scalar) :
    (∀ k, ((updateStaticData impl self curSol oldSol).1.staticNodeDat_ k).oldPhaseState
        = (self.staticNodeDat_ k).oldPhaseState ∧
      (updateStaticData impl self curSol oldSol).2 k PwIndex = curSol k PwIndex ∧
      (((updateStaticData impl self curSol oldSol).1.staticNodeDat_ k).phaseState
          = (self.staticNodeDat_ k).phaseState →
        (updateStaticData impl self curSol oldSol).2 k = curSol k)) ∧
    (∀ (k : Nat) (pos : Coord dim) (j : Nat),
      ((primaryVarSwitch_ impl self curSol k pos).1.staticNodeDat_ j).oldPhaseState
        = (self.staticNodeDat_ j).oldPhaseState ∧
      (primaryVarSwitch_ impl self curSol k pos).2.1 j PwIndex = curSol j PwIndex ∧
      (((primaryVarSwitch_ impl self curSol k pos).1.staticNodeDat_ j).phaseState
          = (self.staticNodeDat_ j).phaseState →
        (primaryVarSwitch_ impl self curSol k pos).2.1 j = curSol j)) ∧
    (∀ k, ((updateOldPhaseState self).staticNodeDat_ k).phaseState
      = (self.staticNodeDat_ k).phaseState) ∧
    (∀ k, ((resetPhaseState self).staticNodeDat_ k).oldPhaseState
      = (self.staticNodeDat_ k).oldPhaseState) ∧
    (∀ s, setParams impl fvGeometry self cell localCur localPrev = Except.ok s →
      s.staticNodeDat_ = self.staticNodeDat_) ∧
    (∀ s, deflectCurSolution impl self node component value = Except.ok s →
      s.staticNodeDat_ = self.staticNodeDat_) ∧
    ((∀ i, i < cell.count →
        ((self.staticNodeDat_ (self.problem_.nodeIndex cell i)).phaseState = NPhaseOnly ∨
         (self.staticNodeDat_ (self.problem_.nodeIndex cell i)).phaseState = WPhaseOnly ∨
         (self.staticNodeDat_ (self.problem_.nodeIndex cell i)).phaseState = BothPhases) ∧
        ((self.staticNodeDat_ (self.problem_.nodeIndex cell i)).oldPhaseState = NPhaseOnly ∨
         (self.staticNodeDat_ (self.problem_.nodeIndex cell i)).oldPhaseState = WPhaseOnly ∨
         (self.staticNodeDat_ (self.problem_.nodeIndex cell i)).oldPhaseState = BothPhases)) →
      ∃ s, setParams impl fvGeometry self cell localCur localPrev = Except.ok s ∧
        s.staticNodeDat_ = self.staticNodeDat_) ∧
    (((self.staticNodeDat_ (self.problem_.nodeIndex self.curCell_ node)).phaseState = NPhaseOnly ∨
      (self.staticNodeDat_ (self.problem_.nodeIndex self.curCell_ node)).phaseState = WPhaseOnly ∨
      (self.staticNodeDat_ (self.problem_.nodeIndex self.curCell_ node)).phaseState
        = BothPhases) →
      ∃ s, deflectCurSolution impl self node component value = Except.ok s ∧
        s.staticNodeDat_ = self.staticNodeDat_) ∧
    (restoreCurSolution self node component).staticNodeDat_ = self.staticNodeDat_ := by
  have hpvs : ∀ (k : Nat) (pos : Coord dim) (j : Nat),
      ((primaryVarSwitch_ impl self curSol k pos).1.staticNodeDat_ j).oldPhaseState
        = (self.staticNodeDat_ j).oldPhaseState ∧
      (primaryVarSwitch_ impl self curSol k pos).2.1 j PwIndex = curSol j PwIndex ∧
      (((primaryVarSwitch_ impl self curSol k pos).1.staticNodeDat_ j).phaseState
          = (self.staticNodeDat_ j).phaseState →
        (primaryVarSwitch_ impl self curSol k pos).2.1 j = curSol j) := by
    intro k pos j
    obtain ⟨hsol1, hsol2⟩ := primaryVarSwitch_sol impl self curSol k pos
    refine ⟨(primaryVarSwitch_frame impl self curSol k pos j).1, ?_, ?_⟩
    · by_cases hj : j = k
      · subst hj
        exact hsol2
      · rw [hsol1 j hj]
    · intro h
      by_cases hj : j = k
      · subst hj
        rw [primaryVarSwitch_sol_of_same impl self curSol j pos h]
      · exact hsol1 j hj
  refine ⟨?_, hpvs, ?_, ?_, ?_, ?_, ?_, ?_, rfl⟩
  · intro k
    obtain ⟨-, h2, h3, h4, -⟩ := updateStaticDataStep_fold impl
      (List.range self.problem_.numNodes) (List.nodup_range _) self curSol false
    simp only [updateStaticData, setSwitched]
    refine ⟨h2 k, ?_, ?_⟩
    · by_cases hk : k < self.problem_.numNodes
      · rw [(h4 k (List.mem_range.mpr hk)).2]
        exact (hpvs k _ k).2.1
      · rw [(h3 k (fun h => hk (List.mem_range.mp h))).2]
    · intro h
      by_cases hk : k < self.problem_.numNodes
      · rw [(h4 k (List.mem_range.mpr hk)).1] at h
        rw [(h4 k (List.mem_range.mpr hk)).2]
        exact (hpvs k _ k).2.2 h
      · exact (h3 k (fun h => hk (List.mem_range.mp h))).2
  · intro k
    simp only [updateOldPhaseState]
    rw [updateOldPhaseStateStep_fold]
    by_cases hk : k < self.problem_.numNodes <;> simp [hk]
  · intro k
    simp only [resetPhaseState]
    rw [resetPhaseStateStep_fold]
    by_cases hk : k < self.problem_.numNodes <;> simp [hk]
  · intro s h
    exact (setParams_keeps impl fvGeometry self cell localCur localPrev s h).1
  · intro s h
    exact (deflectCurSolution_keeps impl self node component value s h).1
  · intro hv
    obtain ⟨c, p, hs, -⟩ := setParams_spec impl fvGeometry self cell localCur localPrev
      (fun i hi => (hv i hi).1) (fun i hi => (hv i hi).2)
    exact ⟨_, hs, rfl⟩
  · intro hv
    obtain ⟨s, -, hs, -, -, hst, -⟩ :=
      deflectCurSolution_fields impl self node component value hv
    exact ⟨s, hs, hst⟩

/-! ## The validity of the phase states -/

/-- A method that writes phase states keeps the problem, and keeps the current
and the old phase states of the nodes of the grid valid. -/
theorem PhaseStateOp_run_valid {dim : Nat} (impl : Implementation dim)
    (self : TwoPTwoCBoxJacobianBase dim) (op : PhaseStateOp)
    (h : ∀ k, k < self.problem_.numNodes →
      ((self.staticNodeDat_ k).phaseState = NPhaseOnly ∨
       (self.staticNodeDat_ k).phaseState = WPhaseOnly ∨
       (self.staticNodeDat_ k).phaseState = BothPhases) ∧
      ((self.staticNodeDat_ k).oldPhaseState = NPhaseOnly ∨
       (self.staticNodeDat_ k).oldPhaseState = WPhaseOnly ∨
       (self.staticNodeDat_ k).oldPhaseState = BothPhases)) :
    (PhaseStateOp.run impl self op).problem_ = self.problem_ ∧
    ∀ k, k < self.problem_.numNodes →
      (((PhaseStateOp.run impl self op).staticNodeDat_ k).phaseState = NPhaseOnly ∨
       ((PhaseStateOp.run impl self op).staticNodeDat_ k).phaseState = WPhaseOnly ∨
       ((PhaseStateOp.run impl self op).staticNodeDat_ k).phaseState = BothPhases) ∧
      (((PhaseStateOp.run impl self op).staticNodeDat_ k).oldPhaseState = NPhaseOnly ∨
       ((PhaseStateOp.run impl self op).staticNodeDat_ k).oldPhaseState = WPhaseOnly ∨
       ((PhaseStateOp.run impl self op).staticNodeDat_ k).oldPhaseState = BothPhases) := by
  cases op with
  | switchPass curSol oldSol =>
    simp only [PhaseStateOp.run]
    obtain ⟨⟨f, b, hs⟩, hold⟩ := updateStaticData_state impl self curSol oldSol
    obtain ⟨-, -, -, h4, -⟩ := updateStaticDataStep_fold impl
      (List.range self.problem_.numNodes) (List.nodup_range _) self curSol false
    refine ⟨by rw [hs], ?_⟩
    intro k hk
    constructor
    · have htag : ((updateStaticData impl self curSol oldSol).1.staticNodeDat_ k).phaseState
          = ((primaryVarSwitch_ impl self curSol k
              (self.problem_.nodePosition k)).1.staticNodeDat_ k).phaseState :=
        (h4 k (List.mem_range.mpr hk)).1
      rw [htag]
      exact primaryVarSwitch_valid impl self curSol k _ (h k hk).1
    · rw [hold k]
      exact (h k hk).2
  | commit =>
    simp only [PhaseStateOp.run, updateOldPhaseState]
    rw [updateOldPhaseStateStep_fold]
    refine ⟨rfl, ?_⟩
    intro k hk
    simp only [hk, if_true]
    exact ⟨(h k hk).1, (h k hk).1⟩
  | rollback =>
    simp only [PhaseStateOp.run, resetPhaseState]
    rw [resetPhaseStateStep_fold]
    refine ⟨rfl, ?_⟩
    intro k hk
    simp only [hk, if_true]
    exact ⟨(h k hk).2, (h k hk).2⟩

/-- A sequence of methods that write phase states keeps the problem, and keeps
the current and the old phase states of the nodes of the grid valid. -/
theorem PhaseStateOp_foldl_valid {dim : Nat} (impl : Implementation dim) :
    ∀ (ops : List PhaseStateOp) (self : TwoPTwoCBoxJacobianBase dim),
      (∀ k, k < self.problem_.numNodes →
        ((self.staticNodeDat_ k).phaseState = NPhaseOnly ∨
         (self.staticNodeDat_ k).phaseState = WPhaseOnly ∨
         (self.staticNodeDat_ k).phaseState = BothPhases) ∧
        ((self.staticNodeDat_ k).oldPhaseState = NPhaseOnly ∨
         (self.staticNodeDat_ k).oldPhaseState = WPhaseOnly ∨
         (self.staticNodeDat_ k).oldPhaseState = BothPhases)) →
      (ops.foldl (PhaseStateOp.run impl) self).problem_ = self.problem_ ∧
      ∀ k, k < self.problem_.numNodes →
        (((ops.foldl (PhaseStateOp.run impl) self).staticNodeDat_ k).phaseState = NPhaseOnly ∨
         ((ops.foldl (PhaseStateOp.run impl) self).staticNodeDat_ k).phaseState = WPhaseOnly ∨
         ((ops.foldl (PhaseStateOp.run impl) self).staticNodeDat_ k).phaseState = BothPhases) ∧
        (((ops.foldl (PhaseStateOp.run impl) self).staticNodeDat_ k).oldPhaseState = NPhaseOnly ∨
         ((ops.foldl (PhaseStateOp.run impl) self).staticNodeDat_ k).oldPhaseState = WPhaseOnly ∨
         ((ops.foldl (PhaseStateOp.run impl) self).staticNodeDat_ k).oldPhaseState
           = BothPhases) := by
  intro ops
  induction ops with
  | nil =>
    intro self h
    exact ⟨rfl, h⟩
  | cons op ops ih =>
    intro self h
    rw [List.foldl_cons]
    obtain ⟨hp, hv⟩ := PhaseStateOp_run_valid impl self op h
    obtain ⟨hp2, hv2⟩ := ih (PhaseStateOp.run impl self op) (by rw [hp]; exact hv)
    refine ⟨by rw [hp2, hp], ?_⟩
    intro k hk
    exact hv2 k (by rw [hp]; exact hk)

/-- Claim C35: if the current and the old phase state of every node of the
grid is one of `NPhaseOnly`, `WPhaseOnly` and `BothPhases`, then after any
sequence of switch passes, calls of `updateOldPhaseState` and calls of
`resetPhaseState` they still are, and `setParams` after the sequence returns,
without the invalid-phase-state exception of `updateVarNodeData_`, for every
cell whose nodes are nodes of the grid. -/
theorem phaseState_tags_stay_valid {dim : Nat} (impl : Implementation dim)
    (self : TwoPTwoCBoxJacobianBase dim) (ops : List PhaseStateOp)
    (hvalid : ∀ k, k < self.problem_.numNodes →
      ((self.staticNodeDat_ k).phaseState = NPhaseOnly ∨
       (self.staticNodeDat_ k).phaseState = WPhaseOnly ∨
       (self.staticNodeDat_ k).phaseState = BothPhases) ∧
      ((self.staticNodeDat_ k).oldPhaseState = NPhaseOnly ∨
       (self.staticNodeDat_ k).oldPhaseState = WPhaseOnly ∨
       (self.staticNodeDat_ k).oldPhaseState = BothPhases)) :
    (∀ k, k < self.problem_.numNodes →
      (((ops.foldl (PhaseStateOp.run impl) self).staticNodeDat_ k).phaseState = NPhaseOnly ∨
       ((ops.foldl (PhaseStateOp.run impl) self).staticNodeDat_ k).phaseState = WPhaseOnly ∨
       ((ops.foldl (PhaseStateOp.run impl) self).staticNodeDat_ k).phaseState = BothPhases) ∧
      (((ops.foldl (PhaseStateOp.run impl) self).staticNodeDat_ k).oldPhaseState = NPhaseOnly ∨
       ((ops.foldl (PhaseStateOp.run impl) self).staticNodeDat_ k).oldPhaseState = WPhaseOnly ∨
       ((ops.foldl (PhaseStateOp.run impl) self).staticNodeDat_ k).oldPhaseState
         = BothPhases)) ∧
    (∀ (fvGeometry : Cell dim → FVElementGeometry dim) (cell : Cell dim)
        (curSol prevSol : LocalFunction),
      (∀ i, i < cell.count → self.problem_.nodeIndex cell i < self.problem_.numNodes) →
      ∃ s, setParams impl fvGeometry (ops.foldl (PhaseStateOp.run impl) self) cell curSol
        prevSol = Except.ok s) := by
  obtain ⟨hp, hv⟩ := PhaseStateOp_foldl_valid impl ops self hvalid
  refine ⟨hv, ?_⟩
  intro fvGeometry cell curSol prevSol hcell
  obtain ⟨c, p, hs, -⟩ := setParams_spec impl fvGeometry
    (ops.foldl (PhaseStateOp.run impl) self) cell curSol prevSol
    (fun i hi => by rw [hp]; exact (hv _ (hcell i hi)).1)
    (fun i hi => by rw [hp]; exact (hv _ (hcell i hi)).2)
  exact ⟨_, hs⟩

/-- The invariant of C35 for the switch Jacobian and the sequence
`samplePhaseStateOps`: a switch pass, a commit, a second switch pass and a
rollback. -/
theorem phaseState_tags_stay_valid_witness :
    (∀ k, k < switchJacobian.problem_.numNodes →
      (((samplePhaseStateOps.foldl (PhaseStateOp.run (TwoPTwoCBoxJacobian 1))
          switchJacobian).staticNodeDat_ k).phaseState = NPhaseOnly ∨
       ((samplePhaseStateOps.foldl (PhaseStateOp.run (TwoPTwoCBoxJacobian 1))
          switchJacobian).staticNodeDat_ k).phaseState = WPhaseOnly ∨
       ((samplePhaseStateOps.foldl (PhaseStateOp.run (TwoPTwoCBoxJacobian 1))
          switchJacobian).staticNodeDat_ k).phaseState = BothPhases) ∧
      (((samplePhaseStateOps.foldl (PhaseStateOp.run (TwoPTwoCBoxJacobian 1))
          switchJacobian).staticNodeDat_ k).oldPhaseState = NPhaseOnly ∨
       ((samplePhaseStateOps.foldl (PhaseStateOp.run (TwoPTwoCBoxJacobian 1))
          switchJacobian).staticNodeDat_ k).oldPhaseState = WPhaseOnly ∨
       ((samplePhaseStateOps.foldl (PhaseStateOp.run (TwoPTwoCBoxJacobian 1))
          switchJacobian).staticNodeDat_ k).oldPhaseState = BothPhases)) ∧
    (∀ (fvGeometry : Cell 1 → FVElementGeometry 1) (cell : Cell 1)
        (curSol prevSol : LocalFunction),
      (∀ i, i < cell.count →
        switchJacobian.problem_.nodeIndex cell i < switchJacobian.problem_.numNodes) →
      ∃ s, setParams (TwoPTwoCBoxJacobian 1) fvGeometry
        (samplePhaseStateOps.foldl (PhaseStateOp.run (TwoPTwoCBoxJacobian 1))
          switchJacobian) cell curSol prevSol = Except.ok s) :=
  phaseState_tags_stay_valid (TwoPTwoCBoxJacobian 1) switchJacobian samplePhaseStateOps
    (by
      intro k _
      simp only [switchJacobian]
      split_ifs <;> simp)

/-! ## The recovery from a failed update -/

/-- The method `resetPhaseState` as one assignment. -/
theorem resetPhaseState_eq {dim : Nat} (self : TwoPTwoCBoxJacobianBase dim) :
    resetPhaseState self =
      { self with
        staticNodeDat_ := fun i =>
          if i < self.problem_.numNodes then
            { self.staticNodeDat_ i with phaseState := (self.staticNodeDat_ i).oldPhaseState }
          else self.staticNodeDat_ i } :=
  resetPhaseStateStep_fold self _

/-- The local Jacobian after `updateFailedTry`: the old phase states are kept,
the phase state of a node of the grid is the result of its variable switch
from the restored state with the current solution that the parent leaves, and
the flag is set iff the phase state of a node differs from its old one. -/
theorem updateFailedTry_spec {dim : Nat}
    (parentUpdateFailedTry : SpatialFunction × SpatialFunction →
      SpatialFunction × SpatialFunction)
    (self : TwoPTwoCBoxModel dim) :
    (TwoPTwoCBoxModel.updateFailedTry parentUpdateFailedTry self).twoPTwoCLocalJacobian_.problem_
      = self.twoPTwoCLocalJacobian_.problem_ ∧
    (∀ k, ((TwoPTwoCBoxModel.updateFailedTry parentUpdateFailedTry
        self).twoPTwoCLocalJacobian_.staticNodeDat_ k).oldPhaseState
      = (self.twoPTwoCLocalJacobian_.staticNodeDat_ k).oldPhaseState) ∧
    (∀ k, k < self.twoPTwoCLocalJacobian_.problem_.numNodes →
      ((TwoPTwoCBoxModel.updateFailedTry parentUpdateFailedTry
          self).twoPTwoCLocalJacobian_.staticNodeDat_ k).phaseState
        = ((primaryVarSwitch_ (TwoPTwoCBoxJacobian dim)
            (resetPhaseState (setSwitched self.twoPTwoCLocalJacobian_ false))
            (parentUpdateFailedTry (self.currentSolution, self.previousSolution)).1 k
            (self.twoPTwoCLocalJacobian_.problem_.nodePosition k)).1.staticNodeDat_
              k).phaseState) ∧
    (switched (TwoPTwoCBoxModel.updateFailedTry parentUpdateFailedTry
        self).twoPTwoCLocalJacobian_ = true ↔
      ∃ k, k < self.twoPTwoCLocalJacobian_.problem_.numNodes ∧
        ((TwoPTwoCBoxModel.updateFailedTry parentUpdateFailedTry
            self).twoPTwoCLocalJacobian_.staticNodeDat_ k).phaseState
          ≠ (self.twoPTwoCLocalJacobian_.staticNodeDat_ k).oldPhaseState) := by
  have hrs := resetPhaseState_eq (setSwitched self.twoPTwoCLocalJacobian_ false)
  have hprob : (resetPhaseState (setSwitched self.twoPTwoCLocalJacobian_ false)).problem_
      = self.twoPTwoCLocalJacobian_.problem_ := by rw [hrs]; rfl
  have hrold : ∀ k,
      ((resetPhaseState (setSwitched self.twoPTwoCLocalJacobian_ false)).staticNodeDat_
        k).oldPhaseState = (self.twoPTwoCLocalJacobian_.staticNodeDat_ k).oldPhaseState := by
    intro k
    rw [hrs]
    by_cases hk : k < self.twoPTwoCLocalJacobian_.problem_.numNodes <;>
      simp [hk, setSwitched]
  have hrcur : ∀ k, k < self.twoPTwoCLocalJacobian_.problem_.numNodes →
      ((resetPhaseState (setSwitched self.twoPTwoCLocalJacobian_ false)).staticNodeDat_
        k).phaseState = (self.twoPTwoCLocalJacobian_.staticNodeDat_ k).oldPhaseState := by
    intro k hk
    rw [hrs]
    simp [hk, setSwitched]
  obtain ⟨⟨f, b, hs⟩, hold⟩ := updateStaticData_state (TwoPTwoCBoxJacobian dim)
    (resetPhaseState (setSwitched self.twoPTwoCLocalJacobian_ false))
    (parentUpdateFailedTry (self.currentSolution, self.previousSolution)).1
    (parentUpdateFailedTry (self.currentSolution, self.previousSolution)).2
  obtain ⟨-, -, -, h4, h5⟩ := updateStaticDataStep_fold (TwoPTwoCBoxJacobian dim)
    (List.range (resetPhaseState (setSwitched self.twoPTwoCLocalJacobian_ false)).problem_.numNodes)
    (List.nodup_range _)
    (resetPhaseState (setSwitched self.twoPTwoCLocalJacobian_ false))
    (parentUpdateFailedTry (self.currentSolution, self.previousSolution)).1 false
  have hm : (TwoPTwoCBoxModel.updateFailedTry parentUpdateFailedTry
      self).twoPTwoCLocalJacobian_
      = (updateStaticData (TwoPTwoCBoxJacobian dim)
          (resetPhaseState (setSwitched self.twoPTwoCLocalJacobian_ false))
          (parentUpdateFailedTry (self.currentSolution, self.previousSolution)).1
          (parentUpdateFailedTry (self.currentSolution, self.previousSolution)).2).1 := rfl
  have htag : ∀ k, k < self.twoPTwoCLocalJacobian_.problem_.numNodes →
      ((updateStaticData (TwoPTwoCBoxJacobian dim)
          (resetPhaseState (setSwitched self.twoPTwoCLocalJacobian_ false))
          (parentUpdateFailedTry (self.currentSolution, self.previousSolution)).1
          (parentUpdateFailedTry (self.currentSolution,
            self.previousSolution)).2).1.staticNodeDat_ k).phaseState
        = ((primaryVarSwitch_ (TwoPTwoCBoxJacobian dim)
            (resetPhaseState (setSwitched self.twoPTwoCLocalJacobian_ false))
            (parentUpdateFailedTry (self.currentSolution, self.previousSolution)).1 k
            (self.twoPTwoCLocalJacobian_.problem_.nodePosition k)).1.staticNodeDat_
              k).phaseState := by
    intro k hk
    have hk' := List.mem_range.mpr (hprob.symm ▸ hk)
    rw [← hprob]
    exact (h4 k hk').1
  have hflag : switched (updateStaticData (TwoPTwoCBoxJacobian dim)
        (resetPhaseState (setSwitched self.twoPTwoCLocalJacobian_ false))
        (parentUpdateFailedTry (self.currentSolution, self.previousSolution)).1
        (parentUpdateFailedTry (self.currentSolution, self.previousSolution)).2).1 = true ↔
      ∃ k ∈ List.range
          (resetPhaseState (setSwitched self.twoPTwoCLocalJacobian_ false)).problem_.numNodes,
        (primaryVarSwitch_ (TwoPTwoCBoxJacobian dim)
          (resetPhaseState (setSwitched self.twoPTwoCLocalJacobian_ false))
          (parentUpdateFailedTry (self.currentSolution, self.previousSolution)).1 k
          ((resetPhaseState (setSwitched self.twoPTwoCLocalJacobian_
            false)).problem_.nodePosition k)).2.2 = true := by
    refine Iff.trans h5 ?_
    constructor
    · rintro (h | h)
      · exact absurd h (by decide)
      · exact h
    · intro h
      exact Or.inr h
  rw [hm]
  refine ⟨?_, ?_, htag, ?_⟩
  · rw [hs]
    exact hprob
  · intro k
    rw [hold k, hrold k]
  · rw [hflag]
    constructor
    · rintro ⟨k, hk, h⟩
      have hk' : k < self.twoPTwoCLocalJacobian_.problem_.numNodes :=
        hprob ▸ List.mem_range.mp hk
      refine ⟨k, hk', ?_⟩
      rw [htag k hk', ← hrcur k hk', ← hprob]
      exact (primaryVarSwitch_returns _ _ _ k _).mp h
    · rintro ⟨k, hk, h⟩
      have hk' := List.mem_range.mpr (hprob.symm ▸ hk)
      rw [htag k hk, ← hrcur k hk, ← hprob] at h
      exact ⟨k, hk', (primaryVarSwitch_returns _ _ _ k _).mpr h⟩

/-- Claim C31, refuted as stated: `resetPhaseState` on a local Jacobian whose
flag is set leaves the flag set; and `updateFailedTry` on the model
`failedTryModel`, whose node 0 has the accepted phase state `NPhaseOnly` and
the switch unknown 3/100 above the solubility 1/50, ends with the node 0 in
the state `BothPhases`, not its old phase state `NPhaseOnly`, and with the
flag set. -/
theorem updateFailedTry_switches_again :
    switched (resetPhaseState (setSwitched switchJacobian true)) = true ∧
    ((TwoPTwoCBoxModel.updateFailedTry id
      failedTryModel).twoPTwoCLocalJacobian_.staticNodeDat_ 0).phaseState = BothPhases ∧
    ((TwoPTwoCBoxModel.updateFailedTry id
      failedTryModel).twoPTwoCLocalJacobian_.staticNodeDat_ 0).oldPhaseState = NPhaseOnly ∧
    switched (TwoPTwoCBoxModel.updateFailedTry id failedTryModel).twoPTwoCLocalJacobian_
      = true := by
  obtain ⟨-, h2, h3, h4⟩ := updateFailedTry_spec id failedTryModel
  have hn : (0 : Nat) < failedTryModel.twoPTwoCLocalJacobian_.problem_.numNodes := by
    simp [failedTryModel, switchJacobian, sampleJacobian, linearPcProblem]
  have ht : ((resetPhaseState (setSwitched failedTryModel.twoPTwoCLocalJacobian_
      false)).staticNodeDat_ 0).phaseState = NPhaseOnly := by
    rw [resetPhaseState_eq]
    simp [failedTryModel, switchJacobian, setSwitched]
  have hsw := (primaryVarSwitch_NPhaseOnly (TwoPTwoCBoxJacobian 1)
    (resetPhaseState (setSwitched failedTryModel.twoPTwoCLocalJacobian_ false))
    (id (failedTryModel.currentSolution, failedTryModel.previousSolution)).1 0
    (failedTryModel.twoPTwoCLocalJacobian_.problem_.nodePosition 0) ht).1
    (by
      rw [resetPhaseState_eq]
      simp [failedTryModel, switchJacobian, sampleJacobian, linearPcProblem, switchSol,
        setSwitched]
      norm_num)
  have hcur := (h3 0 hn).trans hsw.1
  have hold : ((TwoPTwoCBoxModel.updateFailedTry id
      failedTryModel).twoPTwoCLocalJacobian_.staticNodeDat_ 0).oldPhaseState = NPhaseOnly := by
    rw [h2 0]
    simp [failedTryModel, switchJacobian]
  refine ⟨?_, hcur, hold, ?_⟩
  · rw [resetPhaseState_eq]
    rfl
  · rw [h4]
    refine ⟨0, hn, ?_⟩
    rw [hcur, ← h2 0, hold]
    decide

/-- Claim C31, amended: `resetPhaseState` sets the phase state of every node
of the grid to its old phase state, keeps the old phase states and leaves the
flag as it was. `updateFailedTry` clears the flag, resets the phase states and
then runs a switch pass with the current solution: afterwards the old phase
states are as before, the phase state of every node of the grid is the result
of its variable switch from the restored state, and the flag is true iff the
phase state of some node of the grid differs from its old phase state. -/
theorem updateFailedTry_rollback {dim : Nat}
    (parentUpdateFailedTry : SpatialFunction × SpatialFunction →
      SpatialFunction × SpatialFunction)
    (self : TwoPTwoCBoxModel dim) (jac : TwoPTwoCBoxJacobianBase dim) :
    ((∀ k, k < jac.problem_.numNodes →
        ((resetPhaseState jac).staticNodeDat_ k).phaseState
          = (jac.staticNodeDat_ k).oldPhaseState) ∧
      (∀ k, ((resetPhaseState jac).staticNodeDat_ k).oldPhaseState
          = (jac.staticNodeDat_ k).oldPhaseState) ∧
      switched (resetPhaseState jac) = switched jac) ∧
    (∀ k, ((TwoPTwoCBoxModel.updateFailedTry parentUpdateFailedTry
        self).twoPTwoCLocalJacobian_.staticNodeDat_ k).oldPhaseState
      = (self.twoPTwoCLocalJacobian_.staticNodeDat_ k).oldPhaseState) ∧
    (∀ k, k < self.twoPTwoCLocalJacobian_.problem_.numNodes →
      ((TwoPTwoCBoxModel.updateFailedTry parentUpdateFailedTry
          self).twoPTwoCLocalJacobian_.staticNodeDat_ k).phaseState
        = ((primaryVarSwitch_ (TwoPTwoCBoxJacobian dim)
            (resetPhaseState (setSwitched self.twoPTwoCLocalJacobian_ false))
            (parentUpdateFailedTry (self.currentSolution, self.previousSolution)).1 k
            (self.twoPTwoCLocalJacobian_.problem_.nodePosition k)).1.staticNodeDat_
              k).phaseState) ∧
    (switched (TwoPTwoCBoxModel.updateFailedTry parentUpdateFailedTry
        self).twoPTwoCLocalJacobian_ = true ↔
      ∃ k, k < self.twoPTwoCLocalJacobian_.problem_.numNodes ∧
        ((TwoPTwoCBoxModel.updateFailedTry parentUpdateFailedTry
            self).twoPTwoCLocalJacobian_.staticNodeDat_ k).phaseState
          ≠ (self.twoPTwoCLocalJacobian_.staticNodeDat_ k).oldPhaseState) := by
  obtain ⟨-, h2, h3, h4⟩ := updateFailedTry_spec parentUpdateFailedTry self
  refine ⟨⟨?_, ?_, ?_⟩, h2, h3, h4⟩
  · intro k hk
    rw [resetPhaseState_eq]
    simp [hk]
  · intro k
    rw [resetPhaseState_eq]
    by_cases hk : k < jac.problem_.numNodes <;> simp [hk]
  · rw [resetPhaseState_eq]
    rfl

/-! ## The arithmetic of `double` -/

/-- The rounding of zero is zero. -/
theorem roundDouble_zero : roundDouble 0 = 0 := by
  simp [roundDouble]

/-- The error of a rounding to `double` is at most half a unit in the last
place, hence at most `2^-53` times the absolute value of the number. -/
theorem roundDouble_error (q : Scalar) : |roundDouble q - q| ≤ |q| / 2 ^ 53 := by
  by_cases hq : q = 0
  · subst hq
    simp [roundDouble]
  have habs : 0 < |q| := abs_pos.mpr hq
  unfold roundDouble
  rw [if_neg hq]
  simp only []
  set e : Int := Int.log 2 |q| with he
  have hulp : (0 : Scalar) < 2 ^ (e - 52) := zpow_pos (by norm_num) _
  have hle : (2 : Scalar) ^ e ≤ |q| := Int.zpow_log_le_self (by norm_num) habs
  set t : Scalar := q / 2 ^ (e - 52) with ht
  have hq' : q = t * 2 ^ (e - 52) := by
    rw [ht]
    field_simp
  have hfloor1 : (⌊t⌋ : Scalar) ≤ t := Int.floor_le t
  have hfloor2 : t < ⌊t⌋ + 1 := Int.lt_floor_add_one t
  have hm : ∀ m : Int, |(m : Scalar) - t| ≤ 1 / 2 →
      |(m : Scalar) * 2 ^ (e - 52) - q| ≤ |q| / 2 ^ 53 := by
    intro m hmt
    have h1 : (m : Scalar) * 2 ^ (e - 52) - q = ((m : Scalar) - t) * 2 ^ (e - 52) := by
      rw [sub_mul, ← hq']
    rw [h1, abs_mul, abs_of_pos hulp]
    have h2 : (2 : Scalar) ^ (e - 52) = 2 ^ e / 2 ^ 52 := by
      rw [zpow_sub₀ (by norm_num)]
      norm_cast
    have h3 : |(m : Scalar) - t| * 2 ^ (e - 52) ≤ 1 / 2 * 2 ^ (e - 52) :=
      mul_le_mul_of_nonneg_right hmt hulp.le
    have h4 : (1 : Scalar) / 2 * 2 ^ (e - 52) = 2 ^ e / 2 ^ 53 := by
      rw [h2]
      ring
    have h5 : (2 : Scalar) ^ e / 2 ^ 53 ≤ |q| / 2 ^ 53 :=
      div_le_div_of_nonneg_right hle (by positivity)
    linarith
  split_ifs with c1 c2 c3
  · apply hm
    rw [abs_le]
    constructor <;> linarith
  · apply hm
    push_cast
    rw [abs_le]
    constructor <;> linarith
  · apply hm
    rw [abs_le]
    constructor <;> linarith
  · apply hm
    push_cast
    rw [abs_le]
    constructor <;> linarith

/-- The rounding of a number that is within half a unit in the last place of
the `double` `n * 2 ^ (e - 52)`. -/
theorem roundDouble_of_near_abs (q : Scalar) (e n : Int)
    (hlo : (2 : Scalar) ^ e ≤ |q|) (hhi : |q| < (2 : Scalar) ^ (e + 1))
    (hlt : |q / 2 ^ (e - 52) - n| < 1 / 2) :
    roundDouble q = n * 2 ^ (e - 52) := by
  have hpos : 0 < |q| := lt_of_lt_of_le (zpow_pos (by norm_num) e) hlo
  have hq : q ≠ 0 := abs_pos.mp hpos
  have hlog : Int.log 2 |q| = e := by
    have h1 : e ≤ Int.log 2 |q| :=
      (Int.zpow_le_iff_le_log (by norm_num) hpos).1 (by exact_mod_cast hlo)
    have h2 : Int.log 2 |q| < e + 1 :=
      (Int.lt_zpow_iff_log_lt (by norm_num) hpos).1 (by exact_mod_cast hhi)
    omega
  unfold roundDouble
  rw [if_neg hq]
  simp only [hlog]
  rw [abs_lt] at hlt
  set t := q / 2 ^ (e - 52) with ht
  by_cases hge : (n : Scalar) ≤ t
  · have hfl : ⌊t⌋ = n := by
      rw [Int.floor_eq_iff]
      constructor
      · exact hge
      · linarith [hlt.2]
    rw [hfl, if_pos (by linarith [hlt.2])]
  · push_neg at hge
    have hfl : ⌊t⌋ = n - 1 := by
      rw [Int.floor_eq_iff]
      push_cast
      constructor
      · linarith [hlt.1]
      · linarith
    rw [hfl]
    push_cast
    rw [if_neg (by linarith [hlt.1]), if_pos (by linarith [hlt.1])]
    ring

/-- The `double` 1. -/
theorem roundDouble_one : roundDouble 1 = 1 := by
  have h := roundDouble_of_near_abs 1 0 (2 ^ 52) (by norm_num) (by norm_num)
    (by norm_num)
  rw [h]
  norm_num


/-- With the identity for `fl` the rounded variable update is the exact one. -/
theorem updateVarNodeDataRounded_id {dim : Nat} (d : VariableNodeData)
    (nodeSol : UnknownsVector) (phaseState : Int) (cell : Cell dim) (localIdx : Nat)
    (problem : Problem dim) (temperature : Scalar) :
    updateVarNodeDataRounded id d nodeSol phaseState cell localIdx problem temperature
      = updateVarNodeData_ d nodeSol phaseState cell localIdx problem temperature := rfl

/-- With the identity for `fl` the rounded storage term is the exact one. -/
theorem localRateRounded_id {dim : Nat} (impl : Implementation dim)
    (self : TwoPTwoCBoxJacobianBase dim) (result : UnknownsVector) (scvId : Nat)
    (usePrevSol : Bool) :
    localRateRounded id impl self result scvId usePrevSol
      = localRate impl self result scvId usePrevSol := by
  simp only [localRateRounded, localRate, id, mul_assoc]

/-- With the identity for `fl` the rounded variable switch is the exact one. -/
theorem primaryVarSwitchRounded_id {dim : Nat} (impl : Implementation dim)
    (self : TwoPTwoCBoxJacobianBase dim) (sol : SpatialFunction) (globalIdx : Nat)
    (globalPos : Coord dim) :
    primaryVarSwitchRounded id impl self sol globalIdx globalPos
      = primaryVarSwitch_ impl self sol globalIdx globalPos := rfl

/-! ## The closures of the variable update in `double` -/

/-- A rounding with relative error at most `2^-53` maps zero to zero. -/
theorem fl_zero (fl : Scalar → Scalar) (hfl : ∀ q, |fl q - q| ≤ |q| / 2 ^ 53) : fl 0 = 0 := by
  have h := hfl 0
  simp only [sub_zero, abs_zero, zero_div] at h
  exact abs_nonpos_iff.mp h

/-- The two bounds of a rounding with relative error at most `2^-53`. -/
theorem fl_bounds (fl : Scalar → Scalar) (hfl : ∀ q, |fl q - q| ≤ |q| / 2 ^ 53) (q : Scalar) :
    q - |q| / 2 ^ 53 ≤ fl q ∧ fl q ≤ q + |q| / 2 ^ 53 := by
  have h := hfl q
  rw [abs_le] at h
  constructor <;> linarith [h.1, h.2]

/-- A rounding with relative error at most `2^-53` keeps the sign. -/
theorem fl_sign (fl : Scalar → Scalar) (hfl : ∀ q, |fl q - q| ≤ |q| / 2 ^ 53) (q : Scalar) :
    (0 ≤ q → 0 ≤ fl q) ∧ (0 < q → 0 < fl q) ∧ (q ≤ 0 → fl q ≤ 0) ∧ (q < 0 → fl q < 0) := by
  obtain ⟨h1, h2⟩ := fl_bounds fl hfl q
  have hu : (0 : Scalar) < 1 / 2 ^ 53 := by positivity
  have hu1 : (1 : Scalar) / 2 ^ 53 < 1 := by norm_num
  refine ⟨?_, ?_, ?_, ?_⟩
  · intro hq
    rw [abs_of_nonneg hq] at h1
    have : q / 2 ^ 53 ≤ q := by
      rw [div_le_iff₀ (by positivity)]
      nlinarith
    linarith
  · intro hq
    rw [abs_of_pos hq] at h1
    have : q / 2 ^ 53 < q := by
      rw [div_lt_iff₀ (by positivity)]
      nlinarith
    linarith
  · intro hq
    rw [abs_of_nonpos hq] at h2
    have : -q / 2 ^ 53 ≤ -q := by
      rw [div_le_iff₀ (by positivity)]
      nlinarith
    linarith
  · intro hq
    rw [abs_of_neg hq] at h2
    have : -q / 2 ^ 53 < -q := by
      rw [div_lt_iff₀ (by positivity)]
      nlinarith
    linarith

/-- What the rounded variable update returns for a valid phase state, for any
rounding `fl`. -/
theorem updateVarNodeDataRounded_spec {dim : Nat} (fl : Scalar → Scalar) (d : VariableNodeData)
    (nodeSol : UnknownsVector) (phaseState : Int) (cell : Cell dim) (localIdx : Nat)
    (problem : Problem dim) (temperature : Scalar)
    (h : phaseState = NPhaseOnly ∨ phaseState = WPhaseOnly ∨ phaseState = BothPhases) :
    ∃ d', updateVarNodeDataRounded fl d nodeSol phaseState cell localIdx problem temperature
        = Except.ok d' ∧
      d'.phaseState = phaseState ∧
      d'.satN = (if phaseState = BothPhases then nodeSol SwitchIndex
        else if phaseState = WPhaseOnly then 0 else 1) ∧
      d'.satW = fl (1 - d'.satN) ∧
      d'.massfrac WCompIndex WPhaseIndex = fl (1 - d'.massfrac NCompIndex WPhaseIndex) ∧
      d'.massfrac NCompIndex NPhaseIndex = fl (1 - d'.massfrac WCompIndex NPhaseIndex) ∧
      (phaseState = WPhaseOnly → d'.massfrac WCompIndex NPhaseIndex = 0 ∧
        d'.massfrac NCompIndex WPhaseIndex = nodeSol SwitchIndex) ∧
      (phaseState = NPhaseOnly → d'.massfrac NCompIndex WPhaseIndex = 0 ∧
        d'.massfrac WCompIndex NPhaseIndex = nodeSol SwitchIndex) ∧
      d'.density WPhaseIndex = problem.wettingPhase.density temperature (nodeSol PwIndex)
        (d'.massfrac NCompIndex WPhaseIndex) ∧
      d'.density NPhaseIndex = problem.nonwettingPhase.density temperature d'.pN
        (d'.massfrac WCompIndex NPhaseIndex) := by
  rcases h with rfl | rfl | rfl
  all_goals
    refine ⟨_, rfl, ?_, ?_, ?_, ?_, ?_, ?_, ?_, ?_, ?_⟩ <;> simp [MassfracMatrix.setEntry]

/-- Claim C1, refuted as stated: in the arithmetic of `double`, in the state
`WPhaseOnly` with the switch unknown `-3 * 2^-55`, the variable update stores
`massfrac[NComp][WPhase] = -3 * 2^-55` and `massfrac[WComp][WPhase] = 1`, the
`double` nearest to `1 + 3 * 2^-55`; the two do not sum to 1, and the `double`
nearest to their sum is `1 - 2^-53`, not 1. -/
theorem updateVarNodeDataRounded_massfrac_not_closed :
    ∃ d', updateVarNodeDataRounded roundDouble zeroVarNodeData ![100000, -(3 / 2 ^ 55)]
        WPhaseOnly lineCell 0 linearPcProblem 283.15 = Except.ok d' ∧
      d'.massfrac NCompIndex WPhaseIndex = -(3 / 2 ^ 55) ∧
      d'.massfrac WCompIndex WPhaseIndex = 1 ∧
      d'.massfrac WCompIndex WPhaseIndex + d'.massfrac NCompIndex WPhaseIndex ≠ 1 ∧
      roundDouble (d'.massfrac WCompIndex WPhaseIndex + d'.massfrac NCompIndex WPhaseIndex)
        = 1 - 1 / 2 ^ 53 := by
  obtain ⟨d', hd, -, -, -, hWW, -, hW, -⟩ := updateVarNodeDataRounded_spec roundDouble
    zeroVarNodeData ![100000, -(3 / 2 ^ 55)] WPhaseOnly lineCell 0 linearPcProblem 283.15
    (Or.inr (Or.inl rfl))
  have hNW : d'.massfrac NCompIndex WPhaseIndex = -(3 / 2 ^ 55) := by
    rw [(hW rfl).2]
    simp
  have h1 : roundDouble (1 - -(3 / 2 ^ 55)) = 1 := by
    have h := roundDouble_of_near (1 - -(3 / 2 ^ 55)) 0 (2 ^ 52) (by norm_num) (by norm_num)
      (by norm_num) (by rw [abs_lt]; constructor <;> norm_num)
    rw [h]
    norm_num
  have h2 : roundDouble (1 + -(3 / 2 ^ 55)) = 1 - 1 / 2 ^ 53 := by
    have h := roundDouble_of_near (1 + -(3 / 2 ^ 55)) (-1) (2 ^ 53 - 1) (by norm_num)
      (by norm_num) (by norm_num) (by rw [abs_lt]; constructor <;> norm_num)
    rw [h]
    norm_num
  have hWW' : d'.massfrac WCompIndex WPhaseIndex = 1 := by
    rw [hWW, hNW, h1]
  refine ⟨d', hd, hNW, hWW', ?_, ?_⟩
  · rw [hWW', hNW]
    norm_num
  · rw [hWW', hNW, h2]

/-- Claim C1, amended: in the arithmetic of `double`, for every valid phase
state the variable update returns a cached state in which each in-phase mass
fraction is the `double` nearest to 1 minus the cross fraction of its phase,
so that the mass fractions of each phase sum to 1 up to the rounding of that
one subtraction, at most `2^-53 * |1 - cross fraction|`; the sum is exactly 1
for the non-wetting phase in the state `WPhaseOnly` and for the wetting phase
in the state `NPhaseOnly`, where the cross fraction is 0. -/
theorem updateVarNodeDataRounded_massfrac_closure {dim : Nat} (d : VariableNodeData)
    (nodeSol : UnknownsVector) (phaseState : Int) (cell : Cell dim) (localIdx : Nat)
    (problem : Problem dim) (temperature : Scalar)
    (h : phaseState = NPhaseOnly ∨ phaseState = WPhaseOnly ∨ phaseState = BothPhases) :
    ∃ d', updateVarNodeDataRounded roundDouble d nodeSol phaseState cell localIdx problem
        temperature = Except.ok d' ∧
      d'.massfrac WCompIndex WPhaseIndex
        = roundDouble (1 - d'.massfrac NCompIndex WPhaseIndex) ∧
      d'.massfrac NCompIndex NPhaseIndex
        = roundDouble (1 - d'.massfrac WCompIndex NPhaseIndex) ∧
      |d'.massfrac WCompIndex WPhaseIndex + d'.massfrac NCompIndex WPhaseIndex - 1|
        ≤ |1 - d'.massfrac NCompIndex WPhaseIndex| / 2 ^ 53 ∧
      |d'.massfrac WCompIndex NPhaseIndex + d'.massfrac NCompIndex NPhaseIndex - 1|
        ≤ |1 - d'.massfrac WCompIndex NPhaseIndex| / 2 ^ 53 ∧
      (phaseState = WPhaseOnly →
        d'.massfrac WCompIndex NPhaseIndex + d'.massfrac NCompIndex NPhaseIndex = 1) ∧
      (phaseState = NPhaseOnly →
        d'.massfrac WCompIndex WPhaseIndex + d'.massfrac NCompIndex WPhaseIndex = 1) := by
  obtain ⟨d', hd, -, -, -, hWW, hNN, hW, hN, -⟩ := updateVarNodeDataRounded_spec roundDouble d
    nodeSol phaseState cell localIdx problem temperature h
  refine ⟨d', hd, hWW, hNN, ?_, ?_, ?_, ?_⟩
  · have he := roundDouble_error (1 - d'.massfrac NCompIndex WPhaseIndex)
    rw [← hWW] at he
    have : d'.massfrac WCompIndex WPhaseIndex + d'.massfrac NCompIndex WPhaseIndex - 1
        = d'.massfrac WCompIndex WPhaseIndex - (1 - d'.massfrac NCompIndex WPhaseIndex) := by
      ring
    rw [this]
    exact he
  · have he := roundDouble_error (1 - d'.massfrac WCompIndex NPhaseIndex)
    rw [← hNN] at he
    have : d'.massfrac WCompIndex NPhaseIndex + d'.massfrac NCompIndex NPhaseIndex - 1
        = d'.massfrac NCompIndex NPhaseIndex - (1 - d'.massfrac WCompIndex NPhaseIndex) := by
      ring
    rw [this]
    exact he
  · intro hp
    rw [hNN, (hW hp).1]
    simp [roundDouble_one]
  · intro hp
    rw [hWW, (hN hp).1]
    simp [roundDouble_one]

/-- The closure of C1 in `double` for the state `BothPhases` and the problem
`linearPcProblem`, whose solubilities are 1/100 and 1/50. -/
theorem updateVarNodeDataRounded_massfrac_closure_witness :
    ∃ d', updateVarNodeDataRounded roundDouble zeroVarNodeData sampleNodeSol BothPhases
        lineCell 0 linearPcProblem 283.15 = Except.ok d' ∧
      d'.massfrac WCompIndex WPhaseIndex
        = roundDouble (1 - d'.massfrac NCompIndex WPhaseIndex) ∧
      d'.massfrac NCompIndex NPhaseIndex
        = roundDouble (1 - d'.massfrac WCompIndex NPhaseIndex) ∧
      |d'.massfrac WCompIndex WPhaseIndex + d'.massfrac NCompIndex WPhaseIndex - 1|
        ≤ |1 - d'.massfrac NCompIndex WPhaseIndex| / 2 ^ 53 ∧
      |d'.massfrac WCompIndex NPhaseIndex + d'.massfrac NCompIndex NPhaseIndex - 1|
        ≤ |1 - d'.massfrac WCompIndex NPhaseIndex| / 2 ^ 53 ∧
      (BothPhases = WPhaseOnly →
        d'.massfrac WCompIndex NPhaseIndex + d'.massfrac NCompIndex NPhaseIndex = 1) ∧
      (BothPhases = NPhaseOnly →
        d'.massfrac WCompIndex WPhaseIndex + d'.massfrac NCompIndex WPhaseIndex = 1) :=
  updateVarNodeDataRounded_massfrac_closure zeroVarNodeData sampleNodeSol BothPhases lineCell 0
    linearPcProblem 283.15 (Or.inr (Or.inr rfl))

/-- Claim C2, refuted as stated: in the arithmetic of `double`, in the state
`BothPhases` with the saturation unknown `-3 * 2^-55`, outside `[0, 1]`, the
variable update stores `satN = -3 * 2^-55` and `satW = 1`, the `double`
nearest to `1 + 3 * 2^-55`; the two do not sum to 1, and the `double` nearest
to their sum is `1 - 2^-53`, not 1. -/
theorem updateVarNodeDataRounded_saturation_not_closed :
    ∃ d', updateVarNodeDataRounded roundDouble zeroVarNodeData ![100000, -(3 / 2 ^ 55)]
        BothPhases lineCell 0 linearPcProblem 283.15 = Except.ok d' ∧
      d'.satN = -(3 / 2 ^ 55) ∧ d'.satW = 1 ∧ d'.satW + d'.satN ≠ 1 ∧
      roundDouble (d'.satW + d'.satN) = 1 - 1 / 2 ^ 53 := by
  obtain ⟨d', hd, -, hN, hW, -⟩ := updateVarNodeDataRounded_spec roundDouble
    zeroVarNodeData ![100000, -(3 / 2 ^ 55)] BothPhases lineCell 0 linearPcProblem 283.15
    (Or.inr (Or.inr rfl))
  have hN' : d'.satN = -(3 / 2 ^ 55) := by
    rw [hN]
    simp
  have h1 : roundDouble (1 - -(3 / 2 ^ 55)) = 1 := by
    have h := roundDouble_of_near (1 - -(3 / 2 ^ 55)) 0 (2 ^ 52) (by norm_num) (by norm_num)
      (by norm_num) (by rw [abs_lt]; constructor <;> norm_num)
    rw [h]
    norm_num
  have h2 : roundDouble (1 + -(3 / 2 ^ 55)) = 1 - 1 / 2 ^ 53 := by
    have h := roundDouble_of_near (1 + -(3 / 2 ^ 55)) (-1) (2 ^ 53 - 1) (by norm_num)
      (by norm_num) (by norm_num) (by rw [abs_lt]; constructor <;> norm_num)
    rw [h]
    norm_num
  have hW' : d'.satW = 1 := by
    rw [hW, hN', h1]
  refine ⟨d', hd, hN', hW', ?_, ?_⟩
  · rw [hW', hN']
    norm_num
  · rw [hW', hN', h2]

/-- Claim C2, amended: in the arithmetic of `double`, for every valid phase
state the variable update returns a cached state with `satW` the `double`
nearest to `1 - satN`, so that `satW + satN` is 1 up to the rounding of that
subtraction, at most `2^-53 * |1 - satN|`, also when the saturation unknown
lies outside `[0, 1]`; the sum is exactly 1 in the states `WPhaseOnly` and
`NPhaseOnly`. -/
theorem updateVarNodeDataRounded_saturation_closure {dim : Nat} (d : VariableNodeData)
    (nodeSol : UnknownsVector) (phaseState : Int) (cell : Cell dim) (localIdx : Nat)
    (problem : Problem dim) (temperature : Scalar)
    (h : phaseState = NPhaseOnly ∨ phaseState = WPhaseOnly ∨ phaseState = BothPhases) :
    ∃ d', updateVarNodeDataRounded roundDouble d nodeSol phaseState cell localIdx problem
        temperature = Except.ok d' ∧
      d'.satW = roundDouble (1 - d'.satN) ∧
      |d'.satW + d'.satN - 1| ≤ |1 - d'.satN| / 2 ^ 53 ∧
      (phaseState = BothPhases → d'.satN = nodeSol SwitchIndex) ∧
      (phaseState = WPhaseOnly → d'.satW = 1 ∧ d'.satN = 0) ∧
      (phaseState = NPhaseOnly → d'.satW = 0 ∧ d'.satN = 1) := by
  obtain ⟨d', hd, -, hN, hW, -⟩ := updateVarNodeDataRounded_spec roundDouble d
    nodeSol phaseState cell localIdx problem temperature h
  refine ⟨d', hd, hW, ?_, ?_, ?_, ?_⟩
  · have he := roundDouble_error (1 - d'.satN)
    rw [← hW] at he
    have : d'.satW + d'.satN - 1 = d'.satW - (1 - d'.satN) := by ring
    rw [this]
    exact he
  · intro hp
    rw [hN, if_pos hp]
  · intro hp
    have hs : d'.satN = 0 := by
      rw [hN, hp]
      simp
    rw [hW, hs]
    simp [roundDouble_one]
  · intro hp
    have hs : d'.satN = 1 := by
      rw [hN, hp]
      simp
    rw [hW, hs]
    simp [roundDouble_zero]

/-- The closure of C2 in `double` for the state `BothPhases` and the
saturation unknown -7, outside `[0, 1]`. -/
theorem updateVarNodeDataRounded_saturation_closure_witness :
    ∃ d', updateVarNodeDataRounded roundDouble zeroVarNodeData ![100000, -7] BothPhases
        lineCell 0 linearPcProblem 283.15 = Except.ok d' ∧
      d'.satW = roundDouble (1 - d'.satN) ∧
      |d'.satW + d'.satN - 1| ≤ |1 - d'.satN| / 2 ^ 53 ∧
      (BothPhases = BothPhases → d'.satN = (![100000, -7] : UnknownsVector) SwitchIndex) ∧
      (BothPhases = WPhaseOnly → d'.satW = 1 ∧ d'.satN = 0) ∧
      (BothPhases = NPhaseOnly → d'.satW = 0 ∧ d'.satN = 1) :=
  updateVarNodeDataRounded_saturation_closure zeroVarNodeData ![100000, -7] BothPhases
    lineCell 0 linearPcProblem 283.15 (Or.inr (Or.inr rfl))

/-! ## The harmonic mean in `double` -/

/-- The bounds of a rounding with relative error at most `2^-53` at a
non-negative number. -/
theorem fl_rel (fl : Scalar → Scalar) (hfl : ∀ q, |fl q - q| ≤ |q| / 2 ^ 53) (q : Scalar)
    (hq : 0 ≤ q) : q * (1 - 1 / 2 ^ 53) ≤ fl q ∧ fl q ≤ q * (1 + 1 / 2 ^ 53) := by
  obtain ⟨h1, h2⟩ := fl_bounds fl hfl q
  rw [abs_of_nonneg hq] at h1 h2
  constructor
  · linarith
  · linarith

/-- Two inequalities between polynomials in the relative error `u`. -/
theorem rounding_factors (u : Scalar) (hu0 : 0 ≤ u) (hu1 : u ≤ 1 / 16) :
    (1 - 8 * u) * ((1 + u) * (1 + u)) ≤ (1 - u) * (1 - u) ∧
    (1 + u) * (1 + u) * (1 + u) ≤ (1 + 8 * u) * ((1 - u) * (1 - u)) := by
  have h2 : 0 ≤ u * u := mul_nonneg hu0 hu0
  have h3 : 0 ≤ u * u * u := mul_nonneg h2 hu0
  have h4 : 0 ≤ u * (1 - 16 * u) := mul_nonneg hu0 (by linarith)
  constructor
  · nlinarith
  · nlinarith

/-- The harmonic mean with every operation rounded with relative error at
most `u`, of two non-negative numbers `x` and `y` shifted by the rounding of
`e`: no denominator is zero, and the result is between `min x y` and
`max x y + e` up to the relative error `8 * u`. -/
theorem harmonic_rounded_aux (fl : Scalar → Scalar) (u : Scalar) (hu0 : 0 ≤ u)
    (hu1 : u ≤ 1 / 16)
    (hfl : ∀ q, 0 ≤ q → q * (1 - u) ≤ fl q ∧ fl q ≤ q * (1 + u))
    (e x y : Scalar) (he : 0 < e) (hx : 0 ≤ x) (hy : 0 ≤ y) :
    fl (x + fl e) ≠ 0 ∧ fl (y + fl e) ≠ 0 ∧
    fl (fl (1 / fl (x + fl e)) + fl (1 / fl (y + fl e))) ≠ 0 ∧
    (1 - 8 * u) * min x y
      ≤ fl (2 / fl (fl (1 / fl (x + fl e)) + fl (1 / fl (y + fl e)))) ∧
    fl (2 / fl (fl (1 / fl (x + fl e)) + fl (1 / fl (y + fl e))))
      ≤ (1 + 8 * u) * (max x y + e) := by
  have hU0 : (0 : Scalar) < 1 - u := by linarith
  have hU1 : (0 : Scalar) < 1 + u := by linarith
  -- the regulariser
  obtain ⟨he1, he2⟩ := hfl e he.le
  have hepos : 0 < fl e := lt_of_lt_of_le (mul_pos he hU0) he1
  generalize fl e = eps at he1 he2 hepos ⊢
  -- the two shifted entries
  obtain ⟨ha1, ha2⟩ := hfl (x + eps) (by linarith)
  obtain ⟨hb1, hb2⟩ := hfl (y + eps) (by linarith)
  have hapos : 0 < fl (x + eps) :=
    lt_of_lt_of_le (mul_pos (by linarith) hU0) ha1
  have hbpos : 0 < fl (y + eps) :=
    lt_of_lt_of_le (mul_pos (by linarith) hU0) hb1
  generalize fl (x + eps) = a at ha1 ha2 hapos ⊢
  generalize fl (y + eps) = b at hb1 hb2 hbpos ⊢
  -- the reciprocals
  have hia : 0 < 1 / a := one_div_pos.mpr hapos
  have hib : 0 < 1 / b := one_div_pos.mpr hbpos
  obtain ⟨hra1, hra2⟩ := hfl (1 / a) hia.le
  obtain ⟨hrb1, hrb2⟩ := hfl (1 / b) hib.le
  have hrapos : 0 < fl (1 / a) := lt_of_lt_of_le (mul_pos hia hU0) hra1
  have hrbpos : 0 < fl (1 / b) := lt_of_lt_of_le (mul_pos hib hU0) hrb1
  generalize fl (1 / a) = ra at hra1 hra2 hrapos ⊢
  generalize fl (1 / b) = rb at hrb1 hrb2 hrbpos ⊢
  -- their sum
  obtain ⟨hs1, hs2⟩ := hfl (ra + rb) (by linarith)
  have hspos : 0 < fl (ra + rb) := lt_of_lt_of_le (mul_pos (by linarith) hU0) hs1
  generalize fl (ra + rb) = s at hs1 hs2 hspos ⊢
  -- the quotient
  have h2s : 0 < 2 / s := div_pos (by norm_num) hspos
  obtain ⟨hh1, hh2⟩ := hfl (2 / s) h2s.le
  generalize fl (2 / s) = h at hh1 hh2 ⊢
  generalize hwdef : 2 / s = w at hh1 hh2 h2s
  have hws : w * s = 2 := by
    rw [← hwdef]
    field_simp
  -- the exact harmonic mean of a and b
  have hP : 0 < 1 / a + 1 / b := add_pos hia hib
  obtain ⟨hH1, hH2⟩ := harmonic_between a b hapos hbpos
  have hHP : 2 / (1 / a + 1 / b) * (1 / a + 1 / b) = 2 := by
    field_simp
  generalize 2 / (1 / a + 1 / b) = H at hH1 hH2 hHP
  generalize 1 / a = ia at hia hra1 hra2 hP hHP
  generalize 1 / b = ib at hib hrb1 hrb2 hP hHP
  have hsP1 : (1 - u) * ((1 - u) * (ia + ib)) ≤ s := by
    have h1 : (1 - u) * (ia + ib) ≤ ra + rb := by linarith
    have h2 : (1 - u) * ((1 - u) * (ia + ib)) ≤ (1 - u) * (ra + rb) :=
      mul_le_mul_of_nonneg_left h1 hU0.le
    linarith
  have hsP2 : s ≤ (1 + u) * ((1 + u) * (ia + ib)) := by
    have h1 : ra + rb ≤ (1 + u) * (ia + ib) := by linarith
    have h2 : (1 + u) * (ra + rb) ≤ (1 + u) * ((1 + u) * (ia + ib)) :=
      mul_le_mul_of_nonneg_left h1 hU1.le
    linarith
  -- w = 2/s against H
  have hq1 : w * ((1 - u) * (1 - u)) ≤ H := by
    have h1 : w * ((1 - u) * ((1 - u) * (ia + ib))) ≤ w * s :=
      mul_le_mul_of_nonneg_left hsP1 h2s.le
    have h2 : w * ((1 - u) * (1 - u)) * (ia + ib) ≤ H * (ia + ib) := by
      rw [hHP, ← hws]
      linarith
    exact le_of_mul_le_mul_right h2 hP
  have hq2 : H ≤ w * ((1 + u) * (1 + u)) := by
    have h1 : w * s ≤ w * ((1 + u) * ((1 + u) * (ia + ib))) :=
      mul_le_mul_of_nonneg_left hsP2 h2s.le
    have h2 : H * (ia + ib) ≤ w * ((1 + u) * (1 + u)) * (ia + ib) := by
      rw [hHP, ← hws]
      linarith
    exact le_of_mul_le_mul_right h2 hP
  have hm0 : 0 ≤ min x y := le_min hx hy
  have hM0 : 0 ≤ max x y := le_trans hx (le_max_left x y)
  have hmin : (min x y) * (1 - u) ≤ min a b := by
    rw [le_min_iff]
    constructor
    · have h1 : min x y ≤ x + eps := le_trans (min_le_left x y) (by linarith)
      have h2 := mul_le_mul_of_nonneg_right h1 hU0.le
      linarith
    · have h1 : min x y ≤ y + eps := le_trans (min_le_right x y) (by linarith)
      have h2 := mul_le_mul_of_nonneg_right h1 hU0.le
      linarith
  have hmax : max a b ≤ (max x y + e * (1 + u)) * (1 + u) := by
    rw [max_le_iff]
    constructor
    · have h1 : x + eps ≤ max x y + e * (1 + u) := by
        linarith [le_max_left x y]
      have h2 := mul_le_mul_of_nonneg_right h1 hU1.le
      linarith
    · have h1 : y + eps ≤ max x y + e * (1 + u) := by
        linarith [le_max_right x y]
      have h2 := mul_le_mul_of_nonneg_right h1 hU1.le
      linarith
  have hsq : 0 < (1 + u) * (1 + u) := mul_pos hU1 hU1
  have hsq' : 0 < (1 - u) * (1 - u) := mul_pos hU0 hU0
  refine ⟨hapos.ne', hbpos.ne', hspos.ne', ?_, ?_⟩
  · have h1 : min x y * (1 - u) ≤ w * ((1 + u) * (1 + u)) :=
      le_trans (le_trans hmin hH1) hq2
    have h2 : min x y * (1 - u) * (1 - u) ≤ h * ((1 + u) * (1 + u)) := by
      have h3 := mul_le_mul_of_nonneg_right h1 hU0.le
      have h4 := mul_le_mul_of_nonneg_right hh1 hsq.le
      linarith
    have hc : (1 - 8 * u) * ((1 + u) * (1 + u)) ≤ (1 - u) * (1 - u) :=
      (rounding_factors u hu0 hu1).1
    have h4 : (1 - 8 * u) * min x y * ((1 + u) * (1 + u)) ≤ h * ((1 + u) * (1 + u)) := by
      have := mul_le_mul_of_nonneg_left hc hm0
      linarith
    exact le_of_mul_le_mul_right h4 hsq
  · have h1 : H ≤ (max x y + e * (1 + u)) * (1 + u) := le_trans hH2 hmax
    have h2 : h * ((1 - u) * (1 - u)) ≤ H * (1 + u) := by
      have h3 := mul_le_mul_of_nonneg_right hh2 hsq'.le
      have h4 := mul_le_mul_of_nonneg_right hq1 hU1.le
      linarith
    have h3 : h * ((1 - u) * (1 - u)) ≤ (max x y + e * (1 + u)) * (1 + u) * (1 + u) := by
      have := mul_le_mul_of_nonneg_right h1 hU1.le
      linarith
    have h4 : (max x y + e * (1 + u)) * (1 + u) * (1 + u)
        ≤ (max x y + e) * ((1 + u) * (1 + u) * (1 + u)) := by
      have : 0 ≤ max x y * u * ((1 + u) * (1 + u)) :=
        mul_nonneg (mul_nonneg hM0 hu0) hsq.le
      linarith
    have hc : (1 + u) * (1 + u) * (1 + u) ≤ (1 + 8 * u) * ((1 - u) * (1 - u)) :=
      (rounding_factors u hu0 hu1).2
    have h5 : h * ((1 - u) * (1 - u))
        ≤ (1 + 8 * u) * (max x y + e) * ((1 - u) * (1 - u)) := by
      have hpos : 0 ≤ max x y + e := by linarith
      have := mul_le_mul_of_nonneg_left hc hpos
      linarith
    exact le_of_mul_le_mul_right h5 hsq'


/-- A positive number in the binade of `2 ^ e` that lies halfway between
`n * 2 ^ (e - 52)` and the next `double`, with `n` even, is rounded to
`n * 2 ^ (e - 52)`. -/
theorem roundDouble_of_tie_even (q : Scalar) (e n : Int) (hq : 0 < q)
    (hlo : (2 : Scalar) ^ e ≤ q) (hhi : q < (2 : Scalar) ^ (e + 1))
    (ht : q / 2 ^ (e - 52) = n + 1 / 2) (hn : n % 2 = 0) :
    roundDouble q = n * 2 ^ (e - 52) := by
  have hlog : Int.log 2 |q| = e := by
    rw [abs_of_pos hq]
    have h1 : e ≤ Int.log 2 q := (Int.zpow_le_iff_le_log (by norm_num) hq).1 (by exact_mod_cast hlo)
    have h2 : Int.log 2 q < e + 1 := (Int.lt_zpow_iff_log_lt (by norm_num) hq).1 (by exact_mod_cast hhi)
    omega
  unfold roundDouble
  rw [if_neg hq.ne']
  simp only [hlog]
  have hfl : ⌊q / 2 ^ (e - 52)⌋ = n := by
    rw [Int.floor_eq_iff, ht]
    constructor <;> linarith
  rw [hfl, ht]
  rw [if_neg (by norm_num), if_neg (by norm_num), if_pos hn]

/-- A positive number in the binade of `2 ^ e` that lies halfway between
`n * 2 ^ (e - 52)` and the next `double`, with `n` odd, is rounded to
`(n + 1) * 2 ^ (e - 52)`. -/
theorem roundDouble_of_tie_odd (q : Scalar) (e n : Int) (hq : 0 < q)
    (hlo : (2 : Scalar) ^ e ≤ q) (hhi : q < (2 : Scalar) ^ (e + 1))
    (ht : q / 2 ^ (e - 52) = n + 1 / 2) (hn : n % 2 = 1) :
    roundDouble q = (n + 1) * 2 ^ (e - 52) := by
  have hlog : Int.log 2 |q| = e := by
    rw [abs_of_pos hq]
    have h1 : e ≤ Int.log 2 q := (Int.zpow_le_iff_le_log (by norm_num) hq).1 (by exact_mod_cast hlo)
    have h2 : Int.log 2 q < e + 1 := (Int.lt_zpow_iff_log_lt (by norm_num) hq).1 (by exact_mod_cast hhi)
    omega
  unfold roundDouble
  rw [if_neg hq.ne']
  simp only [hlog]
  have hfl : ⌊q / 2 ^ (e - 52)⌋ = n := by
    rw [Int.floor_eq_iff, ht]
    constructor <;> linarith
  rw [hfl, ht]
  rw [if_neg (by norm_num), if_neg (by norm_num), if_neg (by omega)]
  push_cast
  ring

/-- Claim C39, refuted as stated: in the arithmetic of `double` the harmonic
mean of the 1x1 permeabilities `3` and `3 + 2^-51` is `3 + 2^-50`, above the
larger entry plus `1e-20`; and that of `15` and `15 - 2^-49` is `15 - 2^-48`,
below the smaller entry. -/
theorem harmonicMeanKRounded_out_of_bounds :
    harmonicMeanKRounded roundDouble (fun _ _ => 3 : Tensor 1) (fun _ _ => 3 + 1 / 2 ^ 51) 0 0
      = 3 + 1 / 2 ^ 50 ∧
    max (3 : Scalar) (3 + 1 / 2 ^ 51) + 1e-20 < 3 + 1 / 2 ^ 50 ∧
    harmonicMeanKRounded roundDouble (fun _ _ => 15 : Tensor 1) (fun _ _ => 15 - 1 / 2 ^ 49) 0 0
      = 15 - 1 / 2 ^ 48 ∧
    (15 : Scalar) - 1 / 2 ^ 48 < min 15 (15 - 1 / 2 ^ 49) := by
  refine ⟨?_, ?_, ?_, ?_⟩
  · rw [harmonicMeanKRounded_apply, if_pos (by norm_num), roundDouble_eps]
    have ha : roundDouble (3 + 6646139978924579 * 2 ^ (-119 : Int)) = 3 := by
      have h := roundDouble_of_near (3 + 6646139978924579 * 2 ^ (-119 : Int)) 1
        6755399441055744
        (by norm_num) (by norm_num) (by norm_num) (by rw [abs_lt]; constructor <;> norm_num)
      rw [h]; norm_num
    have hb : roundDouble (3 + 1 / 2 ^ 51 + 6646139978924579 * 2 ^ (-119 : Int))
        = 3 + 1 / 2 ^ 51 := by
      have h := roundDouble_of_near (3 + 1 / 2 ^ 51 + 6646139978924579 * 2 ^ (-119 : Int)) 1
        6755399441055745
        (by norm_num) (by norm_num) (by norm_num) (by rw [abs_lt]; constructor <;> norm_num)
      rw [h]; norm_num
    have hra : roundDouble (1 / 3) = 6004799503160661 / 2 ^ 54 := by
      have h := roundDouble_of_near (1 / 3) (-2) 6004799503160661
        (by norm_num) (by norm_num) (by norm_num) (by rw [abs_lt]; constructor <;> norm_num)
      rw [h]; norm_num
    have hrb : roundDouble (1 / (3 + 1 / 2 ^ 51)) = 6004799503160660 / 2 ^ 54 := by
      have h := roundDouble_of_near (1 / (3 + 1 / 2 ^ 51)) (-2) 6004799503160660
        (by norm_num) (by norm_num) (by norm_num) (by rw [abs_lt]; constructor <;> norm_num)
      rw [h]; norm_num
    have hs : roundDouble (6004799503160661 / 2 ^ 54 + 6004799503160660 / 2 ^ 54)
        = 6004799503160660 / 2 ^ 53 := by
      have h := roundDouble_of_tie_even
        (6004799503160661 / 2 ^ 54 + 6004799503160660 / 2 ^ 54) (-1) 6004799503160660
        (by norm_num) (by norm_num) (by norm_num) (by norm_num) (by norm_num)
      rw [h]; norm_num
    have hh : roundDouble (2 / (6004799503160660 / 2 ^ 53)) = 3 + 1 / 2 ^ 50 := by
      have h := roundDouble_of_near (2 / (6004799503160660 / 2 ^ 53)) 1 6755399441055746
        (by norm_num) (by norm_num) (by norm_num) (by rw [abs_lt]; constructor <;> norm_num)
      rw [h]; norm_num
    rw [ha, hb, hra, hrb, hs, hh]
  · rw [max_eq_right (by norm_num)]
    norm_num
  · rw [harmonicMeanKRounded_apply, if_pos (by norm_num), roundDouble_eps]
    have ha : roundDouble (15 + 6646139978924579 * 2 ^ (-119 : Int)) = 15 := by
      have h := roundDouble_of_near (15 + 6646139978924579 * 2 ^ (-119 : Int)) 3
        8444249301319680
        (by norm_num) (by norm_num) (by norm_num) (by rw [abs_lt]; constructor <;> norm_num)
      rw [h]; norm_num
    have hb : roundDouble (15 - 1 / 2 ^ 49 + 6646139978924579 * 2 ^ (-119 : Int))
        = 15 - 1 / 2 ^ 49 := by
      have h := roundDouble_of_near (15 - 1 / 2 ^ 49 + 6646139978924579 * 2 ^ (-119 : Int)) 3
        8444249301319679
        (by norm_num) (by norm_num) (by norm_num) (by rw [abs_lt]; constructor <;> norm_num)
      rw [h]; norm_num
    have hra : roundDouble (1 / 15) = 4803839602528529 / 2 ^ 56 := by
      have h := roundDouble_of_near (1 / 15) (-4) 4803839602528529
        (by norm_num) (by norm_num) (by norm_num) (by rw [abs_lt]; constructor <;> norm_num)
      rw [h]; norm_num
    have hrb : roundDouble (1 / (15 - 1 / 2 ^ 49)) = 4803839602528530 / 2 ^ 56 := by
      have h := roundDouble_of_near (1 / (15 - 1 / 2 ^ 49)) (-4) 4803839602528530
        (by norm_num) (by norm_num) (by norm_num) (by rw [abs_lt]; constructor <;> norm_num)
      rw [h]; norm_num
    have hs : roundDouble (4803839602528529 / 2 ^ 56 + 4803839602528530 / 2 ^ 56)
        = 4803839602528530 / 2 ^ 55 := by
      have h := roundDouble_of_tie_odd
        (4803839602528529 / 2 ^ 56 + 4803839602528530 / 2 ^ 56) (-3) 4803839602528529
        (by norm_num) (by norm_num) (by norm_num) (by norm_num) (by norm_num)
      rw [h]; norm_num
    have hh : roundDouble (2 / (4803839602528530 / 2 ^ 55)) = 15 - 1 / 2 ^ 48 := by
      have h := roundDouble_of_near (2 / (4803839602528530 / 2 ^ 55)) 3 8444249301319678
        (by norm_num) (by norm_num) (by norm_num) (by rw [abs_lt]; constructor <;> norm_num)
      rw [h]; norm_num
    rw [ha, hb, hra, hrb, hs, hh]
  · rw [min_eq_right (by norm_num)]
    norm_num

/-- Claim C39, amended: in the arithmetic of `double`, for entries
`Ki[r][c] >= 0` and `Kj[r][c] >= 0` no denominator of `harmonicMeanK_` is
zero, and the resulting entry lies between the smaller of the two entries and
the larger one plus `1e-20` up to the relative error `2^-50`:
`(1 - 2^-50) * min <= result <= (1 + 2^-50) * (max + 1e-20)`. -/
theorem harmonicMeanKRounded_bounds {dim : Nat} (Ki Kj : Tensor dim) (r c : Fin dim)
    (hi : 0 ≤ Ki r c) (hj : 0 ≤ Kj r c) :
    roundDouble (Ki r c + roundDouble 1e-20) ≠ 0 ∧
    roundDouble (Kj r c + roundDouble 1e-20) ≠ 0 ∧
    roundDouble (roundDouble (1 / roundDouble (Ki r c + roundDouble 1e-20))
      + roundDouble (1 / roundDouble (Kj r c + roundDouble 1e-20))) ≠ 0 ∧
    (1 - 1 / 2 ^ 50) * min (Ki r c) (Kj r c) ≤ harmonicMeanKRounded roundDouble Ki Kj r c ∧
    harmonicMeanKRounded roundDouble Ki Kj r c
      ≤ (1 + 1 / 2 ^ 50) * (max (Ki r c) (Kj r c) + 1e-20) := by
  obtain ⟨h1, h2, h3, h4, h5⟩ := harmonic_rounded_aux roundDouble (1 / 2 ^ 53) (by norm_num)
    (by norm_num) (fun q hq => fl_rel roundDouble roundDouble_error q hq) 1e-20 (Ki r c)
    (Kj r c) (by norm_num) hi hj
  have e1 : (1 : Scalar) - 8 * (1 / 2 ^ 53) = 1 - 1 / 2 ^ 50 := by norm_num
  have e2 : (1 : Scalar) + 8 * (1 / 2 ^ 53) = 1 + 1 / 2 ^ 50 := by norm_num
  rw [e1] at h4
  rw [e2] at h5
  refine ⟨h1, h2, h3, ?_, ?_⟩
  · rw [harmonicMeanKRounded_apply]
    split_ifs with hne
    · exact h4
    · have hm : min (Ki r c) (Kj r c) ≤ Ki r c := min_le_left _ _
      have hm0 : 0 ≤ min (Ki r c) (Kj r c) := le_min hi hj
      have : (1 - 1 / 2 ^ 50) * min (Ki r c) (Kj r c) ≤ min (Ki r c) (Kj r c) := by
        have hc : ((1 : Scalar) - 1 / 2 ^ 50) ≤ 1 := by norm_num
        have := mul_le_mul_of_nonneg_right hc hm0
        linarith
      linarith
  · rw [harmonicMeanKRounded_apply]
    split_ifs with hne
    · exact h5
    · have hM : Ki r c ≤ max (Ki r c) (Kj r c) := le_max_left _ _
      have hM0 : 0 ≤ max (Ki r c) (Kj r c) + 1e-20 := by
        have : (0 : Scalar) ≤ 1e-20 := by norm_num
        linarith
      have : max (Ki r c) (Kj r c) + 1e-20
          ≤ (1 + 1 / 2 ^ 50) * (max (Ki r c) (Kj r c) + 1e-20) := by
        have hc : (1 : Scalar) ≤ 1 + 1 / 2 ^ 50 := by norm_num
        have := mul_le_mul_of_nonneg_right hc hM0
        linarith
      have : (0 : Scalar) ≤ 1e-20 := by norm_num
      linarith

/-- The bounds of C39 in `double` for the 1x1 permeabilities 0 and 1, of which
exactly one is zero. -/
theorem harmonicMeanKRounded_bounds_witness :
    roundDouble ((fun _ _ => 0 : Tensor 1) 0 0 + roundDouble 1e-20) ≠ 0 ∧
    roundDouble ((fun _ _ => 1 : Tensor 1) 0 0 + roundDouble 1e-20) ≠ 0 ∧
    roundDouble (roundDouble (1 / roundDouble ((fun _ _ => 0 : Tensor 1) 0 0 + roundDouble 1e-20))
      + roundDouble (1 / roundDouble ((fun _ _ => 1 : Tensor 1) 0 0 + roundDouble 1e-20))) ≠ 0 ∧
    (1 - 1 / 2 ^ 50) * min ((fun _ _ => 0 : Tensor 1) 0 0) ((fun _ _ => 1 : Tensor 1) 0 0)
      ≤ harmonicMeanKRounded roundDouble (fun _ _ => 0 : Tensor 1) (fun _ _ => 1) 0 0 ∧
    harmonicMeanKRounded roundDouble (fun _ _ => 0 : Tensor 1) (fun _ _ => 1) 0 0
      ≤ (1 + 1 / 2 ^ 50) *
        (max ((fun _ _ => 0 : Tensor 1) 0 0) ((fun _ _ => 1 : Tensor 1) 0 0) + 1e-20) :=
  harmonicMeanKRounded_bounds (fun _ _ => 0 : Tensor 1) (fun _ _ => 1) 0 0 (le_refl _)
    zero_le_one

/-! ## The variable switch in `double` -/

/-- The rounded variable switch at a node in the state `BothPhases`, for any
rounding `fl`: the guards are those of the code, on the saturations it
computes. -/
theorem primaryVarSwitchRounded_BothPhases {dim : Nat} (fl : Scalar → Scalar)
    (impl : Implementation dim) (self : TwoPTwoCBoxJacobianBase dim) (sol : SpatialFunction)
    (k : Nat) (pos : Coord dim)
    (ht : (self.staticNodeDat_ k).phaseState = BothPhases) :
    (fl (1 - fl (1 - sol k SwitchIndex)) < -(fl 1e-5) →
      ((primaryVarSwitchRounded fl impl self sol k pos).1.staticNodeDat_ k).phaseState
        = WPhaseOnly ∧
      (primaryVarSwitchRounded fl impl self sol k pos).2.1
        = Function.update sol k (Function.update (sol k) SwitchIndex
            (self.problem_.multicomp.xAW
              (fl (sol k PwIndex + self.problem_.pC (fl (1 - sol k SwitchIndex)) k pos))
              (impl.temperature_ (sol k)))) ∧
      (primaryVarSwitchRounded fl impl self sol k pos).2.2 = true) ∧
    (¬ fl (1 - fl (1 - sol k SwitchIndex)) < -(fl 1e-5) →
      fl (1 - sol k SwitchIndex) < -(fl 1e-5) →
      ((primaryVarSwitchRounded fl impl self sol k pos).1.staticNodeDat_ k).phaseState
        = NPhaseOnly ∧
      (primaryVarSwitchRounded fl impl self sol k pos).2.1
        = Function.update sol k (Function.update (sol k) SwitchIndex
            (self.problem_.multicomp.xWN
              (fl (sol k PwIndex + self.problem_.pC (fl (1 - sol k SwitchIndex)) k pos))
              (impl.temperature_ (sol k)))) ∧
      (primaryVarSwitchRounded fl impl self sol k pos).2.2 = true) ∧
    (¬ fl (1 - fl (1 - sol k SwitchIndex)) < -(fl 1e-5) →
      ¬ fl (1 - sol k SwitchIndex) < -(fl 1e-5) →
      primaryVarSwitchRounded fl impl self sol k pos = (self, sol, false)) := by
  refine ⟨?_, ?_, ?_⟩
  · intro h
    simp [primaryVarSwitchRounded, ht, h]
  · intro h1 h2
    simp [primaryVarSwitchRounded, ht, h1, h2]
  · intro h1 h2
    have heta := staticNodeDat_update_self self k _ ht
    simp [primaryVarSwitchRounded, ht, h1, h2, heta]

/-- The saturations that the rounded variable switch computes from a
saturation unknown `x` with `-1e-5 + 1e-15 <= x <= 1 + 1e-5 - 1e-15` are not
below the rounded tolerance. -/
theorem rounded_saturations_in_band (fl : Scalar → Scalar)
    (hfl : ∀ q, |fl q - q| ≤ |q| / 2 ^ 53) (x : Scalar)
    (h1 : -1e-5 + 1e-15 ≤ x) (h2 : x ≤ 1 + 1e-5 - 1e-15) :
    ¬ fl (1 - fl (1 - x)) < -(fl 1e-5) ∧ ¬ fl (1 - x) < -(fl 1e-5) := by
  obtain ⟨c1, c2⟩ := fl_bounds fl hfl 1e-5
  rw [abs_of_pos (by norm_num : (0 : Scalar) < 1e-5)] at c1 c2
  obtain ⟨w1, w2⟩ := fl_bounds fl hfl (1 - x)
  have hq1 : |1 - x| ≤ 1 + 1e-5 := by
    rw [abs_le]
    constructor <;> norm_num at h1 h2 ⊢ <;> linarith
  obtain ⟨n1, n2⟩ := fl_bounds fl hfl (1 - fl (1 - x))
  have hu : (0 : Scalar) < 1 / 2 ^ 53 := by positivity
  have hd1 : |1 - x| / 2 ^ 53 ≤ (1 + 1e-5) / 2 ^ 53 :=
    div_le_div_of_nonneg_right hq1 (by positivity)
  have hq2 : |1 - fl (1 - x)| ≤ 11 / 10 := by
    rw [abs_le]
    constructor <;> norm_num at h1 h2 hd1 ⊢ <;> linarith
  have hd2 : |1 - fl (1 - x)| / 2 ^ 53 ≤ (11 / 10) / 2 ^ 53 :=
    div_le_div_of_nonneg_right hq2 (by positivity)
  constructor
  · rw [not_lt]
    norm_num at h1 h2 hd1 hd2 c1 c2 ⊢
    linarith
  · rw [not_lt]
    norm_num at h1 h2 hd1 hd2 c1 c2 ⊢
    linarith

/-- The non-wetting saturation that the rounded variable switch computes from
a saturation unknown `x` with `-1 <= x <= -11e-6` is below the rounded
tolerance. -/
theorem rounded_saturation_below (fl : Scalar → Scalar)
    (hfl : ∀ q, |fl q - q| ≤ |q| / 2 ^ 53) (x : Scalar)
    (h1 : -1 ≤ x) (h2 : x ≤ -11e-6) :
    fl (1 - fl (1 - x)) < -(fl 1e-5) := by
  obtain ⟨c1, c2⟩ := fl_bounds fl hfl 1e-5
  rw [abs_of_pos (by norm_num : (0 : Scalar) < 1e-5)] at c1 c2
  obtain ⟨w1, w2⟩ := fl_bounds fl hfl (1 - x)
  have hq1 : |1 - x| ≤ 2 := by
    rw [abs_le]
    constructor <;> norm_num at h1 h2 ⊢ <;> linarith
  obtain ⟨n1, n2⟩ := fl_bounds fl hfl (1 - fl (1 - x))
  have hd1 : |1 - x| / 2 ^ 53 ≤ 2 / 2 ^ 53 :=
    div_le_div_of_nonneg_right hq1 (by positivity)
  have hq2 : |1 - fl (1 - x)| ≤ 11 / 10 := by
    rw [abs_le]
    constructor <;> norm_num at h1 h2 hd1 ⊢ <;> linarith
  have hd2 : |1 - fl (1 - x)| / 2 ^ 53 ≤ (11 / 10) / 2 ^ 53 :=
    div_le_div_of_nonneg_right hq2 (by positivity)
  norm_num at h1 h2 hd1 hd2 c1 c2 ⊢
  linarith

/-- Claim C26, refuted as stated: in the arithmetic of `double` a node in the
state `BothPhases` with the non-wetting saturation `x = -2^-16`, about
`-1.53e-5` and inside `[-2e-5, 1 + 2e-5]`, is moved to the state `WPhaseOnly`
and its switch unknown is overwritten with the solubility 1/100. -/
theorem primaryVarSwitchRounded_tolerance_not_2e5 :
    (-2e-5 : Scalar) ≤ -(1 / 2 ^ 16) ∧ (-(1 / 2 ^ 16) : Scalar) ≤ 1 + 2e-5 ∧
    (sampleJacobian.staticNodeDat_ 0).phaseState = BothPhases ∧
    ((primaryVarSwitchRounded roundDouble (TwoPTwoCBoxJacobian 1) sampleJacobian
      (fun _ => ![100000, -(1 / 2 ^ 16)]) 0 (fun _ => 0)).1.staticNodeDat_ 0).phaseState
      = WPhaseOnly ∧
    (primaryVarSwitchRounded roundDouble (TwoPTwoCBoxJacobian 1) sampleJacobian
      (fun _ => ![100000, -(1 / 2 ^ 16)]) 0 (fun _ => 0)).2.1 0 SwitchIndex = 1 / 100 ∧
    (primaryVarSwitchRounded roundDouble (TwoPTwoCBoxJacobian 1) sampleJacobian
      (fun _ => ![100000, -(1 / 2 ^ 16)]) 0 (fun _ => 0)).2.2 = true := by
  have hlt := rounded_saturation_below roundDouble roundDouble_error (-(1 / 2 ^ 16))
    (by norm_num) (by norm_num)
  obtain ⟨h1, h2, h3⟩ := (primaryVarSwitchRounded_BothPhases roundDouble (TwoPTwoCBoxJacobian 1)
    sampleJacobian (fun _ => ![100000, -(1 / 2 ^ 16)]) 0 (fun _ => 0) rfl).1
    (by simpa using hlt)
  refine ⟨by norm_num, by norm_num, rfl, h1, ?_, h3⟩
  rw [h2]
  simp [sampleJacobian, linearPcProblem]

/-- Claim C26, amended: the phase-disappearance triggers use the tolerance
`1e-5`, not `2e-5`, on the saturations that the code computes in `double`,
`satW = 1.0 - x` and `satN = 1 - satW`: a node in the state `BothPhases` whose
non-wetting saturation `x` satisfies `-1e-5 + 1e-15 <= x <= 1 + 1e-5 - 1e-15`
is left in `BothPhases` with its primary variables unchanged, and the switch
returns false. -/
theorem primaryVarSwitchRounded_stays_BothPhases {dim : Nat} (impl : Implementation dim)
    (self : TwoPTwoCBoxJacobianBase dim) (sol : SpatialFunction) (k : Nat) (pos : Coord dim)
    (ht : (self.staticNodeDat_ k).phaseState = BothPhases)
    (h1 : -1e-5 + 1e-15 ≤ sol k SwitchIndex) (h2 : sol k SwitchIndex ≤ 1 + 1e-5 - 1e-15) :
    primaryVarSwitchRounded roundDouble impl self sol k pos = (self, sol, false) := by
  obtain ⟨hN, hW⟩ := rounded_saturations_in_band roundDouble roundDouble_error
    (sol k SwitchIndex) h1 h2
  exact (primaryVarSwitchRounded_BothPhases roundDouble impl self sol k pos ht).2.2 hN hW

/-- The switch of C26 in `double` at the node 0 of the sample Jacobian with
the non-wetting saturation `-2^-17`, about `-7.6e-6`. -/
theorem primaryVarSwitchRounded_stays_BothPhases_witness :
    primaryVarSwitchRounded roundDouble (TwoPTwoCBoxJacobian 1) sampleJacobian
        (fun _ => ![100000, -(1 / 2 ^ 17)]) 0 (fun _ => 0)
      = (sampleJacobian, (fun _ => ![100000, -(1 / 2 ^ 17)]), false) :=
  primaryVarSwitchRounded_stays_BothPhases (TwoPTwoCBoxJacobian 1) sampleJacobian
    (fun _ => ![100000, -(1 / 2 ^ 17)]) 0 (fun _ => 0) rfl
    (by simp; norm_num) (by simp; norm_num)

/-! ## The storage term in `double` -/

/-- One rounding after an approximation: if `q'` approximates `q` with error
at most `c * P`, where `P` bounds `|q|`, then the rounding of `q'` with
relative error at most `u` approximates `q` with error at most
`((1 + u) * (1 + c) - 1) * P`. -/
theorem approx_fl (fl : Scalar → Scalar) (u : Scalar) (hfl : ∀ q, |fl q - q| ≤ u * |q|)
    (c P q' q : Scalar) (hu : 0 ≤ u) (h : |q' - q| ≤ c * P) (hq : |q| ≤ P) :
    |fl q' - q| ≤ ((1 + u) * (1 + c) - 1) * P := by
  have h1 : |fl q' - q| ≤ |fl q' - q'| + |q' - q| := by
    have := abs_add (fl q' - q') (q' - q)
    simpa using this
  have h2 : |q'| ≤ |q| + |q' - q| := by
    have := abs_add q (q' - q)
    simpa using this
  have h3 := hfl q'
  have h4 : u * |q'| ≤ u * (P + c * P) := mul_le_mul_of_nonneg_left (by linarith) hu
  have h5 : (1 + u) * (1 + c) - 1 = u + c + u * c := by ring
  rw [h5]
  nlinarith

/-- The error of one entry of the rounded storage term,
`fl (phi * fl (fl (fl (A * s) * X) + fl (fl (B * t) * Y)))`. -/
theorem rounded_storage_entry (fl : Scalar → Scalar) (u : Scalar) (hu : 0 ≤ u)
    (hfl : ∀ q, |fl q - q| ≤ u * |q|) (phi A s X B t Y : Scalar) :
    |fl (phi * fl (fl (fl (A * s) * X) + fl (fl (B * t) * Y)))
        - phi * (A * s * X + B * t * Y)|
      ≤ ((1 + u) ^ 4 - 1) * (|phi| * (|A * s * X| + |B * t * Y|)) := by
  have hc1 : (0 : Scalar) ≤ (1 + u) * (1 + 0) - 1 := by linarith
  have hc2 : (0 : Scalar) ≤ (1 + u) * (1 + ((1 + u) * (1 + 0) - 1)) - 1 := by nlinarith
  have hc3 : (0 : Scalar)
      ≤ (1 + u) * (1 + ((1 + u) * (1 + ((1 + u) * (1 + 0) - 1)) - 1)) - 1 := by nlinarith
  -- the products with the saturations
  have a1 : |fl (A * s) - A * s| ≤ ((1 + u) * (1 + 0) - 1) * |A * s| :=
    approx_fl fl u hfl 0 |A * s| (A * s) (A * s) hu (by simp) (le_refl _)
  have b1 : |fl (B * t) - B * t| ≤ ((1 + u) * (1 + 0) - 1) * |B * t| :=
    approx_fl fl u hfl 0 |B * t| (B * t) (B * t) hu (by simp) (le_refl _)
  -- the products with the mass fractions
  have a2 : |fl (A * s) * X - A * s * X| ≤ ((1 + u) * (1 + 0) - 1) * |A * s * X| := by
    have e : fl (A * s) * X - A * s * X = (fl (A * s) - A * s) * X := by ring
    rw [e, abs_mul, abs_mul (A * s) X, ← mul_assoc]
    exact mul_le_mul_of_nonneg_right a1 (abs_nonneg X)
  have b2 : |fl (B * t) * Y - B * t * Y| ≤ ((1 + u) * (1 + 0) - 1) * |B * t * Y| := by
    have e : fl (B * t) * Y - B * t * Y = (fl (B * t) - B * t) * Y := by ring
    rw [e, abs_mul, abs_mul (B * t) Y, ← mul_assoc]
    exact mul_le_mul_of_nonneg_right b1 (abs_nonneg Y)
  have a3 := approx_fl fl u hfl _ |A * s * X| (fl (A * s) * X) (A * s * X) hu a2 (le_refl _)
  have b3 := approx_fl fl u hfl _ |B * t * Y| (fl (B * t) * Y) (B * t * Y) hu b2 (le_refl _)
  -- the sum
  have s1 : |fl (fl (A * s) * X) + fl (fl (B * t) * Y) - (A * s * X + B * t * Y)|
      ≤ ((1 + u) * (1 + ((1 + u) * (1 + 0) - 1)) - 1) * (|A * s * X| + |B * t * Y|) := by
    have e : fl (fl (A * s) * X) + fl (fl (B * t) * Y) - (A * s * X + B * t * Y)
        = (fl (fl (A * s) * X) - A * s * X) + (fl (fl (B * t) * Y) - B * t * Y) := by ring
    rw [e]
    have := abs_add (fl (fl (A * s) * X) - A * s * X) (fl (fl (B * t) * Y) - B * t * Y)
    linarith
  have s2 := approx_fl fl u hfl _ (|A * s * X| + |B * t * Y|)
    (fl (fl (A * s) * X) + fl (fl (B * t) * Y)) (A * s * X + B * t * Y) hu s1
    (abs_add _ _)
  -- the product with the porosity
  have p1 : |phi * fl (fl (fl (A * s) * X) + fl (fl (B * t) * Y))
        - phi * (A * s * X + B * t * Y)|
      ≤ ((1 + u) * (1 + ((1 + u) * (1 + ((1 + u) * (1 + 0) - 1)) - 1)) - 1)
        * (|phi| * (|A * s * X| + |B * t * Y|)) := by
    have e : phi * fl (fl (fl (A * s) * X) + fl (fl (B * t) * Y))
        - phi * (A * s * X + B * t * Y)
        = phi * (fl (fl (fl (A * s) * X) + fl (fl (B * t) * Y))
          - (A * s * X + B * t * Y)) := by ring
    rw [e, abs_mul]
    have := mul_le_mul_of_nonneg_left s2 (abs_nonneg phi)
    linarith
  have p0 : |phi * (A * s * X + B * t * Y)| ≤ |phi| * (|A * s * X| + |B * t * Y|) := by
    rw [abs_mul]
    exact mul_le_mul_of_nonneg_left (abs_add _ _) (abs_nonneg phi)
  have p2 := approx_fl fl u hfl _ (|phi| * (|A * s * X| + |B * t * Y|))
    (phi * fl (fl (fl (A * s) * X) + fl (fl (B * t) * Y)))
    (phi * (A * s * X + B * t * Y)) hu p1 p0
  have e4 : (1 + u) * (1 + ((1 + u) * (1 + ((1 + u) * (1 + ((1 + u) * (1 + 0) - 1)) - 1)) - 1))
      - 1 = (1 + u) ^ 4 - 1 := by ring
  rw [e4] at p2
  exact p2

/-- The two entries of the rounded storage term of the isothermal local
Jacobian, for any rounding `fl`. -/
theorem localRateRounded_isothermal_apply {dim : Nat} (fl : Scalar → Scalar)
    (self : TwoPTwoCBoxJacobianBase dim) (result : UnknownsVector) (scvId : Nat)
    (usePrevSol : Bool) (c : VariableNodeData)
    (hc : (if usePrevSol then self.prevSolCache_ else self.curSolCache_).atSCV scvId = c) :
    localRateRounded fl (TwoPTwoCBoxJacobian dim) self result scvId usePrevSol PwIndex
      = fl (self.problem_.porosity self.curCell_ scvId *
          fl (fl (fl (c.density WPhaseIndex * c.satW) * c.massfrac WCompIndex WPhaseIndex)
            + fl (fl (c.density NPhaseIndex * c.satN) * c.massfrac WCompIndex NPhaseIndex))) ∧
    localRateRounded fl (TwoPTwoCBoxJacobian dim) self result scvId usePrevSol SwitchIndex
      = fl (self.problem_.porosity self.curCell_ scvId *
          fl (fl (fl (c.density NPhaseIndex * c.satN) * c.massfrac NCompIndex NPhaseIndex)
            + fl (fl (c.density WPhaseIndex * c.satW) * c.massfrac NCompIndex WPhaseIndex))) := by
  subst hc
  cases usePrevSol <;> simp [localRateRounded, TwoPTwoCBoxJacobian]

/-- The sum of the two entries of the rounded storage term against the total
mass, for a cache entry whose in-phase mass fractions are the roundings of 1
minus the cross fractions. -/
theorem rounded_storage_total (fl : Scalar → Scalar) (u : Scalar) (hu : 0 ≤ u)
    (hfl : ∀ q, |fl q - q| ≤ u * |q|) (phi A s B t Xww Xnw Xwn Xnn : Scalar)
    (hW : Xww = fl (1 - Xnw)) (hN : Xnn = fl (1 - Xwn)) :
    |fl (phi * fl (fl (fl (A * s) * Xww) + fl (fl (B * t) * Xwn)))
        + fl (phi * fl (fl (fl (B * t) * Xnn) + fl (fl (A * s) * Xnw)))
        - phi * (A * s + B * t)|
      ≤ ((1 + u) ^ 4 - 1) * (|phi| * (|A * s * Xww| + |B * t * Xwn|))
        + ((1 + u) ^ 4 - 1) * (|phi| * (|B * t * Xnn| + |A * s * Xnw|))
        + u * (|phi| * (|A * s| * |1 - Xnw| + |B * t| * |1 - Xwn|)) := by
  have e1 := rounded_storage_entry fl u hu hfl phi A s Xww B t Xwn
  have e2 := rounded_storage_entry fl u hu hfl phi B t Xnn A s Xnw
  have dW : |Xww - (1 - Xnw)| ≤ u * |1 - Xnw| := by
    rw [hW]
    exact hfl _
  have dN : |Xnn - (1 - Xwn)| ≤ u * |1 - Xwn| := by
    rw [hN]
    exact hfl _
  have e3 : |phi * (A * s * Xww + B * t * Xwn) + phi * (B * t * Xnn + A * s * Xnw)
      - phi * (A * s + B * t)|
      ≤ u * (|phi| * (|A * s| * |1 - Xnw| + |B * t| * |1 - Xwn|)) := by
    have e : phi * (A * s * Xww + B * t * Xwn) + phi * (B * t * Xnn + A * s * Xnw)
        - phi * (A * s + B * t)
        = phi * (A * s * (Xww - (1 - Xnw)) + B * t * (Xnn - (1 - Xwn))) := by ring
    rw [e, abs_mul]
    have h1 : |A * s * (Xww - (1 - Xnw)) + B * t * (Xnn - (1 - Xwn))|
        ≤ |A * s| * (u * |1 - Xnw|) + |B * t| * (u * |1 - Xwn|) := by
      have h2 := abs_add (A * s * (Xww - (1 - Xnw))) (B * t * (Xnn - (1 - Xwn)))
      rw [abs_mul (A * s), abs_mul (B * t)] at h2
      have h3 := mul_le_mul_of_nonneg_left dW (abs_nonneg (A * s))
      have h4 := mul_le_mul_of_nonneg_left dN (abs_nonneg (B * t))
      linarith
    have h5 := mul_le_mul_of_nonneg_left h1 (abs_nonneg phi)
    have h6 : |phi| * (|A * s| * (u * |1 - Xnw|) + |B * t| * (u * |1 - Xwn|))
        = u * (|phi| * (|A * s| * |1 - Xnw| + |B * t| * |1 - Xwn|)) := by ring
    linarith
  have e4 : fl (phi * fl (fl (fl (A * s) * Xww) + fl (fl (B * t) * Xwn)))
        + fl (phi * fl (fl (fl (B * t) * Xnn) + fl (fl (A * s) * Xnw)))
        - phi * (A * s + B * t)
      = (fl (phi * fl (fl (fl (A * s) * Xww) + fl (fl (B * t) * Xwn)))
          - phi * (A * s * Xww + B * t * Xwn))
        + (fl (phi * fl (fl (fl (B * t) * Xnn) + fl (fl (A * s) * Xnw)))
          - phi * (B * t * Xnn + A * s * Xnw))
        + (phi * (A * s * Xww + B * t * Xwn) + phi * (B * t * Xnn + A * s * Xnw)
          - phi * (A * s + B * t)) := by ring
  rw [e4]
  have t1 := abs_add
    ((fl (phi * fl (fl (fl (A * s) * Xww) + fl (fl (B * t) * Xwn)))
          - phi * (A * s * Xww + B * t * Xwn))
        + (fl (phi * fl (fl (fl (B * t) * Xnn) + fl (fl (A * s) * Xnw)))
          - phi * (B * t * Xnn + A * s * Xnw)))
    (phi * (A * s * Xww + B * t * Xwn) + phi * (B * t * Xnn + A * s * Xnw)
          - phi * (A * s + B * t))
  have t2 := abs_add
    (fl (phi * fl (fl (fl (A * s) * Xww) + fl (fl (B * t) * Xwn)))
          - phi * (A * s * Xww + B * t * Xwn))
    (fl (phi * fl (fl (fl (B * t) * Xnn) + fl (fl (A * s) * Xnw)))
          - phi * (B * t * Xnn + A * s * Xnw))
  linarith

/-- A cache entry that the rounded variable update returns comes from a valid
phase state, and is the entry described by `updateVarNodeDataRounded_spec`. -/
theorem updateVarNodeDataRounded_ok {dim : Nat} (fl : Scalar → Scalar) (d : VariableNodeData)
    (nodeSol : UnknownsVector) (phaseState : Int) (cell : Cell dim) (localIdx : Nat)
    (problem : Problem dim) (temperature : Scalar) (c : VariableNodeData)
    (hc : updateVarNodeDataRounded fl d nodeSol phaseState cell localIdx problem temperature
      = Except.ok c) :
    (phaseState = NPhaseOnly ∨ phaseState = WPhaseOnly ∨ phaseState = BothPhases) ∧
    c.satN = (if phaseState = BothPhases then nodeSol SwitchIndex
      else if phaseState = WPhaseOnly then 0 else 1) ∧
    c.satW = fl (1 - c.satN) ∧
    c.massfrac WCompIndex WPhaseIndex = fl (1 - c.massfrac NCompIndex WPhaseIndex) ∧
    c.massfrac NCompIndex NPhaseIndex = fl (1 - c.massfrac WCompIndex NPhaseIndex) := by
  have hv : phaseState = NPhaseOnly ∨ phaseState = WPhaseOnly ∨ phaseState = BothPhases := by
    by_contra hv
    have h0 : ¬ phaseState = NPhaseOnly := fun h => hv (Or.inl h)
    have h1 : ¬ phaseState = WPhaseOnly := fun h => hv (Or.inr (Or.inl h))
    have h2 : ¬ phaseState = BothPhases := fun h => hv (Or.inr (Or.inr h))
    simp [updateVarNodeDataRounded, h0, h1, h2] at hc
    cases hc
  obtain ⟨d', hd, -, hN, hW, hWW, hNN, -⟩ := updateVarNodeDataRounded_spec fl d nodeSol
    phaseState cell localIdx problem temperature hv
  rw [hc] at hd
  have hcd : c = d' := Except.ok.inj hd
  subst hcd
  exact ⟨hv, hN, hW, hWW, hNN⟩

/-- Claim C38, refuted as stated: in the arithmetic of `double`, for the
problem `unitProblem` with the porosity 1 and both densities 1, the cache
entry of the state `WPhaseOnly` with the switch unknown `-3 * 2^-55` has
`satW = 1` and `satN = 0`, and the two entries of the storage term are 1 and
`-3 * 2^-55`: they do not add up to `porosity * density_w = 1`, and the
`double` nearest to their sum is `1 - 2^-53`. -/
theorem localRateRounded_total_mass_fails :
    ∃ c, updateVarNodeDataRounded roundDouble zeroVarNodeData ![100000, -(3 / 2 ^ 55)]
        WPhaseOnly lineCell 0 unitProblem 283.15 = Except.ok c ∧
      unitProblem.porosity lineCell 0
        * (c.density WPhaseIndex * c.satW + c.density NPhaseIndex * c.satN) = 1 ∧
      localRateRounded roundDouble (TwoPTwoCBoxJacobian 1)
        (unitJacobian c)
        (fun _ => 0) 0 false PwIndex = 1 ∧
      localRateRounded roundDouble (TwoPTwoCBoxJacobian 1)
        (unitJacobian c)
        (fun _ => 0) 0 false SwitchIndex = -(3 / 2 ^ 55) ∧
      localRateRounded roundDouble (TwoPTwoCBoxJacobian 1)
          (unitJacobian c)
          (fun _ => 0) 0 false PwIndex
        + localRateRounded roundDouble (TwoPTwoCBoxJacobian 1)
          (unitJacobian c)
          (fun _ => 0) 0 false SwitchIndex ≠ 1 ∧
      roundDouble (localRateRounded roundDouble (TwoPTwoCBoxJacobian 1)
          (unitJacobian c)
          (fun _ => 0) 0 false PwIndex
        + localRateRounded roundDouble (TwoPTwoCBoxJacobian 1)
          (unitJacobian c)
          (fun _ => 0) 0 false SwitchIndex) = 1 - 1 / 2 ^ 53 := by
  obtain ⟨c, hc, -, hsN, hsW, hWW, hNN, hW, -, hdW, hdN⟩ := updateVarNodeDataRounded_spec
    roundDouble zeroVarNodeData ![100000, -(3 / 2 ^ 55)] WPhaseOnly lineCell 0 unitProblem
    283.15 (Or.inr (Or.inl rfl))
  have h1 : roundDouble (1 - -(3 / 2 ^ 55)) = 1 := by
    have h := roundDouble_of_near (1 - -(3 / 2 ^ 55)) 0 (2 ^ 52) (by norm_num) (by norm_num)
      (by norm_num) (by rw [abs_lt]; constructor <;> norm_num)
    rw [h]
    norm_num
  have h2 : roundDouble (1 + -(3 / 2 ^ 55)) = 1 - 1 / 2 ^ 53 := by
    have h := roundDouble_of_near (1 + -(3 / 2 ^ 55)) (-1) (2 ^ 53 - 1) (by norm_num)
      (by norm_num) (by norm_num) (by rw [abs_lt]; constructor <;> norm_num)
    rw [h]
    norm_num
  have hx : roundDouble (-(3 / 2 ^ 55)) = -(3 / 2 ^ 55) := by
    have h := roundDouble_of_near_abs (-(3 / 2 ^ 55)) (-54) (-(3 * 2 ^ 51))
      (by rw [abs_neg, abs_of_pos (by norm_num)]; norm_num)
      (by rw [abs_neg, abs_of_pos (by norm_num)]; norm_num)
      (by rw [abs_lt]; constructor <;> norm_num)
    rw [h]
    norm_num
  have hsatN : c.satN = 0 := by
    rw [hsN]
    simp
  have hsatW : c.satW = 1 := by
    rw [hsW, hsatN]
    simp [roundDouble_one]
  have hXwn : c.massfrac WCompIndex NPhaseIndex = 0 := (hW rfl).1
  have hXnw : c.massfrac NCompIndex WPhaseIndex = -(3 / 2 ^ 55) := by
    rw [(hW rfl).2]
    simp
  have hXww : c.massfrac WCompIndex WPhaseIndex = 1 := by
    rw [hWW, hXnw, h1]
  have hXnn : c.massfrac NCompIndex NPhaseIndex = 1 := by
    rw [hNN, hXwn]
    simp [roundDouble_one]
  have hrw : c.density WPhaseIndex = 1 := by
    rw [hdW]
    rfl
  have hrn : c.density NPhaseIndex = 1 := by
    rw [hdN]
    rfl
  obtain ⟨eW, eN⟩ := localRateRounded_isothermal_apply roundDouble
    (unitJacobian c)
    (fun _ => 0) 0 false c rfl
  have hphi : (unitJacobian c).problem_.porosity
      (unitJacobian c).curCell_ 0
      = 1 := rfl
  rw [hphi, hsatW, hsatN, hXww, hXwn, hrw, hrn] at eW
  rw [hphi, hsatW, hsatN, hXnn, hXnw, hrw, hrn] at eN
  have eW' : localRateRounded roundDouble (TwoPTwoCBoxJacobian 1)
      (unitJacobian c)
      (fun _ => 0) 0 false PwIndex = 1 := by
    rw [eW]
    simp [roundDouble_one, roundDouble_zero]
  have eN' : localRateRounded roundDouble (TwoPTwoCBoxJacobian 1)
      (unitJacobian c)
      (fun _ => 0) 0 false SwitchIndex = -(3 / 2 ^ 55) := by
    rw [eN]
    simp [roundDouble_one, roundDouble_zero, hx]
  refine ⟨c, hc, ?_, eW', eN', ?_, ?_⟩
  · rw [hsatW, hsatN, hrw, hrn]
    simp [unitProblem]
  · rw [eW', eN']
    norm_num
  · rw [eW', eN', h2]

/-- Claim C38, amended: in the arithmetic of `double`, for a cache entry `c`
that the variable update returns, the two entries of the isothermal storage
term add up to `porosity * (density_w * satW + density_n * satN)` up to
rounding: the difference is at most `2^-50 * |porosity|` times
`|density_w * satW| * (|X_ww| + |X_nw| + |1 - X_nw|)
+ |density_n * satN| * (|X_wn| + |X_nn| + |1 - X_wn|)`; in the state
`WPhaseOnly` the sum is `porosity * density_w` and in the state `NPhaseOnly`
`porosity * density_n`, up to the same bound. -/
theorem localRateRounded_total_mass {dim : Nat} (d : VariableNodeData)
    (nodeSol : UnknownsVector) (phaseState : Int) (cell : Cell dim) (localIdx : Nat)
    (problem : Problem dim) (temperature : Scalar) (self : TwoPTwoCBoxJacobianBase dim)
    (result : UnknownsVector) (scvId : Nat) (usePrevSol : Bool) (c : VariableNodeData)
    (hc : updateVarNodeDataRounded roundDouble d nodeSol phaseState cell localIdx problem
      temperature = Except.ok c)
    (hcache : (if usePrevSol then self.prevSolCache_ else self.curSolCache_).atSCV scvId = c) :
    |localRateRounded roundDouble (TwoPTwoCBoxJacobian dim) self result scvId usePrevSol PwIndex
        + localRateRounded roundDouble (TwoPTwoCBoxJacobian dim) self result scvId usePrevSol
          SwitchIndex
        - self.problem_.porosity self.curCell_ scvId *
          (c.density WPhaseIndex * c.satW + c.density NPhaseIndex * c.satN)|
      ≤ 1 / 2 ^ 50 * (|self.problem_.porosity self.curCell_ scvId| *
          (|c.density WPhaseIndex * c.satW| *
              (|c.massfrac WCompIndex WPhaseIndex| + |c.massfrac NCompIndex WPhaseIndex|
                + |1 - c.massfrac NCompIndex WPhaseIndex|)
            + |c.density NPhaseIndex * c.satN| *
              (|c.massfrac WCompIndex NPhaseIndex| + |c.massfrac NCompIndex NPhaseIndex|
                + |1 - c.massfrac WCompIndex NPhaseIndex|))) ∧
    (phaseState = WPhaseOnly →
      |localRateRounded roundDouble (TwoPTwoCBoxJacobian dim) self result scvId usePrevSol
            PwIndex
          + localRateRounded roundDouble (TwoPTwoCBoxJacobian dim) self result scvId
            usePrevSol SwitchIndex
          - self.problem_.porosity self.curCell_ scvId * c.density WPhaseIndex|
        ≤ 1 / 2 ^ 50 * (|self.problem_.porosity self.curCell_ scvId| *
            (|c.density WPhaseIndex| *
              (|c.massfrac WCompIndex WPhaseIndex| + |c.massfrac NCompIndex WPhaseIndex|
                + |1 - c.massfrac NCompIndex WPhaseIndex|)))) ∧
    (phaseState = NPhaseOnly →
      |localRateRounded roundDouble (TwoPTwoCBoxJacobian dim) self result scvId usePrevSol
            PwIndex
          + localRateRounded roundDouble (TwoPTwoCBoxJacobian dim) self result scvId
            usePrevSol SwitchIndex
          - self.problem_.porosity self.curCell_ scvId * c.density NPhaseIndex|
        ≤ 1 / 2 ^ 50 * (|self.problem_.porosity self.curCell_ scvId| *
            (|c.density NPhaseIndex| *
              (|c.massfrac WCompIndex NPhaseIndex| + |c.massfrac NCompIndex NPhaseIndex|
                + |1 - c.massfrac WCompIndex NPhaseIndex|)))) := by
  obtain ⟨-, hsN, hsW, hWW, hNN⟩ := updateVarNodeDataRounded_ok roundDouble d nodeSol
    phaseState cell localIdx problem temperature c hc
  obtain ⟨eW, eN⟩ := localRateRounded_isothermal_apply roundDouble self result scvId
    usePrevSol c hcache
  have hfl : ∀ q, |roundDouble q - q| ≤ 1 / 2 ^ 53 * |q| := by
    intro q
    have h := roundDouble_error q
    have e : |q| / 2 ^ 53 = 1 / 2 ^ 53 * |q| := by ring
    rw [e] at h
    exact h
  have ht := rounded_storage_total roundDouble (1 / 2 ^ 53) (by norm_num) hfl
    (self.problem_.porosity self.curCell_ scvId) (c.density WPhaseIndex) c.satW
    (c.density NPhaseIndex) c.satN (c.massfrac WCompIndex WPhaseIndex)
    (c.massfrac NCompIndex WPhaseIndex) (c.massfrac WCompIndex NPhaseIndex)
    (c.massfrac NCompIndex NPhaseIndex) hWW hNN
  rw [← eW, ← eN] at ht
  have hc4 : ((1 : Scalar) + 1 / 2 ^ 53) ^ 4 - 1 ≤ 1 / 2 ^ 50 := by norm_num
  have hc1 : (1 : Scalar) / 2 ^ 53 ≤ 1 / 2 ^ 50 := by norm_num
  have hmain : |localRateRounded roundDouble (TwoPTwoCBoxJacobian dim) self result scvId
        usePrevSol PwIndex
        + localRateRounded roundDouble (TwoPTwoCBoxJacobian dim) self result scvId usePrevSol
          SwitchIndex
        - self.problem_.porosity self.curCell_ scvId *
          (c.density WPhaseIndex * c.satW + c.density NPhaseIndex * c.satN)|
      ≤ 1 / 2 ^ 50 * (|self.problem_.porosity self.curCell_ scvId| *
          (|c.density WPhaseIndex * c.satW| *
              (|c.massfrac WCompIndex WPhaseIndex| + |c.massfrac NCompIndex WPhaseIndex|
                + |1 - c.massfrac NCompIndex WPhaseIndex|)
            + |c.density NPhaseIndex * c.satN| *
              (|c.massfrac WCompIndex NPhaseIndex| + |c.massfrac NCompIndex NPhaseIndex|
                + |1 - c.massfrac WCompIndex NPhaseIndex|))) := by
    rw [abs_mul (c.density WPhaseIndex * c.satW) (c.massfrac WCompIndex WPhaseIndex),
      abs_mul (c.density NPhaseIndex * c.satN) (c.massfrac WCompIndex NPhaseIndex),
      abs_mul (c.density NPhaseIndex * c.satN) (c.massfrac NCompIndex NPhaseIndex),
      abs_mul (c.density WPhaseIndex * c.satW) (c.massfrac NCompIndex WPhaseIndex)] at ht
    have n1 : 0 ≤ |self.problem_.porosity self.curCell_ scvId| *
        (|c.density WPhaseIndex * c.satW| * |c.massfrac WCompIndex WPhaseIndex|
          + |c.density NPhaseIndex * c.satN| * |c.massfrac WCompIndex NPhaseIndex|) := by
      positivity
    have n2 : 0 ≤ |self.problem_.porosity self.curCell_ scvId| *
        (|c.density NPhaseIndex * c.satN| * |c.massfrac NCompIndex NPhaseIndex|
          + |c.density WPhaseIndex * c.satW| * |c.massfrac NCompIndex WPhaseIndex|) := by
      positivity
    have n3 : 0 ≤ |self.problem_.porosity self.curCell_ scvId| *
        (|c.density WPhaseIndex * c.satW| * |1 - c.massfrac NCompIndex WPhaseIndex|
          + |c.density NPhaseIndex * c.satN| * |1 - c.massfrac WCompIndex NPhaseIndex|) := by
      positivity
    have m1 := mul_le_mul_of_nonneg_right hc4 n1
    have m2 := mul_le_mul_of_nonneg_right hc4 n2
    have m3 := mul_le_mul_of_nonneg_right hc1 n3
    linarith
  refine ⟨hmain, ?_, ?_⟩
  · intro hp
    have hN0 : c.satN = 0 := by
      rw [hsN, hp]
      simp
    have hW1 : c.satW = 1 := by
      rw [hsW, hN0]
      simp [roundDouble_one]
    rw [hN0, hW1] at hmain
    simpa using hmain
  · intro hp
    have hN1 : c.satN = 1 := by
      rw [hsN, hp]
      simp
    have hW0 : c.satW = 0 := by
      rw [hsW, hN1]
      simp [roundDouble_zero]
    rw [hN1, hW0] at hmain
    simpa using hmain

/-- The bound of C38 in `double` for the cache entry of the counterexample,
the state `WPhaseOnly` with the switch unknown `-3 * 2^-55` for the problem
`unitProblem`. -/
theorem localRateRounded_total_mass_witness :
    ∃ c, updateVarNodeDataRounded roundDouble zeroVarNodeData ![100000, -(3 / 2 ^ 55)]
        WPhaseOnly lineCell 0 unitProblem 283.15 = Except.ok c ∧
      |localRateRounded roundDouble (TwoPTwoCBoxJacobian 1)
          (unitJacobian c)
          (fun _ => 0) 0 false PwIndex
        + localRateRounded roundDouble (TwoPTwoCBoxJacobian 1)
          (unitJacobian c)
          (fun _ => 0) 0 false SwitchIndex
        - (unitJacobian c).problem_.porosity lineCell 0 * c.density WPhaseIndex|
        ≤ 1 / 2 ^ 50 * (|(unitJacobian c).problem_.porosity lineCell 0| *
            (|c.density WPhaseIndex| *
              (|c.massfrac WCompIndex WPhaseIndex| + |c.massfrac NCompIndex WPhaseIndex|
                + |1 - c.massfrac NCompIndex WPhaseIndex|))) := by
  obtain ⟨c, hc, -⟩ := updateVarNodeDataRounded_spec roundDouble zeroVarNodeData
    ![100000, -(3 / 2 ^ 55)] WPhaseOnly lineCell 0 unitProblem 283.15 (Or.inr (Or.inl rfl))
  exact ⟨c, hc, (localRateRounded_total_mass zeroVarNodeData ![100000, -(3 / 2 ^ 55)]
    WPhaseOnly lineCell 0 unitProblem 283.15
    (unitJacobian c)
    (fun _ => 0) 0 false c hc rfl).2.1 rfl⟩

/-! ## The flux term in `double` -/

/-- The pressure gradient that the rounded loop of `fluxRate` accumulates, for
one phase and one coordinate: every product and every sum is rounded. -/
theorem fluxRateGradStepRounded_fold_pGrad {dim : Nat} (fl : Scalar → Scalar)
    (impl : Implementation dim) (self : TwoPTwoCBoxJacobianBase dim) (faceId : Nat)
    (g : FluxGradients dim) (phase : Fin NumPhases) (d : Fin dim) (n : Nat) :
    ((List.range n).foldl (fluxRateGradStepRounded fl impl self faceId) g).pGrad phase d
      = (List.range n).foldl
          (fun acc k => fl (acc + fl ((self.curCellGeom_.subContVolFace faceId).grad k d *
            (if phase = WPhaseIndex then (self.curSolCache_.atSCV k).pW
             else (self.curSolCache_.atSCV k).pN))))
          (g.pGrad phase d) := by
  induction n with
  | zero => simp
  | succ n ih =>
    rw [List.range_succ, List.foldl_append, List.foldl_append, List.foldl_cons, List.foldl_nil,
      List.foldl_cons, List.foldl_nil, ← ih]
    simp only [fluxRateGradStepRounded]
    fin_cases phase <;> simp

/-- The error of a sum accumulated with rounding: each term is rounded and
added to the rounded partial sum. -/
theorem rounded_accumulate (fl : Scalar → Scalar) (u : Scalar) (hu : 0 ≤ u)
    (hfl : ∀ q, |fl q - q| ≤ u * |q|) (t : Nat → Scalar) (n : Nat) :
    |(List.range n).foldl (fun acc k => fl (acc + fl (t k))) 0 - ∑ k in Finset.range n, t k|
      ≤ ((1 + u) ^ (n + 1) - 1) * ∑ k in Finset.range n, |t k| := by
  induction n with
  | zero => simp
  | succ n ih =>
    rw [List.range_succ, List.foldl_append, List.foldl_cons, List.foldl_nil,
      Finset.sum_range_succ, Finset.sum_range_succ]
    generalize (List.range n).foldl (fun acc k => fl (acc + fl (t k))) 0 = S at ih ⊢
    have hT : |∑ k in Finset.range n, t k| ≤ ∑ k in Finset.range n, |t k| :=
      Finset.abs_sum_le_sum_abs _ _
    have hA : 0 ≤ ∑ k in Finset.range n, |t k| := Finset.sum_nonneg (fun _ _ => abs_nonneg _)
    generalize (∑ k in Finset.range n, t k) = T at ih hT ⊢
    generalize (∑ k in Finset.range n, |t k|) = A at ih hT hA ⊢
    have ha : |fl (t n) - t n| ≤ u * |t n| := hfl _
    have hpow : 1 + u ≤ (1 + u) ^ (n + 1) := by
      have h1 : (1 : Scalar) ≤ 1 + u := by linarith
      calc 1 + u = (1 + u) ^ 1 := (pow_one _).symm
        _ ≤ (1 + u) ^ (n + 1) := pow_le_pow_right₀ h1 (by omega)
    have hcu : u ≤ (1 + u) ^ (n + 1) - 1 := by linarith
    have h1 : |S + fl (t n) - (T + t n)| ≤ ((1 + u) ^ (n + 1) - 1) * (A + |t n|) := by
      have e : S + fl (t n) - (T + t n) = (S - T) + (fl (t n) - t n) := by ring
      rw [e]
      have h2 := abs_add (S - T) (fl (t n) - t n)
      have h3 : u * |t n| ≤ ((1 + u) ^ (n + 1) - 1) * |t n| :=
        mul_le_mul_of_nonneg_right hcu (abs_nonneg _)
      have h4 : ((1 + u) ^ (n + 1) - 1) * (A + |t n|)
          = ((1 + u) ^ (n + 1) - 1) * A + ((1 + u) ^ (n + 1) - 1) * |t n| := by ring
      linarith
    have h2 : |T + t n| ≤ A + |t n| := le_trans (abs_add _ _) (by linarith)
    have h3 := approx_fl fl u hfl _ (A + |t n|) (S + fl (t n)) (T + t n) hu h1 h2
    have e : (1 + u) * (1 + ((1 + u) ^ (n + 1) - 1)) - 1 = (1 + u) ^ (n + 1 + 1) - 1 := by
      ring
    rw [e] at h3
    exact h3

/-- A fold from zero with a step that maps zero to zero gives zero. -/
theorem foldl_zero_of_step {α : Type} (g : Scalar → α → Scalar) (hg : ∀ c, g 0 c = 0)
    (l : List α) : l.foldl g 0 = 0 := by
  induction l with
  | nil => rfl
  | cons a l ih =>
    rw [List.foldl_cons, hg]
    exact ih

/-- The rounded product of a tensor with the zero vector is the zero vector. -/
theorem mvRounded_zero {dim : Nat} (fl : Scalar → Scalar) (h0 : fl 0 = 0) (K : Tensor dim) :
    Tensor.mvRounded fl K (fun _ => 0) = fun _ => 0 := by
  funext r
  unfold Tensor.mvRounded
  exact foldl_zero_of_step _ (fun c => by simp [h0]) _

/-- The rounded scalar product of the zero vector with a vector is zero. -/
theorem dotRounded_zero {dim : Nat} (fl : Scalar → Scalar) (h0 : fl 0 = 0) (b : Coord dim) :
    Coord.dotRounded fl (fun _ => 0) b = 0 := by
  unfold Coord.dotRounded
  exact foldl_zero_of_step _ (fun c => by simp [h0]) _

/-- If the pressure gradients that the rounded `fluxRate` computes at a face
are zero, both rounded Darcy fluxes are zero and the rounded isothermal flux
is zero in both equations. -/
theorem fluxRateRounded_zero_gradient {dim : Nat} (fl : Scalar → Scalar) (h0 : fl 0 = 0)
    (self : TwoPTwoCBoxJacobianBase dim) (flux : UnknownsVector) (faceId : Nat)
    (hz : ∀ phase d,
      (fluxRateGradientsRounded fl (TwoPTwoCBoxJacobian dim) self faceId).pGrad phase d = 0) :
    (∀ phase, fluxRateDarcyRounded fl (TwoPTwoCBoxJacobian dim) self faceId phase = 0) ∧
    fluxRateRounded fl (TwoPTwoCBoxJacobian dim) self flux faceId = fun _ => 0 := by
  have hv : ∀ phase, fluxRateDarcyRounded fl (TwoPTwoCBoxJacobian dim) self faceId phase = 0 := by
    intro phase
    have hg : (fluxRateGradientsRounded fl (TwoPTwoCBoxJacobian dim) self faceId).pGrad phase
        = fun _ => 0 := funext (hz phase)
    simp only [fluxRateDarcyRounded]
    rw [hg, mvRounded_zero fl h0, dotRounded_zero fl h0]
  refine ⟨hv, ?_⟩
  funext idx
  simp only [fluxRateRounded, hv]
  fin_cases idx <;> simp [TwoPTwoCBoxJacobian, h0]

/-- The bound of the pressure gradient that the rounded `fluxRate` computes at
a face whose gradient weights add up to zero, with zero gravity and the same
pressure `p0` of the phase at all nodes of the cell. -/
theorem fluxRateGradientsRounded_bound {dim : Nat} (fl : Scalar → Scalar) (u : Scalar)
    (hu : 0 ≤ u) (hfl : ∀ q, |fl q - q| ≤ u * |q|) (impl : Implementation dim)
    (self : TwoPTwoCBoxJacobianBase dim) (faceId : Nat) (phase : Fin NumPhases) (p0 : Scalar)
    (hgrad : ∀ d, ∑ k in Finset.range self.curCellGeom_.nNodes,
      (self.curCellGeom_.subContVolFace faceId).grad k d = 0)
    (hgrav : ∀ d, self.problem_.gravity d = 0)
    (hp : ∀ k, k < self.curCellGeom_.nNodes →
      (if phase = WPhaseIndex then (self.curSolCache_.atSCV k).pW
       else (self.curSolCache_.atSCV k).pN) = p0)
    (d : Fin dim) :
    |(fluxRateGradientsRounded fl impl self faceId).pGrad phase d|
      ≤ ((1 + u) ^ (self.curCellGeom_.nNodes + 2) - 1) *
        (|p0| * ∑ k in Finset.range self.curCellGeom_.nNodes,
          |(self.curCellGeom_.subContVolFace faceId).grad k d|) := by
  have h0 : fl 0 = 0 := by
    have h := hfl 0
    simp only [sub_zero, abs_zero, mul_zero] at h
    exact abs_nonpos_iff.mp h
  have hacc := rounded_accumulate fl u hu hfl
    (fun k => (self.curCellGeom_.subContVolFace faceId).grad k d *
      (if phase = WPhaseIndex then (self.curSolCache_.atSCV k).pW
       else (self.curSolCache_.atSCV k).pN)) self.curCellGeom_.nNodes
  have hT : ∑ k in Finset.range self.curCellGeom_.nNodes,
      (self.curCellGeom_.subContVolFace faceId).grad k d *
        (if phase = WPhaseIndex then (self.curSolCache_.atSCV k).pW
         else (self.curSolCache_.atSCV k).pN) = 0 := by
    have h1 : ∑ k in Finset.range self.curCellGeom_.nNodes,
        (self.curCellGeom_.subContVolFace faceId).grad k d *
          (if phase = WPhaseIndex then (self.curSolCache_.atSCV k).pW
           else (self.curSolCache_.atSCV k).pN)
        = ∑ k in Finset.range self.curCellGeom_.nNodes,
          (self.curCellGeom_.subContVolFace faceId).grad k d * p0 := by
      apply Finset.sum_congr rfl
      intro k hk
      rw [hp k (Finset.mem_range.mp hk)]
    rw [h1, ← Finset.sum_mul, hgrad d, zero_mul]
  have hA : ∑ k in Finset.range self.curCellGeom_.nNodes,
      |(self.curCellGeom_.subContVolFace faceId).grad k d *
        (if phase = WPhaseIndex then (self.curSolCache_.atSCV k).pW
         else (self.curSolCache_.atSCV k).pN)|
      = |p0| * ∑ k in Finset.range self.curCellGeom_.nNodes,
          |(self.curCellGeom_.subContVolFace faceId).grad k d| := by
    rw [Finset.mul_sum]
    apply Finset.sum_congr rfl
    intro k hk
    rw [hp k (Finset.mem_range.mp hk), abs_mul, mul_comm]
  simp only [] at hacc
  rw [hT, hA] at hacc
  have hloop : (fluxRateGradLoopRounded fl impl self faceId).pGrad phase d
      = (List.range self.curCellGeom_.nNodes).foldl
          (fun acc k => fl (acc + fl ((self.curCellGeom_.subContVolFace faceId).grad k d *
            (if phase = WPhaseIndex then (self.curSolCache_.atSCV k).pW
             else (self.curSolCache_.atSCV k).pN)))) 0 := by
    unfold fluxRateGradLoopRounded
    rw [fluxRateGradStepRounded_fold_pGrad]
  have hfin : (fluxRateGradientsRounded fl impl self faceId).pGrad phase d
      = fl ((fluxRateGradLoopRounded fl impl self faceId).pGrad phase d) := by
    simp only [fluxRateGradientsRounded]
    rw [hgrav d, zero_mul, h0, sub_zero]
  rw [hfin, hloop]
  generalize (List.range self.curCellGeom_.nNodes).foldl
    (fun acc k => fl (acc + fl ((self.curCellGeom_.subContVolFace faceId).grad k d *
      (if phase = WPhaseIndex then (self.curSolCache_.atSCV k).pW
       else (self.curSolCache_.atSCV k).pN)))) 0 = L at hacc ⊢
  have hA0 : 0 ≤ |p0| * ∑ k in Finset.range self.curCellGeom_.nNodes,
      |(self.curCellGeom_.subContVolFace faceId).grad k d| :=
    mul_nonneg (abs_nonneg _) (Finset.sum_nonneg (fun _ _ => abs_nonneg _))
  have h3 := approx_fl fl u hfl _ _ L 0 hu hacc (by simpa using hA0)
  have e : (1 + u) * (1 + ((1 + u) ^ (self.curCellGeom_.nNodes + 1) - 1)) - 1
      = (1 + u) ^ (self.curCellGeom_.nNodes + 2) - 1 := by ring
  rw [e] at h3
  simpa using h3

/-- The `double` `-2^-51`. -/
theorem roundDouble_neg_two_pow :
    roundDouble (-(1 / 2 ^ 51)) = -(1 / 2 ^ 51) := by
  have h := roundDouble_of_near_abs (-(1 / 2 ^ 51)) (-51) (-(2 ^ 52))
    (by rw [abs_neg, abs_of_pos (by norm_num)]; norm_num)
    (by rw [abs_neg, abs_of_pos (by norm_num)]; norm_num)
    (by rw [abs_lt]; constructor <;> norm_num)
  rw [h]
  norm_num

/-- The pressure gradient that `fluxRate` computes in `double` at the face of
`skewCellGeom` with the pressure `3 + 2^-51` at all nodes: `-2^-51`. -/
theorem fluxRateGradientsRounded_skew (phase : Fin NumPhases) :
    (fluxRateGradientsRounded roundDouble (TwoPTwoCBoxJacobian 1)
      (uniformJacobian skewCellGeom (3 + 1 / 2 ^ 51)) 0).pGrad phase 0 = -(1 / 2 ^ 51) := by
  have hdef : (fluxRateGradientsRounded roundDouble (TwoPTwoCBoxJacobian 1)
      (uniformJacobian skewCellGeom (3 + 1 / 2 ^ 51)) 0).pGrad phase 0
      = roundDouble (roundDouble (roundDouble (roundDouble (0
            + roundDouble (2 * (3 + 1 / 2 ^ 51)))
          + roundDouble (-3 * (3 + 1 / 2 ^ 51)))
          + roundDouble (1 * (3 + 1 / 2 ^ 51)))
        - roundDouble (0 * 1)) := by
    fin_cases phase <;> rfl
  have hr1 : roundDouble (2 * (3 + 1 / 2 ^ 51)) = 6 + 1 / 2 ^ 50 := by
    have h := roundDouble_of_near (2 * (3 + 1 / 2 ^ 51)) 2 (6 * 2 ^ 50 + 1)
      (by norm_num) (by norm_num) (by norm_num) (by rw [abs_lt]; constructor <;> norm_num)
    rw [h]
    norm_num
  have hz1 : roundDouble (6 + 1 / 2 ^ 50) = 6 + 1 / 2 ^ 50 := by
    have h := roundDouble_of_near (6 + 1 / 2 ^ 50) 2 (6 * 2 ^ 50 + 1)
      (by norm_num) (by norm_num) (by norm_num) (by rw [abs_lt]; constructor <;> norm_num)
    rw [h]
    norm_num
  have hr2 : roundDouble (-3 * (3 + 1 / 2 ^ 51)) = -(9 + 1 / 2 ^ 49) := by
    have h := roundDouble_of_near_abs (-3 * (3 + 1 / 2 ^ 51)) 3 (-(9 * 2 ^ 49 + 1))
      (by rw [abs_of_neg (by norm_num)]; norm_num)
      (by rw [abs_of_neg (by norm_num)]; norm_num)
      (by rw [abs_lt]; constructor <;> norm_num)
    rw [h]
    norm_num
  have hs2 : roundDouble (6 + 1 / 2 ^ 50 + -(9 + 1 / 2 ^ 49)) = -(3 + 1 / 2 ^ 50) := by
    have h := roundDouble_of_near_abs (6 + 1 / 2 ^ 50 + -(9 + 1 / 2 ^ 49)) 1
      (-(3 * 2 ^ 51 + 2))
      (by rw [abs_of_neg (by norm_num)]; norm_num)
      (by rw [abs_of_neg (by norm_num)]; norm_num)
      (by rw [abs_lt]; constructor <;> norm_num)
    rw [h]
    norm_num
  have hr3 : roundDouble (1 * (3 + 1 / 2 ^ 51)) = 3 + 1 / 2 ^ 51 := by
    have h := roundDouble_of_near (1 * (3 + 1 / 2 ^ 51)) 1 (3 * 2 ^ 51 + 1)
      (by norm_num) (by norm_num) (by norm_num) (by rw [abs_lt]; constructor <;> norm_num)
    rw [h]
    norm_num
  have hs3 : roundDouble (-(3 + 1 / 2 ^ 50) + (3 + 1 / 2 ^ 51)) = -(1 / 2 ^ 51) := by
    have h := roundDouble_of_near_abs (-(3 + 1 / 2 ^ 50) + (3 + 1 / 2 ^ 51)) (-51) (-(2 ^ 52))
      (by rw [abs_of_neg (by norm_num)]; norm_num)
      (by rw [abs_of_neg (by norm_num)]; norm_num)
      (by rw [abs_lt]; constructor <;> norm_num)
    rw [h]
    norm_num
  rw [hdef, hr1, zero_add, hz1, hr2, hs2, hr3, hs3, zero_mul, roundDouble_zero, sub_zero,
    roundDouble_neg_two_pow]

/-- Claim C40, refuted as stated: in the arithmetic of `double`, at the face
of `skewCellGeom`, whose gradient weights 2, -3 and 1 add up to zero, with
zero gravity and the pressures `pW = pN = 3 + 2^-51` at all nodes, the product
`-3 * p` is rounded, the accumulated pressure gradient is `-2^-51`, both Darcy
fluxes are `-2^-51` and both entries of the flux are `-2^-51`, not zero. -/
theorem fluxRateRounded_no_force_fails :
    (∀ d, ∑ k in Finset.range (uniformJacobian skewCellGeom (3 + 1 / 2 ^ 51)).curCellGeom_.nNodes,
      ((uniformJacobian skewCellGeom (3 + 1 / 2 ^ 51)).curCellGeom_.subContVolFace 0).grad k d
        = 0) ∧
    (∀ d, (uniformJacobian skewCellGeom (3 + 1 / 2 ^ 51)).problem_.gravity d = 0) ∧
    (∀ k, ((uniformJacobian skewCellGeom (3 + 1 / 2 ^ 51)).curSolCache_.atSCV k).pW
        = 3 + 1 / 2 ^ 51 ∧
      ((uniformJacobian skewCellGeom (3 + 1 / 2 ^ 51)).curSolCache_.atSCV k).pN
        = 3 + 1 / 2 ^ 51) ∧
    fluxRateDarcyRounded roundDouble (TwoPTwoCBoxJacobian 1)
      (uniformJacobian skewCellGeom (3 + 1 / 2 ^ 51)) 0 WPhaseIndex = -(1 / 2 ^ 51) ∧
    fluxRateDarcyRounded roundDouble (TwoPTwoCBoxJacobian 1)
      (uniformJacobian skewCellGeom (3 + 1 / 2 ^ 51)) 0 NPhaseIndex = -(1 / 2 ^ 51) ∧
    fluxRateRounded roundDouble (TwoPTwoCBoxJacobian 1)
      (uniformJacobian skewCellGeom (3 + 1 / 2 ^ 51)) (fun _ => 0) 0 PwIndex
        = -(1 / 2 ^ 51) ∧
    fluxRateRounded roundDouble (TwoPTwoCBoxJacobian 1)
      (uniformJacobian skewCellGeom (3 + 1 / 2 ^ 51)) (fun _ => 0) 0 SwitchIndex
        = -(1 / 2 ^ 51) := by
  have hD : ∀ phase, fluxRateDarcyRounded roundDouble (TwoPTwoCBoxJacobian 1)
      (uniformJacobian skewCellGeom (3 + 1 / 2 ^ 51)) 0 phase = -(1 / 2 ^ 51) := by
    intro phase
    have hdef : fluxRateDarcyRounded roundDouble (TwoPTwoCBoxJacobian 1)
        (uniformJacobian skewCellGeom (3 + 1 / 2 ^ 51)) 0 phase
        = roundDouble (0 + roundDouble (roundDouble (0 + roundDouble (
            harmonicMeanKRounded roundDouble (fun _ _ => 1 : Tensor 1) (fun _ _ => 1) 0 0
            * (fluxRateGradientsRounded roundDouble (TwoPTwoCBoxJacobian 1)
                (uniformJacobian skewCellGeom (3 + 1 / 2 ^ 51)) 0).pGrad phase 0)) * 1)) := rfl
    rw [hdef, fluxRateGradientsRounded_skew, harmonicMeanKRounded_apply, if_neg (by simp)]
    simp only [one_mul, zero_add, mul_one, roundDouble_neg_two_pow]
  have hv : roundDouble (-(2 ^ 51)⁻¹) = -(2 ^ 51)⁻¹ := by
    simpa using roundDouble_neg_two_pow
  refine ⟨?_, ?_, ?_, hD _, hD _, ?_, ?_⟩
  · intro d
    simp [uniformJacobian, skewCellGeom, Finset.sum_range_succ]
    norm_num
  · intro d
    rfl
  · intro k
    exact ⟨rfl, rfl⟩
  · simp only [fluxRateRounded, hD]
    simp [TwoPTwoCBoxJacobian, upwindNodes, uniformJacobian, sampleVarNodeData,
      roundDouble_one, roundDouble_zero, hv]
  · simp only [fluxRateRounded, hD]
    simp [TwoPTwoCBoxJacobian, upwindNodes, uniformJacobian, sampleVarNodeData,
      roundDouble_one, roundDouble_zero, hv]

/-- Claim C40, amended: in the arithmetic of `double`, at a face whose
gradient weights add up to the zero vector over the nodes of the cell, with
zero gravity and the same cached `pW` and the same cached `pN` at all nodes
of the cell, each component of the pressure gradient of a phase that
`fluxRate` computes is at most
`((1 + 2^-53)^(nNodes + 2) - 1) * |p| * sum_k |grad_k|` in absolute value, but
need not be zero; whenever the computed pressure gradients are zero, both
Darcy fluxes are 0 and the isothermal flux is zero in both equations,
whatever the densities, mobilities, mass fractions and permeabilities are. -/
theorem fluxRateRounded_no_force {dim : Nat} (self : TwoPTwoCBoxJacobianBase dim)
    (flux : UnknownsVector) (faceId : Nat) (pW0 pN0 : Scalar)
    (hgrad : ∀ d, ∑ k in Finset.range self.curCellGeom_.nNodes,
      (self.curCellGeom_.subContVolFace faceId).grad k d = 0)
    (hgrav : ∀ d, self.problem_.gravity d = 0)
    (hp : ∀ k, k < self.curCellGeom_.nNodes →
      (self.curSolCache_.atSCV k).pW = pW0 ∧ (self.curSolCache_.atSCV k).pN = pN0) :
    (∀ d, |(fluxRateGradientsRounded roundDouble (TwoPTwoCBoxJacobian dim) self
        faceId).pGrad WPhaseIndex d|
      ≤ ((1 + 1 / 2 ^ 53) ^ (self.curCellGeom_.nNodes + 2) - 1) *
        (|pW0| * ∑ k in Finset.range self.curCellGeom_.nNodes,
          |(self.curCellGeom_.subContVolFace faceId).grad k d|)) ∧
    (∀ d, |(fluxRateGradientsRounded roundDouble (TwoPTwoCBoxJacobian dim) self
        faceId).pGrad NPhaseIndex d|
      ≤ ((1 + 1 / 2 ^ 53) ^ (self.curCellGeom_.nNodes + 2) - 1) *
        (|pN0| * ∑ k in Finset.range self.curCellGeom_.nNodes,
          |(self.curCellGeom_.subContVolFace faceId).grad k d|)) ∧
    ((∀ phase d, (fluxRateGradientsRounded roundDouble (TwoPTwoCBoxJacobian dim) self
        faceId).pGrad phase d = 0) →
      fluxRateDarcyRounded roundDouble (TwoPTwoCBoxJacobian dim) self faceId WPhaseIndex = 0 ∧
      fluxRateDarcyRounded roundDouble (TwoPTwoCBoxJacobian dim) self faceId NPhaseIndex = 0 ∧
      fluxRateRounded roundDouble (TwoPTwoCBoxJacobian dim) self flux faceId = fun _ => 0) := by
  have hfl : ∀ q, |roundDouble q - q| ≤ 1 / 2 ^ 53 * |q| := by
    intro q
    have h := roundDouble_error q
    have e : |q| / 2 ^ 53 = 1 / 2 ^ 53 * |q| := by ring
    rw [e] at h
    exact h
  refine ⟨?_, ?_, ?_⟩
  · intro d
    exact fluxRateGradientsRounded_bound roundDouble (1 / 2 ^ 53) (by norm_num) hfl
      (TwoPTwoCBoxJacobian dim) self faceId WPhaseIndex pW0 hgrad hgrav
      (fun k hk => by simpa using (hp k hk).1) d
  · intro d
    exact fluxRateGradientsRounded_bound roundDouble (1 / 2 ^ 53) (by norm_num) hfl
      (TwoPTwoCBoxJacobian dim) self faceId NPhaseIndex pN0 hgrad hgrav
      (fun k hk => by simpa using (hp k hk).2) d
  · intro hz
    obtain ⟨hv, hflux⟩ := fluxRateRounded_zero_gradient roundDouble roundDouble_zero self flux
      faceId hz
    exact ⟨hv _, hv _, hflux⟩

/-- The flux of C40 in `double` for the geometry `lineCellGeom`, with the
gradient weights -1, 1 and 0, and the pressure 1 at all nodes: the computed
pressure gradients are zero, and so are the Darcy fluxes and the flux. -/
theorem fluxRateRounded_no_force_witness :
    fluxRateDarcyRounded roundDouble (TwoPTwoCBoxJacobian 1) (uniformJacobian lineCellGeom 1)
      0 WPhaseIndex = 0 ∧
    fluxRateDarcyRounded roundDouble (TwoPTwoCBoxJacobian 1) (uniformJacobian lineCellGeom 1)
      0 NPhaseIndex = 0 ∧
    fluxRateRounded roundDouble (TwoPTwoCBoxJacobian 1) (uniformJacobian lineCellGeom 1)
      (fun _ => 7) 0 = fun _ => 0 := by
  have hneg : roundDouble (-1) = -1 := by
    have h := roundDouble_of_near_abs (-1) 0 (-(2 ^ 52))
      (by rw [abs_neg, abs_of_pos (by norm_num)]; norm_num)
      (by rw [abs_neg, abs_of_pos (by norm_num)]; norm_num)
      (by rw [abs_lt]; constructor <;> norm_num)
    rw [h]
    norm_num
  have hz : ∀ (phase : Fin NumPhases) (d : Fin 1),
      (fluxRateGradientsRounded roundDouble (TwoPTwoCBoxJacobian 1)
        (uniformJacobian lineCellGeom 1) 0).pGrad phase d = 0 := by
    intro phase d
    have hd : d = 0 := Subsingleton.elim _ _
    subst hd
    have hdef : (fluxRateGradientsRounded roundDouble (TwoPTwoCBoxJacobian 1)
        (uniformJacobian lineCellGeom 1) 0).pGrad phase 0
        = roundDouble (roundDouble (roundDouble (roundDouble (0
              + roundDouble (-1 * 1))
            + roundDouble (1 * 1))
            + roundDouble (0 * 1))
          - roundDouble (0 * 1)) := by
      fin_cases phase <;> rfl
    rw [hdef]
    simp [roundDouble_one, roundDouble_zero, hneg]
  exact (fluxRateRounded_no_force (uniformJacobian lineCellGeom 1) (fun _ => 7) 0 1 1
    (by intro d; simp [uniformJacobian, lineCellGeom, Finset.sum_range_succ])
    (by intro d; rfl)
    (by intro k _; exact ⟨rfl, rfl⟩)).2.2 hz

end Dune
